import Mathlib

/-!
# StartupBridge activity logger (`src/logger.js`)

A shallow embedding of the `Logger` class: the logger's fields are a record,
the browser and the Firestore sink are an explicit `World` that every
operation threads through, and a JavaScript `throw` (or a rejected promise of
an `async` method) is the `Outcome.threw` result.  The operations are embedded
in the order in which the source executes them when no other task is
interleaved at an `await`.
-/

namespace StartupBridge

/-! ## JavaScript values and JSON -/

/-- A JSON value, as `JSON.parse` produces it. -/
inductive Json where
  | null
  | bool (b : Bool)
  | num (n : Int)
  | str (s : String)
  | arr (xs : List Json)
  | obj (fields : List (String × Json))

/-- A runtime JavaScript value (numbers are restricted to integers).
`bigint` and `circular` (an object that references itself) are the values on
which `JSON.stringify` throws a `TypeError`. -/
inductive JsValue where
  | undefined
  | null
  | bool (b : Bool)
  | num (n : Int)
  | str (s : String)
  | bigint (n : Int)
  | circular
  | arr (xs : List JsValue)
  | obj (fields : List (String × JsValue))

/-- A thrown JavaScript error value. -/
inductive JsError where
  | typeError (message : String)
  | parseError (message : String)
  | domException (name : String)
  | firebaseError (code : String)
  deriving DecidableEq, Repr

mutual
/-- The runtime value that `JSON.parse` builds for a JSON value. -/
def Json.toJs : Json → JsValue
  | .null => .null
  | .bool b => .bool b
  | .num n => .num n
  | .str s => .str s
  | .arr xs => .arr (Json.toJsList xs)
  | .obj fields => .obj (Json.toJsFields fields)
/-- Elementwise `Json.toJs`. -/
def Json.toJsList : List Json → List JsValue
  | [] => []
  | x :: xs => x.toJs :: Json.toJsList xs
/-- Fieldwise `Json.toJs`. -/
def Json.toJsFields : List (String × Json) → List (String × JsValue)
  | [] => []
  | (k, v) :: fields => (k, v.toJs) :: Json.toJsFields fields
end

mutual
/-- The serialisation `JSON.stringify` performs on a value nested in an array
or object, read back as JSON: `none` stands for "no text" (the value is
`undefined`), an error for the `TypeError` thrown on a BigInt or a cycle. -/
def JsValue.serialize : JsValue → Except JsError (Option Json)
  | .undefined => .ok none
  | .null => .ok (some .null)
  | .bool b => .ok (some (.bool b))
  | .num n => .ok (some (.num n))
  | .str s => .ok (some (.str s))
  | .bigint _ => .error (.typeError "Do not know how to serialize a BigInt")
  | .circular => .error (.typeError "Converting circular structure to JSON")
  | .arr xs =>
    match JsValue.serializeElems xs with
    | .ok ys => .ok (some (.arr ys))
    | .error e => .error e
  | .obj fields =>
    match JsValue.serializeFields fields with
    | .ok gs => .ok (some (.obj gs))
    | .error e => .error e
/-- Array elements: an `undefined` element is written as `null`. -/
def JsValue.serializeElems : List JsValue → Except JsError (List Json)
  | [] => .ok []
  | x :: xs =>
    match x.serialize with
    | .error e => .error e
    | .ok y =>
      match JsValue.serializeElems xs with
      | .error e => .error e
      | .ok ys => .ok (y.getD .null :: ys)
/-- Object fields: a field whose value is `undefined` is left out. -/
def JsValue.serializeFields :
    List (String × JsValue) → Except JsError (List (String × Json))
  | [] => .ok []
  | (k, v) :: fields =>
    match v.serialize with
    | .error e => .error e
    | .ok y =>
      match JsValue.serializeFields fields with
      | .error e => .error e
      | .ok gs =>
        match y with
        | none => .ok gs
        | some j => .ok ((k, j) :: gs)
end

/-- The function `JSON.stringify` applied to a value: `none` is the result
`undefined` (no text), otherwise the text, identified with the JSON value
that `JSON.parse` reads back from it. -/
def JSON.stringify (v : JsValue) : Except JsError (Option Json) :=
  v.serialize

/-! ## Log entries -/

/-- The object literal built in `logActivity`. -/
structure LogEntry where
  action : String
  data : JsValue
  level : String
  timestamp : String
  userAgent : String
  url : String
  sessionId : String
  userId : String

/-- The Firestore sentinel returned by `serverTimestamp()`. -/
inductive FieldValue where
  | serverTimestamp
  deriving DecidableEq, Repr

/-- The payload of `addDoc`: the entry's fields spread, plus `createdAt`. -/
structure ActivityLogDoc extends LogEntry where
  createdAt : FieldValue

/-- The log entry as a runtime object, fields in creation order. -/
def LogEntry.toJs (e : LogEntry) : JsValue :=
  .obj [("action", .str e.action), ("data", e.data), ("level", .str e.level),
    ("timestamp", .str e.timestamp), ("userAgent", .str e.userAgent),
    ("url", .str e.url), ("sessionId", .str e.sessionId), ("userId", .str e.userId)]

/-! ## The browser and the remote sink -/

/-- The text stored under a local-storage key. -/
inductive StoredText where
  /-- The empty string. -/
  | empty
  /-- A non-empty text that `JSON.parse` rejects. -/
  | malformed
  /-- A text that `JSON.parse` accepts, identified with the value it parses to. -/
  | json (v : Json)

/-- The part of `window.localStorage` the logger uses: the value under
`'startupbridge_logs'`, and whether `getItem` / `setItem` throw (storage
disabled, quota exceeded). -/
structure LocalStorage where
  logs : Option StoredText
  getItemThrows : Option JsError
  setItemThrows : StoredText → Option JsError

/-- The `console` method used for a trace. -/
inductive ConsoleMethod where
  | debug | info | warn | error | log
  deriving DecidableEq, Repr

/-- One argument of a console call. -/
inductive ConsoleArg where
  /-- A plain string. -/
  | text (s : String)
  /-- The template of `logToConsole`: level, action and the text of the data. -/
  | trace (level action : String) (dataText : Option Json)
  /-- A caught error object. -/
  | caught (e : JsError)

/-- One call of a `console` method. -/
structure ConsoleCall where
  method : ConsoleMethod
  args : List ConsoleArg

/-- Everything outside the logger object that its methods read or write. -/
structure World where
  /-- The current instant, `Date.now()`. -/
  clock : Nat
  /-- The rendering `Date.prototype.toISOString` of an instant. -/
  toISOString : Nat → String
  /-- The value `navigator.userAgent`. -/
  userAgent : String
  /-- The value `window.location.href`. -/
  href : String
  /-- The value `navigator.onLine`. -/
  onLine : Bool
  /-- The value `window.currentUserId` (`none`: undefined). -/
  currentUserId : Option String
  /-- The session-storage item `'startupbridge_session_id'`. -/
  sessionItem : Option String
  /-- The text `Math.random().toString(36).substr(2, 9)` of the n-th draw. -/
  random : Nat → String
  /-- The number of draws made so far. -/
  randomCalls : Nat
  localStorage : LocalStorage
  console : List ConsoleCall
  /-- The remote sink: whether the n-th `addDoc` call (counted from 0) with
  this payload is rejected, and with which error. -/
  sinkRejects : Nat → ActivityLogDoc → Option JsError
  /-- Every `addDoc` call made so far: collection name and payload. -/
  addDocCalls : List (String × ActivityLogDoc)
  /-- The documents the sink has accepted. -/
  documents : List ActivityLogDoc
  /-- The arguments of the `delay` calls made so far, in milliseconds. -/
  delays : List Nat

/-- The fields of the `Logger` object. -/
structure Logger where
  logLevel : String
  maxRetries : Nat
  retryDelay : Nat
  offline : Bool
  offlineQueue : List LogEntry

/-- The result of running a method: it returned, or it threw (an `async`
method: its promise was rejected). -/
abbrev Outcome := Except JsError Unit

/-- The constructor, `setupNetworkDetection` included: `offline` ends as the
negation of `navigator.onLine`. -/
def Logger.new (w : World) : Logger :=
  { logLevel := "INFO", maxRetries := 3, retryDelay := 1000,
    offline := !w.onLine, offlineQueue := [] }

/-- A call `console.<method>(args)`. -/
def World.consoleCall (w : World) (method : ConsoleMethod) (args : List ConsoleArg) :
    World :=
  { w with console := w.console ++ [⟨method, args⟩] }

/-- The call `addDoc(collection(db, name), payload)`, awaited. -/
def addDoc (name : String) (payload : ActivityLogDoc) (w : World) : Outcome × World :=
  let w1 := { w with addDocCalls := w.addDocCalls ++ [(name, payload)] }
  match w.sinkRejects w.addDocCalls.length payload with
  | none => (.ok (), { w1 with documents := w1.documents ++ [payload] })
  | some error => (.error error, w1)

/-- The method `delay(ms)`, awaited. -/
def Logger.delay (ms : Nat) (w : World) : World :=
  { w with delays := w.delays ++ [ms], clock := w.clock + ms }

/-- The method `saveToFirestore(logEntry, retries)`. -/
def Logger.saveToFirestore (this : Logger) (logEntry : LogEntry) (retries : Nat)
    (w : World) : Outcome × World :=
  match addDoc "activity_logs" { logEntry with createdAt := .serverTimestamp } w with
  | (.ok _, w1) => (.ok (), w1)
  | (.error error, w1) =>
    if retries < this.maxRetries then
      this.saveToFirestore logEntry (retries + 1)
        (Logger.delay (this.retryDelay * (retries + 1)) w1)
    else
      (.error error, w1)
termination_by this.maxRetries - retries
decreasing_by omega

/-- The value `localStorage.getItem('startupbridge_logs')`. -/
def LocalStorage.getItem (ls : LocalStorage) : Except JsError (Option StoredText) :=
  match ls.getItemThrows with
  | some error => .error error
  | none => .ok ls.logs

/-- The call `localStorage.setItem('startupbridge_logs', text)`. -/
def LocalStorage.setItem (ls : LocalStorage) (text : StoredText) :
    Except JsError LocalStorage :=
  match ls.setItemThrows text with
  | some error => .error error
  | none => .ok { ls with logs := some text }

/-- The function `JSON.parse`. -/
def JSON.parse : StoredText → Except JsError Json
  | .empty => .error (.parseError "Unexpected end of JSON input")
  | .malformed => .error (.parseError "Unexpected token")
  | .json v => .ok v

/-- The expression `item || '[]'`: null and the empty string are falsy. -/
def orEmptyArray : Option StoredText → StoredText
  | none => .json (.arr [])
  | some .empty => .json (.arr [])
  | some t => t

/-- The body of the `try` block of `saveToLocalStorage`.  (Were `JSON.stringify`
to return `undefined`, `setItem` would store the text `undefined`, which is not
JSON; it never does on an array.) -/
def Logger.saveToLocalStorage.tryBlock (logEntry : LogEntry) (ls : LocalStorage) :
    Except JsError LocalStorage :=
  match ls.getItem with
  | .error error => .error error
  | .ok item =>
    match JSON.parse (orEmptyArray item) with
    | .error error => .error error
    | .ok (.arr parsed) =>
      let logs := Json.toJsList parsed ++ [logEntry.toJs]
      let logs := if logs.length > 100 then logs.drop (logs.length - 100) else logs
      match JSON.stringify (.arr logs) with
      | .error error => .error error
      | .ok none => ls.setItem .malformed
      | .ok (some text) => ls.setItem (.json text)
    | .ok _ => .error (.typeError "logs.push is not a function")

/-- The method `saveToLocalStorage(logEntry)`. -/
def Logger.saveToLocalStorage (logEntry : LogEntry) (w : World) : World :=
  match Logger.saveToLocalStorage.tryBlock logEntry w.localStorage with
  | .ok ls => { w with localStorage := ls }
  | .error error =>
    w.consoleCall .error [.text "Failed to save log to localStorage:", .caught error]

/-- The method `logToConsole(logEntry)`. -/
def Logger.logToConsole (logEntry : LogEntry) (w : World) : Outcome × World :=
  match JSON.stringify logEntry.data with
  | .error error => (.error error, w)
  | .ok text =>
    let message := ConsoleArg.trace logEntry.level logEntry.action text
    let method :=
      if logEntry.level = "DEBUG" then ConsoleMethod.debug
      else if logEntry.level = "INFO" then ConsoleMethod.info
      else if logEntry.level = "WARN" then ConsoleMethod.warn
      else if logEntry.level = "ERROR" then ConsoleMethod.error
      else ConsoleMethod.log
    (.ok (), w.consoleCall method [message])

/-- Whether a string-or-null value is falsy in JavaScript. -/
def falsy : Option String → Bool
  | none => true
  | some s => s = ""

/-- The method `getSessionId()`. -/
def Logger.getSessionId (w : World) : String × World :=
  if falsy w.sessionItem then
    let sessionId := "session_" ++ toString w.clock ++ "_" ++ w.random w.randomCalls
    (sessionId, { w with sessionItem := some sessionId, randomCalls := w.randomCalls + 1 })
  else
    (w.sessionItem.getD "", w)

/-- The method `getCurrentUserId()`. -/
def Logger.getCurrentUserId (w : World) : String :=
  if falsy w.currentUserId then "anonymous" else w.currentUserId.getD ""

/-- The object literal at the head of `logActivity`, with the defaults of the
parameters applied (`data = {}` for `undefined`, `level = 'INFO'` when absent). -/
def Logger.buildEntry (action : String) (data : JsValue) (level : Option String)
    (w : World) : LogEntry × World :=
  let data := match data with
    | .undefined => JsValue.obj []
    | d => d
  let timestamp := w.toISOString w.clock
  let (sessionId, w1) := Logger.getSessionId w
  ({ action := action, data := data, level := level.getD "INFO",
     timestamp := timestamp, userAgent := w.userAgent, url := w.href,
     sessionId := sessionId, userId := Logger.getCurrentUserId w1 }, w1)

/-- The method `logActivity(action, data, level)`. -/
def Logger.logActivity (this : Logger) (action : String) (data : JsValue)
    (level : Option String) (w : World) : Outcome × Logger × World :=
  let (logEntry, w1) := Logger.buildEntry action data level w
  match Logger.logToConsole logEntry w1 with
  | (.error error, w2) => (.error error, this, w2)
  | (.ok _, w2) =>
    if this.offline then
      let this1 := { this with offlineQueue := this.offlineQueue ++ [logEntry] }
      (.ok (), this1, Logger.saveToLocalStorage logEntry w2)
    else
      match this.saveToFirestore logEntry 0 w2 with
      | (.ok _, w3) => (.ok (), this, w3)
      | (.error error, w3) =>
        let w4 := w3.consoleCall .error [.text "Failed to log to Firestore:", .caught error]
        let w5 := Logger.saveToLocalStorage logEntry w4
        (.ok (), { this with offlineQueue := this.offlineQueue ++ [logEntry] }, w5)

/-- The `for` loop of `flushOfflineQueue` over the snapshot `queueCopy`. -/
def Logger.flushLoop (this : Logger) (queueCopy : List LogEntry) (w : World) :
    Logger × World :=
  match queueCopy with
  | [] => (this, w)
  | logEntry :: rest =>
    match this.saveToFirestore logEntry 0 w with
    | (.ok _, w1) => this.flushLoop rest w1
    | (.error error, w1) =>
      let w2 := w1.consoleCall .error [.text "Failed to flush log entry:", .caught error]
      Logger.flushLoop { this with offlineQueue := this.offlineQueue ++ [logEntry] } rest w2

/-- The method `flushOfflineQueue()`. -/
def Logger.flushOfflineQueue (this : Logger) (w : World) : Logger × World :=
  if this.offlineQueue.length = 0 then (this, w)
  else
    let w1 := w.consoleCall .info
      [.text ("Flushing " ++ toString this.offlineQueue.length ++ " offline log entries")]
    let queueCopy := this.offlineQueue
    Logger.flushLoop { this with offlineQueue := [] } queueCopy w1

/-- The listener of the `online` event. -/
def Logger.onOnline (this : Logger) (w : World) : Logger × World :=
  Logger.flushOfflineQueue { this with offline := false } w

/-- The listener of the `offline` event. -/
def Logger.onOffline (this : Logger) : Logger :=
  { this with offline := true }

/-! ## Sequences of calls and vocabulary of the statements -/

/-- The arguments of one `logActivity` call. -/
structure Call where
  action : String
  data : JsValue
  level : Option String

/-- A sequence of `logActivity` calls, each awaited before the next is made;
a call that throws does not stop the following ones. -/
def Logger.logActivities (lg : Logger) : List Call → World → Logger × World
  | [], w => (lg, w)
  | c :: cs, w =>
    Logger.logActivities (lg.logActivity c.action c.data c.level w).2.1 cs
      (lg.logActivity c.action c.data c.level w).2.2

/-- The entries built by the calls of such a sequence, in call order. -/
def Logger.builtEntries (lg : Logger) : List Call → World → List LogEntry
  | [], _ => []
  | c :: cs, w =>
    (Logger.buildEntry c.action c.data c.level w).1 ::
      Logger.builtEntries (lg.logActivity c.action c.data c.level w).2.1 cs
        (lg.logActivity c.action c.data c.level w).2.2

/-- A sequence of `saveToLocalStorage` calls. -/
def Logger.saveAllToLocalStorage : List LogEntry → World → World
  | [], w => w
  | e :: es, w => Logger.saveAllToLocalStorage es (Logger.saveToLocalStorage e w)

/-- The payload `saveToFirestore` hands to `addDoc` for an entry. -/
def LogEntry.doc (e : LogEntry) : ActivityLogDoc :=
  { e with createdAt := .serverTimestamp }

/-- The `addDoc` call `saveToFirestore` makes for an entry. -/
def LogEntry.addDocCall (e : LogEntry) : String × ActivityLogDoc :=
  ("activity_logs", e.doc)

/-- The delays awaited before the first `k` retries that follow attempt number
`retries`: `retryDelay * (retries + 1)`, `retryDelay * (retries + 2)`, ... -/
def Logger.retrySchedule (lg : Logger) (retries k : Nat) : List Nat :=
  (List.range k).map (fun i => lg.retryDelay * (retries + 1 + i))

/-- Whether `JSON.stringify` returns on a value rather than throwing. -/
def JsValue.serialisable (v : JsValue) : Bool :=
  match JSON.stringify v with
  | .ok _ => true
  | .error _ => false

/-- The last `n` elements of a list. -/
def lastEntries {α : Type} (n : Nat) (xs : List α) : List α :=
  xs.drop (xs.length - n)

/-- The JSON value an entry is read back as from the mirror (meaningful when
the entry's data can be serialised). -/
def LogEntry.json (e : LogEntry) : Json :=
  match JSON.stringify e.toJs with
  | .ok (some j) => j
  | _ => .null

/-- The entries held by the local-storage mirror, when the stored text (or the
default `'[]'` that replaces a missing or empty one) is a JSON array. -/
def LocalStorage.mirror (ls : LocalStorage) : Option (List Json) :=
  match orEmptyArray ls.logs with
  | .json (.arr xs) => some xs
  | _ => none

/-- Local storage is working: neither `getItem` nor `setItem` throws. -/
def LocalStorage.working (ls : LocalStorage) : Prop :=
  ls.getItemThrows = none ∧ ∀ t, ls.setItemThrows t = none

/-- The sink rejects every one of the `1 + maxRetries` attempts that
`saveToFirestore` can make for the entry, starting from the world `w`. -/
def Logger.allAttemptsFail (lg : Logger) (e : LogEntry) (w : World) : Prop :=
  ∀ i, i ≤ lg.maxRetries → (w.sinkRejects (w.addDocCalls.length + i) e.doc).isSome = true

/-- The entry a `logActivity` call builds. -/
def Logger.entryOf (action : String) (data : JsValue) (level : Option String)
    (w : World) : LogEntry :=
  (Logger.buildEntry action data level w).1

/-- The world in which a `logActivity` call tests `this.offline`: the entry
is built and its console trace is written. -/
def Logger.tracedWorld (action : String) (data : JsValue) (level : Option String)
    (w : World) : World :=
  (Logger.logToConsole (Logger.buildEntry action data level w).1
    (Logger.buildEntry action data level w).2).2

/-- A step of the `try` block of `saveToLocalStorage(e)` throws: `getItem`, or
`JSON.parse` (the stored text is not JSON), or, once an array has been read,
`JSON.stringify` (the entry cannot be serialised) or `setItem` (the quota is
exceeded for the new text). -/
def LocalStorage.stepThrows (ls : LocalStorage) (e : LogEntry) : Prop :=
  ls.getItemThrows.isSome = true ∨
  ls.logs = some .malformed ∨
  ∃ L, ls.mirror = some L ∧
    (e.data.serialisable = false ∨
      (ls.setItemThrows (.json (.arr (lastEntries 100 (L ++ [e.json]))))).isSome = true)

/-- The entries recorded by a sequence of calls: those of the calls that got
past the console trace (their data could be serialised). -/
def Logger.recordedEntries (lg : Logger) (calls : List Call) (w : World) : List LogEntry :=
  (lg.builtEntries calls w).filter (fun e => e.data.serialisable)

/-- The mirror holds at most 100 entries (a stored text that is not an array
holds none). -/
def LocalStorage.bounded (ls : LocalStorage) : Prop :=
  ∀ M, ls.mirror = some M → M.length ≤ 100

/-! ## Posts, search and browse (`src/database.js`, `src/dashboard.js`) -/

/-- A document of the `posts` collection, with the fields the code reads.
`title`, `description` and `category` are `none` when the document lacks the
field (the code calls a method on them). -/
structure Post where
  id : String
  type : String
  status : String
  userId : String
  category : Option String
  title : Option String
  description : Option String
  createdAt : Nat

/-- A document of the `users` collection, as far as the code reads it. -/
structure UserProfile where
  uid : String
  email : String
  name : String
  role : Option String

/-- The Firestore collections read by the dashboard: the `posts` documents,
whether a query on them is rejected, and the result of reading a `users`
document. -/
structure Firestore where
  posts : List Post
  getDocsThrows : Option JsError
  userDoc : String → Except JsError (Option UserProfile)

/-- The argument `filters` of `getPosts`; `none` is an absent key. -/
structure PostFilters where
  type : Option String
  category : Option String
  userId : Option String
  limit : Option Nat

/-- The object `{}` as filters. -/
def PostFilters.empty : PostFilters :=
  { type := none, category := none, userId := none, limit := none }

/-- The `where` constraints `getPosts` builds: `status == 'active'`, and one
equality per filter whose value is truthy. -/
def PostFilters.admits (filters : PostFilters) (p : Post) : Bool :=
  p.status = "active" &&
    (falsy filters.type || p.type = filters.type.getD "") &&
    (falsy filters.category || p.category = filters.category) &&
    (falsy filters.userId || p.userId = filters.userId.getD "")

/-- The function `getPosts(filters)` of `database.js`: the documents admitted by
the constraints, newest first, cut to `limit` when it is truthy. -/
def getPosts (fs : Firestore) (filters : PostFilters) (w : World) :
    Except JsError (List Post) × World :=
  match fs.getDocsThrows with
  | some error =>
    (.error error, w.consoleCall .error [.text "Error fetching posts:", .caught error])
  | none =>
    let ordered := (fs.posts.filter filters.admits).insertionSort
      (fun a b => a.createdAt ≥ b.createdAt)
    match filters.limit with
    | none => (.ok ordered, w)
    | some n => if n = 0 then (.ok ordered, w) else (.ok (ordered.take n), w)

/-- The simple lowercase mappings of the Unicode Character Database (version
14.0), as runs `(first, last, image of first, step)`: the code points `first`,
`first + step`, ... up to `last` map to `image`, `image + step`, ...  The runs
are in increasing order. -/
def lowercaseRuns : List (Nat × Nat × Nat × Nat) :=
  [
    (65, 90, 97, 1), (192, 214, 224, 1), (216, 222, 248, 1), (256, 302, 257, 2),
    (306, 310, 307, 2), (313, 327, 314, 2), (330, 374, 331, 2), (376, 376, 255, 1),
    (377, 381, 378, 2), (385, 385, 595, 1), (386, 388, 387, 2), (390, 390, 596, 1),
    (391, 391, 392, 1), (393, 394, 598, 1), (395, 395, 396, 1), (398, 398, 477, 1),
    (399, 399, 601, 1), (400, 400, 603, 1), (401, 401, 402, 1), (403, 403, 608, 1),
    (404, 404, 611, 1), (406, 406, 617, 1), (407, 407, 616, 1), (408, 408, 409, 1),
    (412, 412, 623, 1), (413, 413, 626, 1), (415, 415, 629, 1), (416, 420, 417, 2),
    (422, 422, 640, 1), (423, 423, 424, 1), (425, 425, 643, 1), (428, 428, 429, 1),
    (430, 430, 648, 1), (431, 431, 432, 1), (433, 434, 650, 1), (435, 437, 436, 2),
    (439, 439, 658, 1), (440, 440, 441, 1), (444, 444, 445, 1), (452, 452, 454, 1),
    (453, 453, 454, 1), (455, 455, 457, 1), (456, 456, 457, 1), (458, 458, 460, 1),
    (459, 475, 460, 2), (478, 494, 479, 2), (497, 497, 499, 1), (498, 500, 499, 2),
    (502, 502, 405, 1), (503, 503, 447, 1), (504, 542, 505, 2), (544, 544, 414, 1),
    (546, 562, 547, 2), (570, 570, 11365, 1), (571, 571, 572, 1), (573, 573, 410, 1),
    (574, 574, 11366, 1), (577, 577, 578, 1), (579, 579, 384, 1), (580, 580, 649, 1),
    (581, 581, 652, 1), (582, 590, 583, 2), (880, 882, 881, 2), (886, 886, 887, 1),
    (895, 895, 1011, 1), (902, 902, 940, 1), (904, 906, 941, 1), (908, 908, 972, 1),
    (910, 911, 973, 1), (913, 929, 945, 1), (932, 939, 964, 1), (975, 975, 983, 1),
    (984, 1006, 985, 2), (1012, 1012, 952, 1), (1015, 1015, 1016, 1), (1017, 1017, 1010, 1),
    (1018, 1018, 1019, 1), (1021, 1023, 891, 1), (1024, 1039, 1104, 1), (1040, 1071, 1072, 1),
    (1120, 1152, 1121, 2), (1162, 1214, 1163, 2), (1216, 1216, 1231, 1), (1217, 1229, 1218, 2),
    (1232, 1326, 1233, 2), (1329, 1366, 1377, 1), (4256, 4293, 11520, 1), (4295, 4295, 11559, 1),
    (4301, 4301, 11565, 1), (5024, 5103, 43888, 1), (5104, 5109, 5112, 1), (7312, 7354, 4304, 1),
    (7357, 7359, 4349, 1), (7680, 7828, 7681, 2), (7838, 7838, 223, 1), (7840, 7934, 7841, 2),
    (7944, 7951, 7936, 1), (7960, 7965, 7952, 1), (7976, 7983, 7968, 1), (7992, 7999, 7984, 1),
    (8008, 8013, 8000, 1), (8025, 8031, 8017, 2), (8040, 8047, 8032, 1), (8072, 8079, 8064, 1),
    (8088, 8095, 8080, 1), (8104, 8111, 8096, 1), (8120, 8121, 8112, 1), (8122, 8123, 8048, 1),
    (8124, 8124, 8115, 1), (8136, 8139, 8050, 1), (8140, 8140, 8131, 1), (8152, 8153, 8144, 1),
    (8154, 8155, 8054, 1), (8168, 8169, 8160, 1), (8170, 8171, 8058, 1), (8172, 8172, 8165, 1),
    (8184, 8185, 8056, 1), (8186, 8187, 8060, 1), (8188, 8188, 8179, 1), (8486, 8486, 969, 1),
    (8490, 8490, 107, 1), (8491, 8491, 229, 1), (8498, 8498, 8526, 1), (8544, 8559, 8560, 1),
    (8579, 8579, 8580, 1), (9398, 9423, 9424, 1), (11264, 11311, 11312, 1),
    (11360, 11360, 11361, 1), (11362, 11362, 619, 1), (11363, 11363, 7549, 1),
    (11364, 11364, 637, 1), (11367, 11371, 11368, 2), (11373, 11373, 593, 1),
    (11374, 11374, 625, 1), (11375, 11375, 592, 1), (11376, 11376, 594, 1),
    (11378, 11378, 11379, 1), (11381, 11381, 11382, 1), (11390, 11391, 575, 1),
    (11392, 11490, 11393, 2), (11499, 11501, 11500, 2), (11506, 11506, 11507, 1),
    (42560, 42604, 42561, 2), (42624, 42650, 42625, 2), (42786, 42798, 42787, 2),
    (42802, 42862, 42803, 2), (42873, 42875, 42874, 2), (42877, 42877, 7545, 1),
    (42878, 42886, 42879, 2), (42891, 42891, 42892, 1), (42893, 42893, 613, 1),
    (42896, 42898, 42897, 2), (42902, 42920, 42903, 2), (42922, 42922, 614, 1),
    (42923, 42923, 604, 1), (42924, 42924, 609, 1), (42925, 42925, 620, 1),
    (42926, 42926, 618, 1), (42928, 42928, 670, 1), (42929, 42929, 647, 1),
    (42930, 42930, 669, 1), (42931, 42931, 43859, 1), (42932, 42946, 42933, 2),
    (42948, 42948, 42900, 1), (42949, 42949, 642, 1), (42950, 42950, 7566, 1),
    (42951, 42953, 42952, 2), (42960, 42960, 42961, 1), (42966, 42968, 42967, 2),
    (42997, 42997, 42998, 1), (65313, 65338, 65345, 1), (66560, 66599, 66600, 1),
    (66736, 66771, 66776, 1), (66928, 66938, 66967, 1), (66940, 66954, 66979, 1),
    (66956, 66962, 66995, 1), (66964, 66965, 67003, 1), (68736, 68786, 68800, 1),
    (71840, 71871, 71872, 1), (93760, 93791, 93792, 1), (125184, 125217, 125218, 1) ]

/-- The code points with the property `Case_Ignorable`, as intervals. -/
def caseIgnorableRuns : List (Nat × Nat) :=
  [
    (39, 39), (46, 46), (58, 58), (94, 94), (96, 96), (168, 168), (173, 173), (175, 175),
    (180, 180), (183, 184), (688, 879), (884, 885), (890, 890), (900, 901), (903, 903),
    (1155, 1161), (1369, 1369), (1375, 1375), (1425, 1469), (1471, 1471), (1473, 1474),
    (1476, 1477), (1479, 1479), (1524, 1524), (1536, 1541), (1552, 1562), (1564, 1564),
    (1600, 1600), (1611, 1631), (1648, 1648), (1750, 1757), (1759, 1768), (1770, 1773),
    (1807, 1807), (1809, 1809), (1840, 1866), (1958, 1968), (2027, 2037), (2042, 2042),
    (2045, 2045), (2070, 2093), (2137, 2139), (2184, 2184), (2192, 2193), (2200, 2207),
    (2249, 2306), (2362, 2362), (2364, 2364), (2369, 2376), (2381, 2381), (2385, 2391),
    (2402, 2403), (2417, 2417), (2433, 2433), (2492, 2492), (2497, 2500), (2509, 2509),
    (2530, 2531), (2558, 2558), (2561, 2562), (2620, 2620), (2625, 2626), (2631, 2632),
    (2635, 2637), (2641, 2641), (2672, 2673), (2677, 2677), (2689, 2690), (2748, 2748),
    (2753, 2757), (2759, 2760), (2765, 2765), (2786, 2787), (2810, 2815), (2817, 2817),
    (2876, 2876), (2879, 2879), (2881, 2884), (2893, 2893), (2901, 2902), (2914, 2915),
    (2946, 2946), (3008, 3008), (3021, 3021), (3072, 3072), (3076, 3076), (3132, 3132),
    (3134, 3136), (3142, 3144), (3146, 3149), (3157, 3158), (3170, 3171), (3201, 3201),
    (3260, 3260), (3263, 3263), (3270, 3270), (3276, 3277), (3298, 3299), (3328, 3329),
    (3387, 3388), (3393, 3396), (3405, 3405), (3426, 3427), (3457, 3457), (3530, 3530),
    (3538, 3540), (3542, 3542), (3633, 3633), (3636, 3642), (3654, 3662), (3761, 3761),
    (3764, 3772), (3782, 3782), (3784, 3789), (3864, 3865), (3893, 3893), (3895, 3895),
    (3897, 3897), (3953, 3966), (3968, 3972), (3974, 3975), (3981, 3991), (3993, 4028),
    (4038, 4038), (4141, 4144), (4146, 4151), (4153, 4154), (4157, 4158), (4184, 4185),
    (4190, 4192), (4209, 4212), (4226, 4226), (4229, 4230), (4237, 4237), (4253, 4253),
    (4348, 4348), (4957, 4959), (5906, 5908), (5938, 5939), (5970, 5971), (6002, 6003),
    (6068, 6069), (6071, 6077), (6086, 6086), (6089, 6099), (6103, 6103), (6109, 6109),
    (6155, 6159), (6211, 6211), (6277, 6278), (6313, 6313), (6432, 6434), (6439, 6440),
    (6450, 6450), (6457, 6459), (6679, 6680), (6683, 6683), (6742, 6742), (6744, 6750),
    (6752, 6752), (6754, 6754), (6757, 6764), (6771, 6780), (6783, 6783), (6823, 6823),
    (6832, 6862), (6912, 6915), (6964, 6964), (6966, 6970), (6972, 6972), (6978, 6978),
    (7019, 7027), (7040, 7041), (7074, 7077), (7080, 7081), (7083, 7085), (7142, 7142),
    (7144, 7145), (7149, 7149), (7151, 7153), (7212, 7219), (7222, 7223), (7288, 7293),
    (7376, 7378), (7380, 7392), (7394, 7400), (7405, 7405), (7412, 7412), (7416, 7417),
    (7468, 7530), (7544, 7544), (7579, 7679), (8125, 8125), (8127, 8129), (8141, 8143),
    (8157, 8159), (8173, 8175), (8189, 8190), (8203, 8207), (8216, 8217), (8228, 8228),
    (8231, 8231), (8234, 8238), (8288, 8292), (8294, 8303), (8305, 8305), (8319, 8319),
    (8336, 8348), (8400, 8432), (11388, 11389), (11503, 11505), (11631, 11631), (11647, 11647),
    (11744, 11775), (11823, 11823), (12293, 12293), (12330, 12333), (12337, 12341),
    (12347, 12347), (12441, 12446), (12540, 12542), (40981, 40981), (42232, 42237),
    (42508, 42508), (42607, 42610), (42612, 42621), (42623, 42623), (42652, 42655),
    (42736, 42737), (42752, 42785), (42864, 42864), (42888, 42890), (42994, 42996),
    (43000, 43001), (43010, 43010), (43014, 43014), (43019, 43019), (43045, 43046),
    (43052, 43052), (43204, 43205), (43232, 43249), (43263, 43263), (43302, 43309),
    (43335, 43345), (43392, 43394), (43443, 43443), (43446, 43449), (43452, 43453),
    (43471, 43471), (43493, 43494), (43561, 43566), (43569, 43570), (43573, 43574),
    (43587, 43587), (43596, 43596), (43632, 43632), (43644, 43644), (43696, 43696),
    (43698, 43700), (43703, 43704), (43710, 43711), (43713, 43713), (43741, 43741),
    (43756, 43757), (43763, 43764), (43766, 43766), (43867, 43871), (43881, 43883),
    (44005, 44005), (44008, 44008), (44013, 44013), (64286, 64286), (64434, 64450),
    (65024, 65039), (65043, 65043), (65056, 65071), (65106, 65106), (65109, 65109),
    (65279, 65279), (65287, 65287), (65294, 65294), (65306, 65306), (65342, 65342),
    (65344, 65344), (65392, 65392), (65438, 65439), (65507, 65507), (65529, 65531),
    (66045, 66045), (66272, 66272), (66422, 66426), (67456, 67461), (67463, 67504),
    (67506, 67514), (68097, 68099), (68101, 68102), (68108, 68111), (68152, 68154),
    (68159, 68159), (68325, 68326), (68900, 68903), (69291, 69292), (69446, 69456),
    (69506, 69509), (69633, 69633), (69688, 69702), (69744, 69744), (69747, 69748),
    (69759, 69761), (69811, 69814), (69817, 69818), (69821, 69821), (69826, 69826),
    (69837, 69837), (69888, 69890), (69927, 69931), (69933, 69940), (70003, 70003),
    (70016, 70017), (70070, 70078), (70089, 70092), (70095, 70095), (70191, 70193),
    (70196, 70196), (70198, 70199), (70206, 70206), (70367, 70367), (70371, 70378),
    (70400, 70401), (70459, 70460), (70464, 70464), (70502, 70508), (70512, 70516),
    (70712, 70719), (70722, 70724), (70726, 70726), (70750, 70750), (70835, 70840),
    (70842, 70842), (70847, 70848), (70850, 70851), (71090, 71093), (71100, 71101),
    (71103, 71104), (71132, 71133), (71219, 71226), (71229, 71229), (71231, 71232),
    (71339, 71339), (71341, 71341), (71344, 71349), (71351, 71351), (71453, 71455),
    (71458, 71461), (71463, 71467), (71727, 71735), (71737, 71738), (71995, 71996),
    (71998, 71998), (72003, 72003), (72148, 72151), (72154, 72155), (72160, 72160),
    (72193, 72202), (72243, 72248), (72251, 72254), (72263, 72263), (72273, 72278),
    (72281, 72283), (72330, 72342), (72344, 72345), (72752, 72758), (72760, 72765),
    (72767, 72767), (72850, 72871), (72874, 72880), (72882, 72883), (72885, 72886),
    (73009, 73014), (73018, 73018), (73020, 73021), (73023, 73029), (73031, 73031),
    (73104, 73105), (73109, 73109), (73111, 73111), (73459, 73460), (78896, 78904),
    (92912, 92916), (92976, 92982), (92992, 92995), (94031, 94031), (94095, 94111),
    (94176, 94177), (94179, 94180), (110576, 110579), (110581, 110587), (110589, 110590),
    (113821, 113822), (113824, 113827), (118528, 118573), (118576, 118598), (119143, 119145),
    (119155, 119170), (119173, 119179), (119210, 119213), (119362, 119364), (121344, 121398),
    (121403, 121452), (121461, 121461), (121476, 121476), (121499, 121503), (121505, 121519),
    (122880, 122886), (122888, 122904), (122907, 122913), (122915, 122916), (122918, 122922),
    (123184, 123197), (123566, 123566), (123628, 123631), (125136, 125142), (125252, 125259),
    (127995, 127999), (917505, 917505), (917536, 917631), (917760, 917999) ]

/-- The code points with the property `Cased` and without `Case_Ignorable`, as
intervals. -/
def casedRuns : List (Nat × Nat) :=
  [
    (65, 90), (97, 122), (170, 170), (181, 181), (186, 186), (192, 214), (216, 246), (248, 442),
    (444, 447), (452, 659), (661, 687), (880, 883), (886, 887), (891, 893), (895, 895),
    (902, 902), (904, 906), (908, 908), (910, 929), (931, 1013), (1015, 1153), (1162, 1327),
    (1329, 1366), (1376, 1416), (4256, 4293), (4295, 4295), (4301, 4301), (4304, 4346),
    (4349, 4351), (5024, 5109), (5112, 5117), (7296, 7304), (7312, 7354), (7357, 7359),
    (7424, 7467), (7531, 7543), (7545, 7578), (7680, 7957), (7960, 7965), (7968, 8005),
    (8008, 8013), (8016, 8023), (8025, 8025), (8027, 8027), (8029, 8029), (8031, 8061),
    (8064, 8116), (8118, 8124), (8126, 8126), (8130, 8132), (8134, 8140), (8144, 8147),
    (8150, 8155), (8160, 8172), (8178, 8180), (8182, 8188), (8450, 8450), (8455, 8455),
    (8458, 8467), (8469, 8469), (8473, 8477), (8484, 8484), (8486, 8486), (8488, 8488),
    (8490, 8493), (8495, 8500), (8505, 8505), (8508, 8511), (8517, 8521), (8526, 8526),
    (8544, 8575), (8579, 8580), (9398, 9449), (11264, 11387), (11390, 11492), (11499, 11502),
    (11506, 11507), (11520, 11557), (11559, 11559), (11565, 11565), (42560, 42605),
    (42624, 42651), (42786, 42863), (42865, 42887), (42891, 42894), (42896, 42954),
    (42960, 42961), (42963, 42963), (42965, 42969), (42997, 42998), (43002, 43002),
    (43824, 43866), (43872, 43880), (43888, 43967), (64256, 64262), (64275, 64279),
    (65313, 65338), (65345, 65370), (66560, 66639), (66736, 66771), (66776, 66811),
    (66928, 66938), (66940, 66954), (66956, 66962), (66964, 66965), (66967, 66977),
    (66979, 66993), (66995, 67001), (67003, 67004), (68736, 68786), (68800, 68850),
    (71840, 71903), (93760, 93823), (119808, 119892), (119894, 119964), (119966, 119967),
    (119970, 119970), (119973, 119974), (119977, 119980), (119982, 119993), (119995, 119995),
    (119997, 120003), (120005, 120069), (120071, 120074), (120077, 120084), (120086, 120092),
    (120094, 120121), (120123, 120126), (120128, 120132), (120134, 120134), (120138, 120144),
    (120146, 120485), (120488, 120512), (120514, 120538), (120540, 120570), (120572, 120596),
    (120598, 120628), (120630, 120654), (120656, 120686), (120688, 120712), (120714, 120744),
    (120746, 120770), (120772, 120779), (122624, 122633), (122635, 122654), (125184, 125251),
    (127280, 127305), (127312, 127337), (127344, 127369) ]

/-- Whether a code point lies in one of the intervals, which are in increasing
order. -/
def inRuns : List (Nat × Nat) → Nat → Bool
  | [], _ => false
  | (first, last) :: rest, n =>
    if n < first then false
    else if n ≤ last then true
    else inRuns rest n

/-- The image of a code point under the simple lowercase mapping, if it has one. -/
def lowercaseImage : List (Nat × Nat × Nat × Nat) → Nat → Option Nat
  | [], _ => none
  | (first, last, image, step) :: rest, n =>
    if n < first then none
    else if n ≤ last then
      if (n - first) % step = 0 then some (image + (n - first)) else none
    else lowercaseImage rest n

/-- The lowercase of one character that is not a capital sigma: the image under
the simple mapping, and `i` followed by a combining dot for the capital I with
dot above. -/
def lowerChar (c : Char) : List Char :=
  if c.toNat = 304 then [Char.ofNat 105, Char.ofNat 775]
  else
    match lowercaseImage lowercaseRuns c.toNat with
    | some n => [Char.ofNat n]
    | none => [c]

/-- Whether the characters, read from the first on, are case-ignorable ones
followed by a cased letter. -/
def casedLetterNext : List Char → Bool
  | [] => false
  | c :: cs =>
    if inRuns caseIgnorableRuns c.toNat then casedLetterNext cs
    else inRuns casedRuns c.toNat

/-- The condition `Final_Sigma` for a capital sigma: a cased letter comes
before it (`before` holds the preceding characters, the nearest first) and none
comes after it, case-ignorable characters apart. -/
def finalSigma (before after : List Char) : Bool :=
  casedLetterNext before && !casedLetterNext after

/-- The lowercase of the characters `rest`, preceded by `before` (nearest
first). -/
def lowerFrom : List Char → List Char → List Char
  | _, [] => []
  | before, c :: rest =>
    (if c.toNat = 931 then [Char.ofNat (if finalSigma before rest then 962 else 963)]
      else lowerChar c) ++ lowerFrom (c :: before) rest

/-- The method `toLowerCase()`: the default case conversion of Unicode, with the
language-independent special cases (the final sigma, the capital I with dot
above). -/
def toLowerCase (s : String) : String :=
  ⟨lowerFrom [] s.data⟩

/-- Whether the characters `needle` are the first characters of `hay`. -/
def startsWithChars : List Char → List Char → Bool
  | _, [] => true
  | [], _ :: _ => false
  | h :: hay, n :: needle => h = n && startsWithChars hay needle

/-- Whether the characters `needle` occur in `hay` as a run. -/
def includesChars : List Char → List Char → Bool
  | [], needle => needle.isEmpty
  | h :: hay, needle => startsWithChars (h :: hay) needle || includesChars hay needle

/-- The method `includes`: `needle` occurs in `s` as a run of characters. -/
def includes (s needle : String) : Bool :=
  includesChars s.data needle.data

/-- The callback of `posts.filter` in `searchPosts`; a missing field makes
`toLowerCase` throw a `TypeError`. -/
def searchMatch (searchTerm : String) (post : Post) : Except JsError Bool :=
  match post.title with
  | none => .error (.typeError "Cannot read properties of undefined (reading 'toLowerCase')")
  | some title =>
    match post.description with
    | none => .error (.typeError "Cannot read properties of undefined (reading 'toLowerCase')")
    | some description =>
      match post.category with
      | none =>
        .error (.typeError "Cannot read properties of undefined (reading 'toLowerCase')")
      | some category =>
        .ok (includes (toLowerCase title) (toLowerCase searchTerm) ||
          includes (toLowerCase description) (toLowerCase searchTerm) ||
          includes (toLowerCase category) (toLowerCase searchTerm))

/-- The call `posts.filter(callback)` with a callback that may throw. -/
def filterPosts (searchTerm : String) : List Post → Except JsError (List Post)
  | [] => .ok []
  | post :: rest =>
    match searchMatch searchTerm post with
    | .error error => .error error
    | .ok keep =>
      match filterPosts searchTerm rest with
      | .error error => .error error
      | .ok kept => .ok (if keep then post :: kept else kept)

/-- The function `searchPosts(searchTerm, filters)` of `database.js`. -/
def searchPosts (fs : Firestore) (lg : Logger) (searchTerm : String)
    (filters : PostFilters) (w : World) : Except JsError (List Post) × Logger × World :=
  match getPosts fs filters w with
  | (.error error, w1) =>
    (.error error, lg, w1.consoleCall .error [.text "Error searching posts:", .caught error])
  | (.ok posts, w1) =>
    if searchTerm = "" then (.ok posts, lg, w1)
    else
      match filterPosts searchTerm posts with
      | .error error =>
        (.error error, lg,
          w1.consoleCall .error [.text "Error searching posts:", .caught error])
      | .ok searchResults =>
        match lg.logActivity "search_performed"
            (.obj [("searchTerm", .str searchTerm),
              ("resultsCount", .num searchResults.length)]) none w1 with
        | (.error error, lg1, w2) =>
          (.error error, lg1,
            w2.consoleCall .error [.text "Error searching posts:", .caught error])
        | (.ok _, lg1, w2) => (.ok searchResults, lg1, w2)

/-- The fields of the `AuthManager` object, as far as the code reads them. -/
structure AuthUser where
  uid : String
  email : String

/-- The `AuthManager` object. -/
structure AuthManager where
  currentUser : Option AuthUser
  userProfile : Option UserProfile

/-- The `switch (userRole)` of `loadBrowseSection`. -/
def postTypesFor (userRole : Option String) : List String :=
  if userRole = some "investor" then ["business-idea"]
  else if userRole = some "entrepreneur" then
    ["investment-proposal", "loan-offer", "advisory-service"]
  else if userRole = some "banker" then ["business-idea"]
  else if userRole = some "advisor" then ["business-idea"]
  else ["business-idea", "investment-proposal", "loan-offer", "advisory-service"]

/-- The loop `for (const type of postTypes)` of `loadBrowseSection`. -/
def loadPostsOfTypes (fs : Firestore) :
    List String → List Post → World → Except JsError (List Post) × World
  | [], allPosts, w => (.ok allPosts, w)
  | type :: rest, allPosts, w =>
    match getPosts fs { PostFilters.empty with type := some type, limit := some 20 } w with
    | (.error error, w1) => (.error error, w1)
    | (.ok posts, w1) => loadPostsOfTypes fs rest (allPosts ++ posts) w1

/-- The method `loadBrowseSection()` of `DashboardManager`: the posts handed to
`displayBrowseResults`, or `none` when the `catch` block ran. -/
def loadBrowseSection (am : AuthManager) (fs : Firestore) (w : World) :
    Option (List Post) × World :=
  let userRole := am.userProfile.bind (fun userProfile => userProfile.role)
  match loadPostsOfTypes fs (postTypesFor userRole) [] w with
  | (.error error, w1) =>
    (none, w1.consoleCall .error [.text "Error loading browse section:", .caught error])
  | (.ok allPosts, w1) =>
    (some (allPosts.insertionSort (fun a b => a.createdAt ≥ b.createdAt)), w1)

/-- The method `handleSearch()` of `DashboardManager`, for the values of the
search input and of the category filter: the posts handed to
`displayBrowseResults`, or `none` when the `catch` block ran. -/
def handleSearch (fs : Firestore) (lg : Logger) (searchTerm categoryFilter : String)
    (w : World) : Option (List Post) × Logger × World :=
  let filters :=
    if categoryFilter = "" then PostFilters.empty
    else { PostFilters.empty with category := some categoryFilter }
  match searchPosts fs lg searchTerm filters w with
  | (.error error, lg1, w1) =>
    (none, lg1, w1.consoleCall .error [.text "Error performing search:", .caught error])
  | (.ok results, lg1, w1) => (some results, lg1, w1)

/-- The function `getUserProfile(uid)` of `database.js`. -/
def getUserProfile (fs : Firestore) (uid : String) (w : World) :
    Except JsError (Option UserProfile) × World :=
  match fs.userDoc uid with
  | .error error =>
    (.error error, w.consoleCall .error [.text "Error fetching user profile:", .caught error])
  | .ok (some profile) => (.ok (some profile), w)
  | .ok none => (.ok none, w.consoleCall .log [.text "No user profile found"])

/-- The callback `setupAuthStateListener` registers with `onAuthStateChanged`
(the changes it makes to the page are left out). -/
def AuthManager.onAuthStateChanged (am : AuthManager) (user : Option AuthUser)
    (fs : Firestore) (lg : Logger) (w : World) : AuthManager × Logger × World :=
  match user with
  | some u =>
    let w1 := w.consoleCall .log [.text "User signed in:", .text u.email]
    let fetched := getUserProfile fs u.uid w1
    let userProfile :=
      match fetched.1 with
      | .ok (some profile) => some profile
      | .ok none => some { uid := u.uid, email := u.email, name := "", role := some "" }
      | .error _ => am.userProfile
    let w2 :=
      match fetched.1 with
      | .ok _ => fetched.2
      | .error error =>
        fetched.2.consoleCall .error [.text "Error fetching user profile:", .caught error]
    let logged := lg.logActivity "user_login" (.obj [("email", .str u.email)]) none w2
    ({ currentUser := some u, userProfile := userProfile }, logged.2.1, logged.2.2)
  | none =>
    ({ currentUser := none, userProfile := none }, lg,
      w.consoleCall .log [.text "User signed out"])

/-- The synchronous head of `flushOfflineQueue`, up to its first `await`: the
test of the queue, the info trace, the snapshot `queueCopy` and the clearing of
the queue (`none`: the queue was empty and the method returned at once). -/
def Logger.flushSnapshot (this : Logger) (w : World) :
    Option (Logger × List LogEntry × World) :=
  if this.offlineQueue.length = 0 then none
  else
    some ({ this with offlineQueue := [] }, this.offlineQueue,
      w.consoleCall .info
        [.text ("Flushing " ++ toString this.offlineQueue.length ++ " offline log entries")])

/-- What happens to the logger, one thing after the other: a connectivity
signal, a `logActivity` call that is awaited, or a flush pass. -/
inductive Event where
  | online
  | offline
  | log (c : Call)
  | flush

/-- The effect of one event. -/
def Logger.step (lg : Logger) (w : World) : Event → Logger × World
  | .online => lg.onOnline w
  | .offline => (lg.onOffline, w)
  | .log c => (lg.logActivity c.action c.data c.level w).2
  | .flush => lg.flushOfflineQueue w

/-- The effect of a sequence of events. -/
def Logger.run (lg : Logger) (w : World) : List Event → Logger × World
  | [] => (lg, w)
  | ev :: evs => Logger.run (lg.step w ev).1 (lg.step w ev).2 evs

/-- The value of `offline` that the most recent connectivity signal of a
sequence of events asks for (`none`: the sequence holds no signal). -/
def lastSignal : List Event → Option Bool
  | [] => none
  | ev :: evs =>
    match lastSignal evs with
    | some b => some b
    | none =>
      match ev with
      | .online => some false
      | .offline => some true
      | _ => none

/-- The number of `logActivity` calls in a sequence of events. -/
def countLogs : List Event → Nat
  | [] => 0
  | .log _ :: evs => countLogs evs + 1
  | _ :: evs => countLogs evs

/-! ## Wrappers, debug accessors and the level setting (`src/logger.js`) -/

/-- The value of the property `key` in a list of properties (`none`: there is
no such property). -/
def getField : List (String × JsValue) → String → Option JsValue
  | [], _ => none
  | (k, v) :: rest, key => if k = key then some v else getField rest key

/-- The assignment of a property in an object literal or a spread: an existing
key keeps its place and takes the new value, a new key comes last.  (A key that
is an array index is enumerated before the other keys in JavaScript; the order
of the properties plays no part below.) -/
def setField : List (String × JsValue) → String → JsValue → List (String × JsValue)
  | [], key, value => [(key, value)]
  | (k, v) :: rest, key, value =>
    if k = key then (k, value) :: rest else (k, v) :: setField rest key value

/-- The own enumerable properties of a value, which a spread `...value` copies:
the fields of an object, the indices of an array or of a string, the reference
of the circular object to itself; `undefined`, `null`, booleans and numbers
have none. -/
def JsValue.ownProperties : JsValue → List (String × JsValue)
  | .obj fields => fields
  | .arr xs => xs.enum.map (fun ix => (toString ix.1, ix.2))
  | .str s => s.data.enum.map (fun ix => (toString ix.1, JsValue.str (String.singleton ix.2)))
  | .circular => [("self", .circular)]
  | _ => []

/-- The properties of the object literal `{ ...base, ...source }`, for the
properties `base` written so far. -/
def spreadInto (base : List (String × JsValue)) (source : JsValue) :
    List (String × JsValue) :=
  source.ownProperties.foldl (fun acc kv => setField acc kv.1 kv.2) base

/-- The property read `value.key`, for a key that names no inherited property
(as `message` and `stack`, which are own properties of an `Error` object): it
throws a `TypeError` on `undefined` and `null`. -/
def JsValue.getProperty (value : JsValue) (key : String) : Except JsError JsValue :=
  match value with
  | .undefined =>
    .error (.typeError ("Cannot read properties of undefined (reading '" ++ key ++ "')"))
  | .null => .error (.typeError ("Cannot read properties of null (reading '" ++ key ++ "')"))
  | v => .ok ((getField v.ownProperties key).getD .undefined)

/-- The default `= {}` of a parameter: it replaces `undefined`. -/
def orEmptyObject : JsValue → JsValue
  | .undefined => .obj []
  | v => v

/-- The method `logPageView(page)`. -/
def Logger.logPageView (this : Logger) (page : JsValue) (w : World) :
    Outcome × Logger × World :=
  this.logActivity "page_view" (.obj [("page", page)]) none w

/-- The method `logUserAction(action, details)`. -/
def Logger.logUserAction (this : Logger) (action details : JsValue) (w : World) :
    Outcome × Logger × World :=
  this.logActivity "user_action" (.obj (spreadInto [("action", action)] details)) none w

/-- The method `logError(error, context = {})`; an `Error` object is the object
of its properties `message` and `stack`.  The argument of the inner call is
evaluated first, so a property read that throws ends the method. -/
def Logger.logError (this : Logger) (error context : JsValue) (w : World) :
    Outcome × Logger × World :=
  let context := orEmptyObject context
  match error.getProperty "message" with
  | .error thrown => (.error thrown, this, w)
  | .ok message =>
    match error.getProperty "stack" with
    | .error thrown => (.error thrown, this, w)
    | .ok stack =>
      this.logActivity "error"
        (.obj [("message", message), ("stack", stack), ("context", context)]) (some "ERROR") w

/-- The method `logPerformance(metric, value, context = {})`. -/
def Logger.logPerformance (this : Logger) (metric value context : JsValue) (w : World) :
    Outcome × Logger × World :=
  let context := orEmptyObject context
  this.logActivity "performance"
    (.obj [("metric", metric), ("value", value), ("context", context)]) none w

/-- The method `logBusinessEvent(event, data)`. -/
def Logger.logBusinessEvent (this : Logger) (event data : JsValue) (w : World) :
    Outcome × Logger × World :=
  this.logActivity "business_event" (.obj (spreadInto [("event", event)] data)) none w

/-- The exported function `logActivity(action, data = {}, level = 'INFO')`, which
applies its defaults and calls the method of the `logger` instance. -/
def logActivity (logger : Logger) (action : String) (data : JsValue)
    (level : Option String) (w : World) : Outcome × Logger × World :=
  logger.logActivity action (orEmptyObject data) (some (level.getD "INFO")) w

/-- The exported function `logPageView`. -/
def logPageView (logger : Logger) (page : JsValue) (w : World) :
    Outcome × Logger × World :=
  logger.logPageView page w

/-- The exported function `logUserAction`. -/
def logUserAction (logger : Logger) (action details : JsValue) (w : World) :
    Outcome × Logger × World :=
  logger.logUserAction action details w

/-- The exported function `logError`. -/
def logError (logger : Logger) (error context : JsValue) (w : World) :
    Outcome × Logger × World :=
  logger.logError error context w

/-- The exported function `logPerformance`. -/
def logPerformance (logger : Logger) (metric value context : JsValue) (w : World) :
    Outcome × Logger × World :=
  logger.logPerformance metric value context w

/-- The exported function `logBusinessEvent`. -/
def logBusinessEvent (logger : Logger) (event data : JsValue) (w : World) :
    Outcome × Logger × World :=
  logger.logBusinessEvent event data w

/-- The `ErrorEvent` handed to the listener of the window's `error` event, as
far as the listener reads it; `error` is `null` when the browser supplies no
error object. -/
structure ErrorEvent where
  error : JsValue
  filename : String
  lineno : Int
  colno : Int

/-- The listener of the window's `error` event. -/
def Logger.onWindowError (this : Logger) (event : ErrorEvent) (w : World) :
    Outcome × Logger × World :=
  this.logError event.error
    (.obj [("filename", .str event.filename), ("lineno", .num event.lineno),
      ("colno", .num event.colno)]) w

/-- The method `getLocalLogs()`: the parsed value, or `[]` from the `catch`
block. -/
def Logger.getLocalLogs (w : World) : Json × World :=
  match w.localStorage.getItem with
  | .error error =>
    (.arr [], w.consoleCall .error [.text "Failed to get local logs:", .caught error])
  | .ok item =>
    match JSON.parse (orEmptyArray item) with
    | .error error =>
      (.arr [], w.consoleCall .error [.text "Failed to get local logs:", .caught error])
    | .ok logs => (logs, w)

/-- The call `localStorage.removeItem('startupbridge_logs')`.  Removing an item
cannot exceed a quota: the call throws when the browser refuses access to the
storage, which is when `getItem` throws. -/
def LocalStorage.removeItem (ls : LocalStorage) : Except JsError LocalStorage :=
  match ls.getItemThrows with
  | some error => .error error
  | none => .ok { ls with logs := none }

/-- The method `clearLocalLogs()`. -/
def Logger.clearLocalLogs (w : World) : World :=
  match w.localStorage.removeItem with
  | .ok ls => World.consoleCall { w with localStorage := ls } .info [.text "Local logs cleared"]
  | .error error => w.consoleCall .error [.text "Failed to clear local logs:", .caught error]

/-- The method `setLogLevel(level)`. -/
def Logger.setLogLevel (this : Logger) (level : String) (w : World) : Logger × World :=
  ({ this with logLevel := level }, w.consoleCall .info [.text ("Log level set to: " ++ level)])

/-- Whether an event runs a flush pass. -/
def Event.flushes : Event → Bool
  | .online => true
  | .flush => true
  | _ => false

/-- The calls of the `logActivity` events of a sequence. -/
def loggedCalls : List Event → List Call
  | [] => []
  | .log c :: evs => c :: loggedCalls evs
  | _ :: evs => loggedCalls evs

/-- The statement of the specification for `logError`: the call
`logActivity('error', {message: e.message, stack: e.stack, context: c}, 'ERROR')`. -/
def Logger.logErrorAsStated (this : Logger) (e c : JsValue) (w : World) :
    Outcome × Logger × World :=
  match e.getProperty "message" with
  | .error thrown => (.error thrown, this, w)
  | .ok message =>
    match e.getProperty "stack" with
    | .error thrown => (.error thrown, this, w)
    | .ok stack =>
      this.logActivity "error"
        (.obj [("message", message), ("stack", stack), ("context", c)]) (some "ERROR") w

/-- The statement of the specification for `logPerformance`: the call
`logActivity('performance', {metric: m, value: v, context: c}, 'INFO')`. -/
def Logger.logPerformanceAsStated (this : Logger) (m v c : JsValue) (w : World) :
    Outcome × Logger × World :=
  this.logActivity "performance"
    (.obj [("metric", m), ("value", v), ("context", c)]) (some "INFO") w

/-- The statement of the specification for the result of a search: the posts
whose title, description or category contains the term, letter case apart. -/
def Post.containsTerm (term : String) (post : Post) : Bool :=
  (post.title.map (fun s => includes (toLowerCase s) (toLowerCase term))).getD false ||
  (post.description.map (fun s => includes (toLowerCase s) (toLowerCase term))).getD false ||
  (post.category.map (fun s => includes (toLowerCase s) (toLowerCase term))).getD false

/-- A post document with the three text fields the search reads. -/
def Post.hasTextFields (post : Post) : Bool :=
  post.title.isSome && post.description.isSome && post.category.isSome

/-! ## The REST layer (`src/database_integration.js`) -/

mutual
/-- The conversion `String(value)` that `URLSearchParams.append` applies. -/
def JsValue.toText : JsValue → String
  | .undefined => "undefined"
  | .null => "null"
  | .bool b => if b then "true" else "false"
  | .num n => toString n
  | .str s => s
  | .bigint n => toString n
  | .circular => "[object Object]"
  | .arr xs => ",".intercalate (JsValue.toTexts xs)
  | .obj _ => "[object Object]"
/-- The texts that `Array.prototype.join` puts between commas: `null` and
`undefined` elements give the empty text. -/
def JsValue.toTexts : List JsValue → List String
  | [] => []
  | .undefined :: xs => "" :: JsValue.toTexts xs
  | .null :: xs => "" :: JsValue.toTexts xs
  | x :: xs => x.toText :: JsValue.toTexts xs
end

/-- The list of name-value pairs of a `URLSearchParams` object; its text
`toString()` is identified with the list it serialises, and is empty exactly
when the list is. -/
abbrev URLSearchParams := List (String × String)

/-- The method `append(name, value)`. -/
def URLSearchParams.append (params : URLSearchParams) (name : String) (value : JsValue) :
    URLSearchParams :=
  params ++ [(name, value.toText)]

/-- The endpoint handed to `apiCall`: a path alone, or a path followed by `?`
and a query string. -/
inductive Endpoint where
  | path (p : String)
  | pathQuery (p : String) (query : URLSearchParams)

/-- The test `value !== null && value !== undefined && value !== ''`. -/
def isSet : JsValue → Bool
  | .null => false
  | .undefined => false
  | .str s => s ≠ ""
  | _ => true

/-- The callback of `Object.keys(filters).forEach` in `getPosts`. -/
def DatabaseIntegration.appendFilter (filters : List (String × JsValue))
    (params : URLSearchParams) (key : String) : URLSearchParams :=
  if isSet ((getField filters key).getD .undefined) then
    params.append key ((getField filters key).getD .undefined)
  else params

/-- The function `getPosts(filters)` of `database_integration.js`, for the
properties of the object `filters`: the endpoint it hands to `apiCall`. -/
def DatabaseIntegration.getPosts (filters : List (String × JsValue)) : Endpoint :=
  let params := (filters.map Prod.fst).foldl (DatabaseIntegration.appendFilter filters) []
  if params.isEmpty then .path "/posts" else .pathQuery "/posts" params

/-- The function `searchPosts(searchTerm, filters)` of `database_integration.js`. -/
def DatabaseIntegration.searchPosts (searchTerm : String) (filters : List (String × JsValue)) :
    Endpoint :=
  let searchFilters := setField (spreadInto [] (.obj filters)) "search" (.str searchTerm)
  DatabaseIntegration.getPosts searchFilters

/-- The statement of the specification for the query of `getPosts`: the filters
whose value is not `null`, `undefined` or the empty string, in key order, each
value as text. -/
def DatabaseIntegration.queryAsStated (filters : List (String × JsValue)) : URLSearchParams :=
  (filters.filter (fun kv => isSet kv.2)).map (fun kv => (kv.1, kv.2.toText))

/-! ## Concrete inputs -/

/-- A browser that is online, with nothing in local storage, a session
identifier already stored, and a sink that accepts every document. -/
def sampleWorld : World :=
  { clock := 1700000000000
    toISOString := fun _ => "2023-11-14T22:13:20.000Z"
    userAgent := "Mozilla/5.0"
    href := "https://startupbridge.example/index.html"
    onLine := true
    currentUserId := none
    sessionItem := some "session_1699999999999_k3j9x0q2z"
    random := fun _ => "a1b2c3d4e"
    randomCalls := 0
    localStorage := { logs := none, getItemThrows := none, setItemThrows := fun _ => none }
    console := []
    sinkRejects := fun _ _ => none
    addDocCalls := []
    documents := []
    delays := [] }

/-- The same browser with a sink that rejects every document. -/
def unreachableSinkWorld : World :=
  { sampleWorld with sinkRejects := fun _ _ => some (.firebaseError "unavailable") }

/-- The same browser with a sink that rejects every document and a local
storage whose quota is exhausted: every `setItem` throws. -/
def quotaWorld : World :=
  { unreachableSinkWorld with
    localStorage := { logs := none, getItemThrows := none,
                      setItemThrows := fun _ => some (.domException "QuotaExceededError") } }

/-- The sample browser with a sink that rejects every `post_created` document
and accepts every other one. -/
def rejectsPostsWorld : World :=
  { sampleWorld with
    sinkRejects := fun _ payload =>
      if payload.action = "post_created" then some (.firebaseError "permission-denied")
      else none }

/-- The sample browser with a sink that rejects its first two `addDoc` calls
and accepts every later one. -/
def flakySinkWorld : World :=
  { sampleWorld with
    sinkRejects := fun n _ => if n < 2 then some (.firebaseError "unavailable") else none }

/-- A call `logActivity('profile_updated', o)` with a circular object `o`, followed
by `logActivity('post_created', {postId: '123'})`. -/
def callsWithCircularData : List Call :=
  [⟨"profile_updated", .circular, none⟩, ⟨"post_created", .obj [("postId", .str "123")], none⟩]

/-- The data `{email: 'a@b.com'}`. -/
def sampleData : JsValue :=
  .obj [("email", .str "a@b.com")]

/-- The entry of `logActivity('user_login', {email: 'a@b.com'})` in the sample browser. -/
def sampleEntry : LogEntry :=
  { action := "user_login", data := sampleData, level := "INFO",
    timestamp := "2023-11-14T22:13:20.000Z", userAgent := "Mozilla/5.0",
    url := "https://startupbridge.example/index.html",
    sessionId := "session_1699999999999_k3j9x0q2z", userId := "anonymous" }

/-- The entry of `logActivity('post_created', {postId: '123'})` in the sample browser. -/
def otherEntry : LogEntry :=
  { sampleEntry with action := "post_created", data := .obj [("postId", .str "123")] }

/-- The data `{postId: '123'}`. -/
def postData : JsValue :=
  .obj [("postId", .str "123")]

/-- One call `logActivity('first', ...)` followed by a hundred calls
`logActivity('later', ...)`. -/
def overflowCalls : List Call :=
  ⟨"first", sampleData, none⟩ :: List.replicate 100 ⟨"later", sampleData, none⟩

/-- The entry of `logActivity('first', {email: 'a@b.com'})` in the sample browser. -/
def firstEntry : LogEntry :=
  { sampleEntry with action := "first" }

/-- The entry of `logActivity('later', {email: 'a@b.com'})` in the sample browser. -/
def laterEntry : LogEntry :=
  { sampleEntry with action := "later" }

/-- A signed-in user. -/
def sampleUser : AuthUser :=
  { uid := "uid-42", email := "a@b.com" }

/-- The profile of an investor. -/
def investorProfile : UserProfile :=
  { uid := "uid-42", email := "a@b.com", name := "Ada", role := some "investor" }

/-- An active loan offer. -/
def loanPost : Post :=
  { id := "p2", type := "loan-offer", status := "active", userId := "uid-7",
    category := some "finance", title := some "Working capital loans",
    description := some "Loans for small businesses", createdAt := 200 }

/-- An active business idea. -/
def ideaPost : Post :=
  { id := "p1", type := "business-idea", status := "active", userId := "uid-9",
    category := some "technology", title := some "Solar kiosks",
    description := some "Charging kiosks for markets", createdAt := 100 }

/-- A Firestore holding one business idea and one loan offer, and the profile of
the investor. -/
def sampleFirestore : Firestore :=
  { posts := [ideaPost, loanPost], getDocsThrows := none,
    userDoc := fun uid => if uid = "uid-42" then .ok (some investorProfile) else .ok none }

/-- The `AuthManager` of a signed-in investor. -/
def investorAuth : AuthManager :=
  { currentUser := some sampleUser, userProfile := some investorProfile }

/-- A logger that believes the browser is offline. -/
def offlineLogger : Logger :=
  { Logger.new sampleWorld with offline := true }

/-- The object of `new Error('boom')`. -/
def sampleError : JsValue :=
  .obj [("message", .str "boom"), ("stack", .str "Error: boom at app.js:1:1")]

/-- Every call of a sequence of `saveToLocalStorage` calls is successful: its
`try` block completes. -/
def Logger.savesSucceed : List LogEntry → World → Bool
  | [], _ => true
  | e :: es, w =>
    (match Logger.saveToLocalStorage.tryBlock e w.localStorage with
      | .ok _ => true
      | .error _ => false) &&
    Logger.savesSucceed es (Logger.saveToLocalStorage e w)

/-- The sample browser with the text `{}` stored under `'startupbridge_logs'`. -/
def objectStoredWorld : World :=
  { sampleWorld with
    localStorage := { logs := some (.json (.obj [])), getItemThrows := none,
                      setItemThrows := fun _ => none } }

/-- An active business idea with a title and a description in French. -/
def schoolPost : Post :=
  { id := "p3", type := "business-idea", status := "active", userId := "uid-9",
    category := some "education", title := some "École numérique",
    description := some "Cours en ligne pour les lycées", createdAt := 300 }

/-- An active business idea whose document has no `description` field. -/
def lampPost : Post :=
  { id := "p4", type := "business-idea", status := "active", userId := "uid-9",
    category := some "energy", title := some "Solar lamps", description := none,
    createdAt := 400 }

/-- A Firestore holding the business idea, the loan offer and the French idea. -/
def searchFirestore : Firestore :=
  { posts := [ideaPost, loanPost, schoolPost], getDocsThrows := none,
    userDoc := fun _ => .ok none }

/-- A Firestore holding the post without a description. -/
def incompleteFirestore : Firestore :=
  { posts := [lampPost], getDocsThrows := none, userDoc := fun _ => .ok none }

/-! ## Lemmas: JSON -/

mutual
theorem serialize_toJs : ∀ j : Json, j.toJs.serialize = .ok (some j)
  | .null => rfl
  | .bool _ => rfl
  | .num _ => rfl
  | .str _ => rfl
  | .arr xs => by
    simp only [Json.toJs, JsValue.serialize, serializeElems_toJsList xs]
  | .obj fields => by
    simp only [Json.toJs, JsValue.serialize, serializeFields_toJsFields fields]
theorem serializeElems_toJsList : ∀ xs : List Json,
    JsValue.serializeElems (Json.toJsList xs) = .ok xs
  | [] => rfl
  | x :: xs => by
    simp only [Json.toJsList, JsValue.serializeElems, serialize_toJs x,
      serializeElems_toJsList xs, Option.getD_some]
theorem serializeFields_toJsFields : ∀ fields : List (String × Json),
    JsValue.serializeFields (Json.toJsFields fields) = .ok fields
  | [] => rfl
  | (k, v) :: fields => by
    simp only [Json.toJsFields, JsValue.serializeFields, serialize_toJs v,
      serializeFields_toJsFields fields]
end

theorem serializeElems_cons_ok {x : JsValue} {xs : List JsValue} {zs : List Json}
    (h : JsValue.serializeElems (x :: xs) = .ok zs) :
    ∃ y ys, x.serialize = .ok y ∧ JsValue.serializeElems xs = .ok ys ∧
      zs = y.getD .null :: ys := by
  simp only [JsValue.serializeElems] at h
  cases hx : x.serialize with
  | error e => simp [hx] at h
  | ok y =>
    cases hxs : JsValue.serializeElems xs with
    | error e => simp [hx, hxs] at h
    | ok ys =>
      simp only [hx, hxs, Except.ok.injEq] at h
      exact ⟨y, ys, rfl, rfl, h.symm⟩

theorem serializeElems_cons_of_ok {x : JsValue} {xs : List JsValue} {y : Option Json}
    {ys : List Json} (hx : x.serialize = .ok y) (hxs : JsValue.serializeElems xs = .ok ys) :
    JsValue.serializeElems (x :: xs) = .ok (y.getD .null :: ys) := by
  simp only [JsValue.serializeElems, hx, hxs]

theorem serializeElems_length : ∀ (xs : List JsValue) (ys : List Json),
    JsValue.serializeElems xs = .ok ys → ys.length = xs.length
  | [], ys, h => by
    simp only [JsValue.serializeElems, Except.ok.injEq] at h
    simp [← h]
  | x :: xs, zs, h => by
    obtain ⟨y, ys, _, hxs, rfl⟩ := serializeElems_cons_ok h
    simp [serializeElems_length xs ys hxs]

theorem serializeElems_append : ∀ (xs ys : List JsValue) (xs' ys' : List Json),
    JsValue.serializeElems xs = .ok xs' → JsValue.serializeElems ys = .ok ys' →
    JsValue.serializeElems (xs ++ ys) = .ok (xs' ++ ys')
  | [], ys, xs', ys', hx, hy => by
    simp only [JsValue.serializeElems, Except.ok.injEq] at hx
    simpa [← hx] using hy
  | x :: xs, ys, zs, ys', hx, hy => by
    obtain ⟨y, xs', hx0, hxs, rfl⟩ := serializeElems_cons_ok hx
    have ih := serializeElems_append xs ys xs' ys' hxs hy
    simpa using serializeElems_cons_of_ok hx0 ih

theorem serializeElems_drop : ∀ (k : Nat) (xs : List JsValue) (ys : List Json),
    JsValue.serializeElems xs = .ok ys →
    JsValue.serializeElems (xs.drop k) = .ok (ys.drop k)
  | 0, xs, ys, h => by simpa using h
  | k + 1, [], ys, h => by
    simp only [JsValue.serializeElems, Except.ok.injEq] at h
    simp [← h, JsValue.serializeElems]
  | k + 1, x :: xs, zs, h => by
    obtain ⟨y, ys, _, hxs, rfl⟩ := serializeElems_cons_ok h
    simpa using serializeElems_drop k xs ys hxs

theorem toJsList_length : ∀ xs : List Json, (Json.toJsList xs).length = xs.length
  | [] => rfl
  | x :: xs => by simp [Json.toJsList, toJsList_length xs]

/-- The JSON object a serialisable entry is stored as: every field in creation
order, `data` left out when its text is `undefined`. -/
theorem LogEntry.serialize_entry (e : LogEntry) (d : Option Json)
    (hd : e.data.serialize = .ok d) :
    e.toJs.serialize = .ok (some (.obj (("action", .str e.action) ::
      ((match d with
        | some j => [("data", j)]
        | none => []) ++
      [("level", .str e.level), ("timestamp", .str e.timestamp),
       ("userAgent", .str e.userAgent), ("url", .str e.url),
       ("sessionId", .str e.sessionId), ("userId", .str e.userId)])))) := by
  cases d <;> simp [LogEntry.toJs, JsValue.serialize, JsValue.serializeFields, hd]

theorem serialisable_iff (v : JsValue) :
    v.serialisable = true ↔ ∃ d, v.serialize = .ok d := by
  unfold JsValue.serialisable JSON.stringify
  cases v.serialize <;> simp

theorem LogEntry.serialize_json (e : LogEntry) (h : e.data.serialisable = true) :
    e.toJs.serialize = .ok (some e.json) := by
  obtain ⟨d, hd⟩ := (serialisable_iff _).mp h
  have := LogEntry.serialize_entry e d hd
  simp only [LogEntry.json, JSON.stringify, this]

/-! ## Lemmas: the bounded mirror -/

theorem lastEntries_length {α : Type} (n : Nat) (xs : List α) :
    (lastEntries n xs).length = min n xs.length := by
  simp only [lastEntries, List.length_drop]
  omega

theorem lastEntries_of_length_le {α : Type} (n : Nat) (xs : List α) (h : xs.length ≤ n) :
    lastEntries n xs = xs := by
  simp [lastEntries, Nat.sub_eq_zero_of_le h]

theorem lastEntries_append_lastEntries {α : Type} (n : Nat) (xs ys : List α) :
    lastEntries n (lastEntries n xs ++ ys) = lastEntries n (xs ++ ys) := by
  by_cases h : xs.length ≤ n
  · rw [lastEntries_of_length_le n xs h]
  · have hlen : (lastEntries n xs).length = n := by
      rw [lastEntries_length]; omega
    have h1 : lastEntries n (lastEntries n xs ++ ys) =
        List.drop ys.length (lastEntries n xs ++ ys) := by
      simp only [lastEntries, List.length_append]
      congr 1
      have := hlen
      simp only [lastEntries] at this
      omega
    have h2 : lastEntries n (xs ++ ys) =
        List.drop ys.length (List.drop (xs.length - n) (xs ++ ys)) := by
      simp only [lastEntries, List.length_append, List.drop_drop]
      congr 1
      omega
    rw [h1, h2, List.drop_append_of_le_length (Nat.sub_le xs.length n)]
    rfl

theorem splice_eq_drop {α : Type} (logs : List α) :
    (if logs.length > 100 then logs.drop (logs.length - 100) else logs) =
      logs.drop (logs.length - 100) := by
  split
  · rfl
  · rename_i h
    simp [Nat.sub_eq_zero_of_le (Nat.le_of_not_gt h)]

theorem serialize_arr_ok {xs : List JsValue} {t : Option Json}
    (h : JsValue.serialize (.arr xs) = .ok t) :
    ∃ ys, JsValue.serializeElems xs = .ok ys ∧ t = some (.arr ys) := by
  simp only [JsValue.serialize] at h
  cases hxs : JsValue.serializeElems xs with
  | error e => simp [hxs] at h
  | ok ys =>
    simp only [hxs, Except.ok.injEq] at h
    exact ⟨ys, rfl, h.symm⟩

theorem mirror_of_logs_json_arr (ls : LocalStorage) (xs : List Json)
    (h : ls.logs = some (.json (.arr xs))) : ls.mirror = some xs := by
  simp [LocalStorage.mirror, orEmptyArray, h]

theorem orEmptyArray_of_mirror {ls : LocalStorage} {L : List Json}
    (h : ls.mirror = some L) : orEmptyArray ls.logs = .json (.arr L) := by
  unfold LocalStorage.mirror at h
  split at h
  · rename_i xs hx
    simp only [Option.some.injEq] at h
    rw [hx, h]
  · simp at h

/-- With working storage, an array in the mirror and a serialisable entry the
`try` block completes and stores the last 100 elements of the extended array. -/
theorem tryBlock_ok (e : LogEntry) (ls : LocalStorage) (L : List Json)
    (hw : ls.working) (hm : ls.mirror = some L) (hs : e.data.serialisable = true) :
    Logger.saveToLocalStorage.tryBlock e ls =
      .ok { ls with logs := some (.json (.arr (lastEntries 100 (L ++ [e.json])))) } := by
  have hser : JsValue.serializeElems (Json.toJsList L ++ [e.toJs]) = .ok (L ++ [e.json]) := by
    apply serializeElems_append _ _ _ _ (serializeElems_toJsList L)
    simpa using serializeElems_cons_of_ok (LogEntry.serialize_json e hs)
      (rfl : JsValue.serializeElems [] = .ok [])
  have hdrop := serializeElems_drop ((Json.toJsList L ++ [e.toJs]).length - 100) _ _ hser
  have hlen : (Json.toJsList L ++ [e.toJs]).length = (L ++ [e.json]).length := by
    simp [toJsList_length]
  simp only [Logger.saveToLocalStorage.tryBlock, LocalStorage.getItem, hw.1,
    orEmptyArray_of_mirror hm, JSON.parse, splice_eq_drop, JSON.stringify,
    JsValue.serialize, hdrop, LocalStorage.setItem, hw.2]
  simp only [hlen, lastEntries]

/-- Whatever the `try` block stores is an array of at most 100 elements, and
the behaviour of the storage is not changed by it. -/
theorem tryBlock_ok_shape (e : LogEntry) (ls ls' : LocalStorage)
    (h : Logger.saveToLocalStorage.tryBlock e ls = .ok ls') :
    ls'.getItemThrows = ls.getItemThrows ∧ ls'.setItemThrows = ls.setItemThrows ∧
      ∃ ys, ls'.logs = some (.json (.arr ys)) ∧ ys.length ≤ 100 := by
  simp only [Logger.saveToLocalStorage.tryBlock, splice_eq_drop, JSON.stringify] at h
  split at h
  · simp at h
  · split at h
    · simp at h
    · rename_i parsed _
      split at h
      · simp at h
      · rename_i hnone
        obtain ⟨ys, _, hys⟩ := serialize_arr_ok hnone
        simp at hys
      · rename_i text hsome
        obtain ⟨ys, hys, htext⟩ := serialize_arr_ok hsome
        simp only [Option.some.injEq] at htext
        have hl := serializeElems_length _ _ hys
        simp only [LocalStorage.setItem] at h
        split at h
        · simp at h
        · simp only [Except.ok.injEq] at h
          subst h
          refine ⟨rfl, rfl, ys, by simp [htext], ?_⟩
          rw [hl, List.length_drop]
          omega
    · simp at h

theorem saveToLocalStorage_of_ok (e : LogEntry) (w : World) (ls : LocalStorage)
    (h : Logger.saveToLocalStorage.tryBlock e w.localStorage = .ok ls) :
    Logger.saveToLocalStorage e w = { w with localStorage := ls } := by
  simp only [Logger.saveToLocalStorage, h]

theorem saveToLocalStorage_of_error (e : LogEntry) (w : World) (error : JsError)
    (h : Logger.saveToLocalStorage.tryBlock e w.localStorage = .error error) :
    Logger.saveToLocalStorage e w =
      w.consoleCall .error [.text "Failed to save log to localStorage:", .caught error] := by
  simp only [Logger.saveToLocalStorage, h]

/-! ## Lemmas: delivery with retries -/

theorem saveToFirestore_unfold (lg : Logger) (e : LogEntry) (retries : Nat) (w : World) :
    lg.saveToFirestore e retries w =
      match w.sinkRejects w.addDocCalls.length e.doc with
      | none =>
        (.ok (), { w with addDocCalls := w.addDocCalls ++ [e.addDocCall],
                          documents := w.documents ++ [e.doc] })
      | some error =>
        if retries < lg.maxRetries then
          lg.saveToFirestore e (retries + 1)
            (Logger.delay (lg.retryDelay * (retries + 1))
              { w with addDocCalls := w.addDocCalls ++ [e.addDocCall] })
        else (.error error, { w with addDocCalls := w.addDocCalls ++ [e.addDocCall] }) := by
  rw [Logger.saveToFirestore]
  simp only [addDoc, LogEntry.doc, LogEntry.addDocCall]
  cases h : w.sinkRejects w.addDocCalls.length
    { toLogEntry := e, createdAt := .serverTimestamp } <;> simp

theorem retrySchedule_succ (lg : Logger) (retries k : Nat) :
    lg.retrySchedule retries (k + 1) =
      lg.retryDelay * (retries + 1) :: lg.retrySchedule (retries + 1) k := by
  simp only [Logger.retrySchedule, List.range_succ_eq_map, List.map_cons, List.map_map]
  refine congrArg₂ _ rfl (List.map_congr_left ?_)
  intro i _
  simp only [Function.comp, Nat.succ_eq_add_one]
  congr 1
  omega

/-- The first `k` attempts are rejected and the next one is accepted. -/
theorem saveToFirestore_fail_then_ok (lg : Logger) (e : LogEntry) :
    ∀ (k retries : Nat) (w : World), retries + k ≤ lg.maxRetries →
      (∀ i, i < k → (w.sinkRejects (w.addDocCalls.length + i) e.doc).isSome = true) →
      w.sinkRejects (w.addDocCalls.length + k) e.doc = none →
      lg.saveToFirestore e retries w =
        (.ok (), { w with
          addDocCalls := w.addDocCalls ++ List.replicate (k + 1) e.addDocCall,
          documents := w.documents ++ [e.doc],
          delays := w.delays ++ lg.retrySchedule retries k,
          clock := w.clock + (lg.retrySchedule retries k).sum }) := by
  intro k
  induction k with
  | zero =>
    intro retries w _ _ hok
    rw [saveToFirestore_unfold]
    simp only [Nat.add_zero] at hok
    simp [hok, Logger.retrySchedule]
  | succ k ih =>
    intro retries w hle hfail hok
    obtain ⟨err, herr⟩ := Option.isSome_iff_exists.mp (hfail 0 (Nat.succ_pos k))
    simp only [Nat.add_zero] at herr
    have hlt : retries < lg.maxRetries := by omega
    rw [saveToFirestore_unfold]
    simp only [herr, hlt, if_true]
    rw [ih (retries + 1) _ (by omega)]
    · simp [Logger.delay, retrySchedule_succ, List.replicate_succ, Nat.add_assoc]
    · intro i hi
      have := hfail (i + 1) (by omega)
      simpa [Logger.delay, Nat.add_assoc, Nat.add_comm 1 i] using this
    · simpa [Logger.delay, Nat.add_assoc, Nat.add_comm 1 k] using hok

/-- Every attempt up to the last retry is rejected: the error of the last
attempt is rethrown. -/
theorem saveToFirestore_all_fail (lg : Logger) (e : LogEntry) :
    ∀ (k retries : Nat) (w : World), retries + k = lg.maxRetries →
      (∀ i, i ≤ k → (w.sinkRejects (w.addDocCalls.length + i) e.doc).isSome = true) →
      ∃ error, w.sinkRejects (w.addDocCalls.length + k) e.doc = some error ∧
      lg.saveToFirestore e retries w =
        (.error error, { w with
          addDocCalls := w.addDocCalls ++ List.replicate (k + 1) e.addDocCall,
          delays := w.delays ++ lg.retrySchedule retries k,
          clock := w.clock + (lg.retrySchedule retries k).sum }) := by
  intro k
  induction k with
  | zero =>
    intro retries w hle hfail
    obtain ⟨err, herr⟩ := Option.isSome_iff_exists.mp (hfail 0 (Nat.le_refl 0))
    refine ⟨err, herr, ?_⟩
    simp only [Nat.add_zero] at herr hle
    have hlt : ¬ retries < lg.maxRetries := by omega
    rw [saveToFirestore_unfold]
    simp [herr, hlt, Logger.retrySchedule]
  | succ k ih =>
    intro retries w hle hfail
    obtain ⟨err, herr⟩ := Option.isSome_iff_exists.mp (hfail 0 (Nat.zero_le _))
    simp only [Nat.add_zero] at herr
    have hlt : retries < lg.maxRetries := by omega
    obtain ⟨error, hlast, heq⟩ := ih (retries + 1)
      (Logger.delay (lg.retryDelay * (retries + 1))
        { w with addDocCalls := w.addDocCalls ++ [e.addDocCall] })
      (by omega)
      (by
        intro i hi
        have := hfail (i + 1) (by omega)
        simpa [Logger.delay, Nat.add_assoc, Nat.add_comm 1 i] using this)
    refine ⟨error, ?_, ?_⟩
    · simpa [Logger.delay, Nat.add_assoc, Nat.add_comm 1 k] using hlast
    · rw [saveToFirestore_unfold]
      simp only [herr, hlt, if_true]
      rw [heq]
      simp [Logger.delay, retrySchedule_succ, List.replicate_succ, Nat.add_assoc]

/-- Whatever the sink does, `saveToFirestore` makes between one and
`maxRetries - retries + 1` attempts, all with the same payload, and touches
nothing but the sink, the list of delays and the clock. -/
theorem saveToFirestore_world (lg : Logger) (e : LogEntry) :
    ∀ (n retries : Nat) (w : World), lg.maxRetries - retries = n →
      ∃ (m : Nat) (docs : List ActivityLogDoc) (ds : List Nat) (c : Nat),
        1 ≤ m ∧ m ≤ n + 1 ∧
        (lg.saveToFirestore e retries w).2 =
          { w with addDocCalls := w.addDocCalls ++ List.replicate m e.addDocCall,
                   documents := docs, delays := ds, clock := c } := by
  intro n
  induction n with
  | zero =>
    intro retries w hn
    have hlt : ¬ retries < lg.maxRetries := by omega
    rw [saveToFirestore_unfold]
    cases h : w.sinkRejects w.addDocCalls.length e.doc with
    | none => exact ⟨1, _, w.delays, w.clock, le_refl 1, by omega, rfl⟩
    | some err =>
      simp only [hlt, if_false]
      exact ⟨1, w.documents, w.delays, w.clock, le_refl 1, by omega, rfl⟩
  | succ n ih =>
    intro retries w hn
    have hlt : retries < lg.maxRetries := by omega
    rw [saveToFirestore_unfold]
    cases h : w.sinkRejects w.addDocCalls.length e.doc with
    | none => exact ⟨1, _, w.delays, w.clock, le_refl 1, by omega, rfl⟩
    | some err =>
      simp only [hlt, if_true]
      obtain ⟨m, docs, ds, c, h1, h2, heq⟩ := ih (retries + 1)
        (Logger.delay (lg.retryDelay * (retries + 1))
          { w with addDocCalls := w.addDocCalls ++ [e.addDocCall] }) (by omega)
      refine ⟨m + 1, docs, ds, c, by omega, by omega, ?_⟩
      rw [heq]
      simp [Logger.delay, List.replicate_succ]

/-! ## Lemmas: the paths of `logActivity` -/

theorem getSessionId_world (w : World) :
    ∃ s n, (Logger.getSessionId w).2 = { w with sessionItem := s, randomCalls := n } := by
  unfold Logger.getSessionId
  split
  · exact ⟨_, _, rfl⟩
  · exact ⟨w.sessionItem, w.randomCalls, rfl⟩

theorem buildEntry_world (a : String) (d : JsValue) (l : Option String) (w : World) :
    ∃ s n, (Logger.buildEntry a d l w).2 = { w with sessionItem := s, randomCalls := n } :=
  getSessionId_world w

theorem buildEntry_serialisable (a : String) (d : JsValue) (l : Option String) (w : World) :
    (Logger.entryOf a d l w).data.serialisable = d.serialisable := by
  cases d <;> rfl

theorem logToConsole_ok (e : LogEntry) (w : World) (h : e.data.serialisable = true) :
    ∃ c, Logger.logToConsole e w = (.ok (), { w with console := w.console ++ [c] }) := by
  unfold JsValue.serialisable at h
  unfold Logger.logToConsole
  cases hs : JSON.stringify e.data with
  | error err => simp [hs] at h
  | ok text => exact ⟨_, rfl⟩

theorem logToConsole_error (e : LogEntry) (w : World) (h : e.data.serialisable = false) :
    ∃ error, JSON.stringify e.data = .error error ∧
      Logger.logToConsole e w = (.error error, w) := by
  unfold JsValue.serialisable at h
  unfold Logger.logToConsole
  cases hs : JSON.stringify e.data with
  | error err => exact ⟨err, rfl, rfl⟩
  | ok text => simp [hs] at h

/-- Up to the test of `this.offline`, a call has only written its console
trace and possibly created the session identifier. -/
theorem tracedWorld_eq (a : String) (d : JsValue) (l : Option String) (w : World)
    (h : d.serialisable = true) :
    ∃ c s n, Logger.tracedWorld a d l w =
      { w with console := w.console ++ [c], sessionItem := s, randomCalls := n } := by
  obtain ⟨s, n, hb⟩ := buildEntry_world a d l w
  have hs : (Logger.buildEntry a d l w).1.data.serialisable = true := by
    rw [← h]; exact buildEntry_serialisable a d l w
  obtain ⟨c, hc⟩ := logToConsole_ok (Logger.buildEntry a d l w).1
    (Logger.buildEntry a d l w).2 hs
  refine ⟨c, s, n, ?_⟩
  unfold Logger.tracedWorld
  rw [hc]
  simp only [hb]

theorem logToConsole_traced (a : String) (d : JsValue) (l : Option String) (w : World)
    (h : d.serialisable = true) :
    Logger.logToConsole (Logger.buildEntry a d l w).1 (Logger.buildEntry a d l w).2 =
      (.ok (), Logger.tracedWorld a d l w) := by
  have hs : (Logger.buildEntry a d l w).1.data.serialisable = true := by
    rw [← h]; exact buildEntry_serialisable a d l w
  obtain ⟨c, hc⟩ := logToConsole_ok (Logger.buildEntry a d l w).1
    (Logger.buildEntry a d l w).2 hs
  simp only [Logger.tracedWorld, hc]

theorem logActivity_eq (lg : Logger) (a : String) (d : JsValue) (l : Option String)
    (w : World) :
    lg.logActivity a d l w =
      match Logger.logToConsole (Logger.buildEntry a d l w).1 (Logger.buildEntry a d l w).2 with
      | (.error error, w2) => (.error error, lg, w2)
      | (.ok _, w2) =>
        if lg.offline then
          (.ok (), { lg with offlineQueue := lg.offlineQueue ++ [Logger.entryOf a d l w] },
            Logger.saveToLocalStorage (Logger.entryOf a d l w) w2)
        else
          match lg.saveToFirestore (Logger.entryOf a d l w) 0 w2 with
          | (.ok _, w3) => (.ok (), lg, w3)
          | (.error error, w3) =>
            (.ok (), { lg with offlineQueue := lg.offlineQueue ++ [Logger.entryOf a d l w] },
              Logger.saveToLocalStorage (Logger.entryOf a d l w)
                (w3.consoleCall .error [.text "Failed to log to Firestore:", .caught error])) := by
  rfl

theorem logActivity_unserialisable (lg : Logger) (a : String) (d : JsValue)
    (l : Option String) (w : World) (h : d.serialisable = false) :
    ∃ error, JSON.stringify (Logger.entryOf a d l w).data = .error error ∧
      lg.logActivity a d l w = (.error error, lg, (Logger.buildEntry a d l w).2) := by
  have hs : (Logger.buildEntry a d l w).1.data.serialisable = false := by
    rw [← h]; exact buildEntry_serialisable a d l w
  obtain ⟨err, h1, h2⟩ := logToConsole_error (Logger.buildEntry a d l w).1
    (Logger.buildEntry a d l w).2 hs
  exact ⟨err, h1, by rw [logActivity_eq, h2]⟩

theorem logActivity_offline (lg : Logger) (a : String) (d : JsValue) (l : Option String)
    (w : World) (hoff : lg.offline = true) (h : d.serialisable = true) :
    lg.logActivity a d l w =
      (.ok (), { lg with offlineQueue := lg.offlineQueue ++ [Logger.entryOf a d l w] },
        Logger.saveToLocalStorage (Logger.entryOf a d l w) (Logger.tracedWorld a d l w)) := by
  rw [logActivity_eq, logToConsole_traced a d l w h]
  simp only [hoff, if_true]

theorem logActivity_delivered (lg : Logger) (a : String) (d : JsValue) (l : Option String)
    (w w3 : World) (hon : lg.offline = false) (h : d.serialisable = true)
    (hsave : lg.saveToFirestore (Logger.entryOf a d l w) 0 (Logger.tracedWorld a d l w) =
      (.ok (), w3)) :
    lg.logActivity a d l w = (.ok (), lg, w3) := by
  rw [logActivity_eq, logToConsole_traced a d l w h]
  simp [hon, hsave]

theorem logActivity_undelivered (lg : Logger) (a : String) (d : JsValue) (l : Option String)
    (w w3 : World) (error : JsError) (hon : lg.offline = false) (h : d.serialisable = true)
    (hsave : lg.saveToFirestore (Logger.entryOf a d l w) 0 (Logger.tracedWorld a d l w) =
      (.error error, w3)) :
    lg.logActivity a d l w =
      (.ok (), { lg with offlineQueue := lg.offlineQueue ++ [Logger.entryOf a d l w] },
        Logger.saveToLocalStorage (Logger.entryOf a d l w)
          (w3.consoleCall .error [.text "Failed to log to Firestore:", .caught error])) := by
  rw [logActivity_eq, logToConsole_traced a d l w h]
  simp [hon, hsave]

/-! ## Lemmas: the flush -/

theorem flushLoop_cons_ok (lg : Logger) (e : LogEntry) (rest : List LogEntry) (w w1 : World)
    (h : lg.saveToFirestore e 0 w = (.ok (), w1)) :
    lg.flushLoop (e :: rest) w = lg.flushLoop rest w1 := by
  simp only [Logger.flushLoop, h]

theorem flushLoop_cons_error (lg : Logger) (e : LogEntry) (rest : List LogEntry)
    (w w1 : World) (error : JsError) (h : lg.saveToFirestore e 0 w = (.error error, w1)) :
    lg.flushLoop (e :: rest) w =
      Logger.flushLoop { lg with offlineQueue := lg.offlineQueue ++ [e] } rest
        (w1.consoleCall .error [.text "Failed to flush log entry:", .caught error]) := by
  simp only [Logger.flushLoop, h]

/-- The loop of the flush against a sink whose verdict depends on the entry
only (`fails e`: every attempt for `e` is rejected; otherwise every attempt is
accepted). -/
theorem flushLoop_spec (fails : LogEntry → Bool) :
    ∀ (snapshot : List LogEntry) (lg : Logger) (w : World),
      (∀ n e, (w.sinkRejects n e.doc).isSome = fails e) →
      (lg.flushLoop snapshot w).1 =
        { lg with offlineQueue := lg.offlineQueue ++ snapshot.filter fails } ∧
      (lg.flushLoop snapshot w).2.addDocCalls = w.addDocCalls ++
        (snapshot.map (fun e =>
          List.replicate (if fails e then lg.maxRetries + 1 else 1) e.addDocCall)).flatten ∧
      (lg.flushLoop snapshot w).2.documents = w.documents ++
        (snapshot.filter (fun e => !fails e)).map LogEntry.doc ∧
      (lg.flushLoop snapshot w).2.delays = w.delays ++
        (snapshot.map (fun e =>
          if fails e then lg.retrySchedule 0 lg.maxRetries else [])).flatten ∧
      (lg.flushLoop snapshot w).2.sinkRejects = w.sinkRejects ∧
      (lg.flushLoop snapshot w).2.localStorage = w.localStorage := by
  intro snapshot
  induction snapshot with
  | nil =>
    intro lg w _
    simp [Logger.flushLoop]
  | cons e rest ih =>
    intro lg w hsink
    by_cases hf : fails e = true
    · have hall : ∀ i, i ≤ lg.maxRetries →
          (w.sinkRejects (w.addDocCalls.length + i) e.doc).isSome = true := by
        intro i _
        rw [hsink]; exact hf
      obtain ⟨err, _, heq⟩ := saveToFirestore_all_fail lg e lg.maxRetries 0 w (by simp) hall
      rw [flushLoop_cons_error lg e rest w _ err heq]
      obtain ⟨h1, h2, h3, h4, h5, h6⟩ := ih { lg with offlineQueue := lg.offlineQueue ++ [e] }
        (World.consoleCall { w with
          addDocCalls := w.addDocCalls ++ List.replicate (lg.maxRetries + 1) e.addDocCall,
          delays := w.delays ++ lg.retrySchedule 0 lg.maxRetries,
          clock := w.clock + (lg.retrySchedule 0 lg.maxRetries).sum } .error
          [.text "Failed to flush log entry:", .caught err])
        (by simpa [World.consoleCall] using hsink)
      refine ⟨?_, ?_, ?_, ?_, ?_, ?_⟩
      · rw [h1]; simp [hf, List.filter_cons]
      · rw [h2]; simp [hf, World.consoleCall]
      · rw [h3]; simp [hf, World.consoleCall, List.filter_cons]
      · rw [h4]; simp [hf, World.consoleCall, Logger.retrySchedule]
      · rw [h5]; simp [World.consoleCall]
      · rw [h6]; simp [World.consoleCall]
    · have hf' : fails e = false := by simpa using hf
      have hok : w.sinkRejects (w.addDocCalls.length + 0) e.doc = none := by
        have := hsink (w.addDocCalls.length + 0) e
        rw [hf'] at this
        simpa using this
      have heq := saveToFirestore_fail_then_ok lg e 0 0 w (Nat.zero_le _)
        (fun i hi => absurd hi (Nat.not_lt_zero i)) hok
      rw [flushLoop_cons_ok lg e rest w _ heq]
      obtain ⟨h1, h2, h3, h4, h5, h6⟩ := ih lg
        { w with
          addDocCalls := w.addDocCalls ++ List.replicate (0 + 1) e.addDocCall,
          documents := w.documents ++ [e.doc],
          delays := w.delays ++ lg.retrySchedule 0 0,
          clock := w.clock + (lg.retrySchedule 0 0).sum }
        (by simpa using hsink)
      refine ⟨?_, ?_, ?_, ?_, ?_, ?_⟩
      · rw [h1]; simp [hf', List.filter_cons]
      · rw [h2]; simp [hf']
      · rw [h3]; simp [hf', List.filter_cons]
      · rw [h4]; simp [hf', Logger.retrySchedule]
      · rw [h5]
      · rw [h6]

/-- The whole flush against such a sink. -/
theorem flushOfflineQueue_spec (fails : LogEntry → Bool) (lg : Logger) (w : World)
    (hsink : ∀ n e, (w.sinkRejects n e.doc).isSome = fails e) :
    (lg.flushOfflineQueue w).1 =
        { lg with offlineQueue := lg.offlineQueue.filter fails } ∧
      (lg.flushOfflineQueue w).2.addDocCalls = w.addDocCalls ++
        (lg.offlineQueue.map (fun e =>
          List.replicate (if fails e then lg.maxRetries + 1 else 1) e.addDocCall)).flatten ∧
      (lg.flushOfflineQueue w).2.documents = w.documents ++
        (lg.offlineQueue.filter (fun e => !fails e)).map LogEntry.doc ∧
      (lg.flushOfflineQueue w).2.delays = w.delays ++
        (lg.offlineQueue.map (fun e =>
          if fails e then lg.retrySchedule 0 lg.maxRetries else [])).flatten ∧
      (lg.flushOfflineQueue w).2.sinkRejects = w.sinkRejects ∧
      (lg.flushOfflineQueue w).2.localStorage = w.localStorage := by
  unfold Logger.flushOfflineQueue
  split
  · rename_i h
    have hq : lg.offlineQueue = [] := List.length_eq_zero.mp h
    simp [hq]
    cases lg
    simp_all
  · obtain ⟨h1, h2, h3, h4, h5, h6⟩ := flushLoop_spec fails lg.offlineQueue
      { lg with offlineQueue := [] }
      (w.consoleCall .info [.text ("Flushing " ++ toString lg.offlineQueue.length ++
        " offline log entries")])
      (by simpa [World.consoleCall] using hsink)
    refine ⟨?_, ?_, ?_, ?_, ?_, ?_⟩
    · rw [h1]; simp
    · rw [h2]; simp [World.consoleCall]
    · rw [h3]; simp [World.consoleCall]
    · rw [h4]; simp [World.consoleCall, Logger.retrySchedule]
    · rw [h5]; simp [World.consoleCall]
    · rw [h6]; simp [World.consoleCall]

/-! ## Lemmas: one call, by path -/

/-- With readable storage, an array in the mirror and a serialisable entry,
the `try` block reaches `setItem` with the last 100 elements of the extended
array. -/
theorem tryBlock_reaches_setItem (e : LogEntry) (ls : LocalStorage) (L : List Json)
    (hg : ls.getItemThrows = none) (hm : ls.mirror = some L)
    (hs : e.data.serialisable = true) :
    Logger.saveToLocalStorage.tryBlock e ls =
      ls.setItem (.json (.arr (lastEntries 100 (L ++ [e.json])))) := by
  have hser : JsValue.serializeElems (Json.toJsList L ++ [e.toJs]) = .ok (L ++ [e.json]) := by
    apply serializeElems_append _ _ _ _ (serializeElems_toJsList L)
    simpa using serializeElems_cons_of_ok (LogEntry.serialize_json e hs)
      (rfl : JsValue.serializeElems [] = .ok [])
  have hdrop := serializeElems_drop ((Json.toJsList L ++ [e.toJs]).length - 100) _ _ hser
  have hlen : (Json.toJsList L ++ [e.toJs]).length = (L ++ [e.json]).length := by
    simp [toJsList_length]
  simp only [Logger.saveToLocalStorage.tryBlock, LocalStorage.getItem, hg,
    orEmptyArray_of_mirror hm, JSON.parse, splice_eq_drop, JSON.stringify,
    JsValue.serialize, hdrop]
  simp only [hlen, lastEntries]

theorem allAttemptsFail_traced (lg : Logger) (e : LogEntry) (a : String) (d : JsValue)
    (l : Option String) (w : World) (hd : d.serialisable = true)
    (h : lg.allAttemptsFail e w) : lg.allAttemptsFail e (Logger.tracedWorld a d l w) := by
  obtain ⟨c, s, n, hw⟩ := tracedWorld_eq a d l w hd
  rw [hw]
  exact h

/-- The delivery-failure path: the world in which the entry is handed to
`saveToLocalStorage` differs from the initial one by the attempts, the delays
and console output only. -/
theorem logActivity_all_fail (lg : Logger) (a : String) (d : JsValue) (l : Option String)
    (w : World) (hon : lg.offline = false) (hd : d.serialisable = true)
    (hfail : lg.allAttemptsFail (Logger.entryOf a d l w) w) :
    ∃ w3 : World, w3.localStorage = w.localStorage ∧
      w3.addDocCalls = w.addDocCalls ++
        List.replicate (lg.maxRetries + 1) (Logger.entryOf a d l w).addDocCall ∧
      w3.delays = w.delays ++ lg.retrySchedule 0 lg.maxRetries ∧
      w3.documents = w.documents ∧
      lg.logActivity a d l w =
        (.ok (), { lg with offlineQueue := lg.offlineQueue ++ [Logger.entryOf a d l w] },
          Logger.saveToLocalStorage (Logger.entryOf a d l w) w3) := by
  obtain ⟨error, _, heq⟩ := saveToFirestore_all_fail lg (Logger.entryOf a d l w)
    lg.maxRetries 0 (Logger.tracedWorld a d l w) (by simp)
    (allAttemptsFail_traced lg _ a d l w hd hfail)
  obtain ⟨c, s, n, hw⟩ := tracedWorld_eq a d l w hd
  refine ⟨_, ?_, ?_, ?_, ?_, logActivity_undelivered lg a d l w _ error hon hd heq⟩
  · simp [World.consoleCall, hw]
  · simp [World.consoleCall, hw]
  · simp [World.consoleCall, hw]
  · simp [World.consoleCall, hw]

theorem saveToLocalStorage_mirror (e : LogEntry) (w : World) (L : List Json)
    (hw : w.localStorage.working) (hm : w.localStorage.mirror = some L)
    (hs : e.data.serialisable = true) :
    (Logger.saveToLocalStorage e w).localStorage =
      { w.localStorage with logs := some (.json (.arr (lastEntries 100 (L ++ [e.json])))) } := by
  rw [saveToLocalStorage_of_ok e w _ (tryBlock_ok e w.localStorage L hw hm hs)]

theorem saveToLocalStorage_bounded (e : LogEntry) (w : World)
    (h : w.localStorage.bounded) : (Logger.saveToLocalStorage e w).localStorage.bounded := by
  cases ht : Logger.saveToLocalStorage.tryBlock e w.localStorage with
  | error err =>
    rw [saveToLocalStorage_of_error e w err ht]
    exact h
  | ok ls =>
    rw [saveToLocalStorage_of_ok e w ls ht]
    obtain ⟨_, _, ys, hys, hlen⟩ := tryBlock_ok_shape e w.localStorage ls ht
    intro M hM
    have : ls.mirror = some ys := mirror_of_logs_json_arr ls ys hys
    have hM' : ls.mirror = some M := hM
    rw [this, Option.some.injEq] at hM'
    rw [← hM']
    exact hlen

/-- One call leaves local storage alone or ends with one `saveToLocalStorage`
on a world holding the initial local storage. -/
theorem logActivity_localStorage (lg : Logger) (a : String) (d : JsValue)
    (l : Option String) (w : World) :
    (lg.logActivity a d l w).2.2.localStorage = w.localStorage ∨
      ∃ w3 : World, w3.localStorage = w.localStorage ∧
        (lg.logActivity a d l w).2.2 =
          Logger.saveToLocalStorage (Logger.entryOf a d l w) w3 := by
  cases hd : d.serialisable with
  | false =>
    obtain ⟨err, _, heq⟩ := logActivity_unserialisable lg a d l w hd
    obtain ⟨s, n, hb⟩ := buildEntry_world a d l w
    left
    rw [heq, hb]
  | true =>
    obtain ⟨c, s, n, hw⟩ := tracedWorld_eq a d l w hd
    cases hoff : lg.offline with
    | true =>
      right
      refine ⟨Logger.tracedWorld a d l w, by rw [hw], ?_⟩
      rw [logActivity_offline lg a d l w hoff hd]
    | false =>
      obtain ⟨m, docs, ds, c', _, _, hsw⟩ := saveToFirestore_world lg (Logger.entryOf a d l w)
        lg.maxRetries 0 (Logger.tracedWorld a d l w) rfl
      cases hsave : lg.saveToFirestore (Logger.entryOf a d l w) 0
          (Logger.tracedWorld a d l w) with
      | mk outcome w3 =>
        have hw3 : w3.localStorage = w.localStorage := by
          have : w3 = (lg.saveToFirestore (Logger.entryOf a d l w) 0
            (Logger.tracedWorld a d l w)).2 := by rw [hsave]
          rw [this, hsw, hw]
        cases outcome with
        | ok u =>
          left
          rw [logActivity_delivered lg a d l w w3 hoff hd hsave]
          exact hw3
        | error err =>
          right
          refine ⟨_, ?_, by rw [logActivity_undelivered lg a d l w w3 err hoff hd hsave]⟩
          simpa [World.consoleCall] using hw3

theorem logActivity_bounded (lg : Logger) (a : String) (d : JsValue) (l : Option String)
    (w : World) (h : w.localStorage.bounded) :
    (lg.logActivity a d l w).2.2.localStorage.bounded := by
  rcases logActivity_localStorage lg a d l w with h1 | ⟨w3, h3, heq⟩
  · rw [h1]; exact h
  · rw [heq]
    exact saveToLocalStorage_bounded _ w3 (by rw [h3]; exact h)

theorem logActivities_bounded : ∀ (calls : List Call) (lg : Logger) (w : World),
    w.localStorage.bounded → (lg.logActivities calls w).2.localStorage.bounded
  | [], _, _, h => h
  | c :: cs, lg, w, h => by
    simp only [Logger.logActivities]
    exact logActivities_bounded cs _ _ (logActivity_bounded lg c.action c.data c.level w h)

theorem saveAllToLocalStorage_mirror : ∀ (es : List LogEntry) (w : World) (L : List Json),
    w.localStorage.working → w.localStorage.mirror = some L →
    (∀ x, x ∈ es → x.data.serialisable = true) →
    (Logger.saveAllToLocalStorage es w).localStorage.working ∧
    (Logger.saveAllToLocalStorage es w).localStorage.mirror =
      some (if es.isEmpty then L else lastEntries 100 (L ++ es.map LogEntry.json))
  | [], w, L, hw, hm, _ => ⟨hw, by simpa [Logger.saveAllToLocalStorage] using hm⟩
  | e :: es, w, L, hw, hm, hs => by
    have he := saveToLocalStorage_mirror e w L hw hm (hs e (List.mem_cons_self e es))
    have hw1 : (Logger.saveToLocalStorage e w).localStorage.working := by
      rw [he]; exact hw
    have hm1 : (Logger.saveToLocalStorage e w).localStorage.mirror =
        some (lastEntries 100 (L ++ [e.json])) := by
      rw [he]; exact mirror_of_logs_json_arr _ _ rfl
    obtain ⟨h1, h2⟩ := saveAllToLocalStorage_mirror es (Logger.saveToLocalStorage e w) _ hw1 hm1
      (fun x hx => hs x (List.mem_cons_of_mem e hx))
    refine ⟨h1, ?_⟩
    simp only [Logger.saveAllToLocalStorage, h2]
    cases es with
    | nil => simp
    | cons x xs =>
      simp only [List.isEmpty_cons, Bool.false_eq_true, if_false]
      rw [lastEntries_append_lastEntries]
      simp

theorem saveToLocalStorage_localStorage_of_error (e : LogEntry) (w : World) (error : JsError)
    (h : Logger.saveToLocalStorage.tryBlock e w.localStorage = .error error) :
    (Logger.saveToLocalStorage e w).localStorage = w.localStorage := by
  rw [saveToLocalStorage_of_error e w error h]
  rfl

/-- One call made while offline, with working storage and an array in the
mirror. -/
theorem logActivity_offline_step (lg : Logger) (a : String) (d : JsValue)
    (l : Option String) (w : World) (L : List Json) (hoff : lg.offline = true)
    (hw : w.localStorage.working) (hm : w.localStorage.mirror = some L) :
    (lg.logActivity a d l w).2.1.offline = true ∧
    (lg.logActivity a d l w).2.2.localStorage.working ∧
    (lg.logActivity a d l w).2.2.addDocCalls = w.addDocCalls ∧
    (lg.logActivity a d l w).2.1.offlineQueue =
      lg.offlineQueue ++ (if d.serialisable then [Logger.entryOf a d l w] else []) ∧
    (lg.logActivity a d l w).2.2.localStorage.mirror =
      some (if d.serialisable then lastEntries 100 (L ++ [(Logger.entryOf a d l w).json])
        else L) := by
  cases hd : d.serialisable with
  | false =>
    obtain ⟨err, _, heq⟩ := logActivity_unserialisable lg a d l w hd
    obtain ⟨s, n, hb⟩ := buildEntry_world a d l w
    rw [heq, hb]
    exact ⟨hoff, hw, rfl, by simp, by simpa using hm⟩
  | true =>
    obtain ⟨c, s, n, ht⟩ := tracedWorld_eq a d l w hd
    have hls : (Logger.tracedWorld a d l w).localStorage = w.localStorage := by rw [ht]
    have hes : (Logger.entryOf a d l w).data.serialisable = true := by
      rw [buildEntry_serialisable]; exact hd
    have hsave := saveToLocalStorage_of_ok (Logger.entryOf a d l w) (Logger.tracedWorld a d l w) _
      (tryBlock_ok (Logger.entryOf a d l w) _ L (by rw [hls]; exact hw)
        (by rw [hls]; exact hm) hes)
    rw [logActivity_offline lg a d l w hoff hd, hsave, ht]
    exact ⟨hoff, hw, rfl, by simp, by simp [LocalStorage.mirror, orEmptyArray]⟩

theorem offline_calls_aux : ∀ (calls : List Call) (lg : Logger) (w : World) (L : List Json),
    lg.offline = true → w.localStorage.working → w.localStorage.mirror = some L →
    (lg.logActivities calls w).2.addDocCalls = w.addDocCalls ∧
    (lg.logActivities calls w).1.offlineQueue =
      lg.offlineQueue ++ lg.recordedEntries calls w ∧
    (lg.logActivities calls w).2.localStorage.mirror =
      some (if (lg.recordedEntries calls w).isEmpty then L
        else lastEntries 100 (L ++ (lg.recordedEntries calls w).map LogEntry.json))
  | [], lg, w, L, _, _, hm => by
    simp [Logger.logActivities, Logger.recordedEntries, Logger.builtEntries, hm]
  | c :: cs, lg, w, L, hoff, hw, hm => by
    obtain ⟨h1, h2, h3, h4, h5⟩ := logActivity_offline_step lg c.action c.data c.level w L hoff hw hm
    obtain ⟨k1, k2, k3⟩ := offline_calls_aux cs _ _ _ h1 h2 h5
    have hes : (Logger.entryOf c.action c.data c.level w).data.serialisable = c.data.serialisable :=
      buildEntry_serialisable _ _ _ _
    have hrec : lg.recordedEntries (c :: cs) w =
        (if c.data.serialisable then [Logger.entryOf c.action c.data c.level w] else []) ++
          (lg.logActivity c.action c.data c.level w).2.1.recordedEntries cs
            (lg.logActivity c.action c.data c.level w).2.2 := by
      simp only [Logger.recordedEntries, Logger.builtEntries, List.filter_cons]
      change (if (Logger.entryOf c.action c.data c.level w).data.serialisable = true then _ else _) = _
      rw [hes]
      cases c.data.serialisable <;> simp [Logger.entryOf]
    simp only [Logger.logActivities]
    refine ⟨by rw [k1, h3], by rw [k2, h4, hrec, List.append_assoc], ?_⟩
    rw [k3, hrec]
    cases hd : c.data.serialisable with
    | false => simp
    | true =>
      simp only [if_true, List.singleton_append, List.isEmpty_cons, Bool.false_eq_true, if_false,
        List.map_cons]
      split
      · rename_i hempty
        simp [List.isEmpty_iff.mp hempty]
      · rw [lastEntries_append_lastEntries]
        simp

/-! ## The claims -/

/-- C1 (counterexample): with the quota of local storage exhausted, a call made
online whose delivery attempts all fail completes and queues the entry, but
the entry is not appended to the mirror, which still holds no entry. -/
theorem logActivity_undelivered_not_mirrored_on_quota :
    (Logger.new quotaWorld).offline = false ∧
    sampleData.serialisable = true ∧
    (Logger.new quotaWorld).allAttemptsFail
      (Logger.entryOf "user_login" sampleData none quotaWorld) quotaWorld ∧
    quotaWorld.localStorage.mirror = some [] ∧
    ((Logger.new quotaWorld).logActivity "user_login" sampleData none quotaWorld).1 = .ok () ∧
    ((Logger.new quotaWorld).logActivity "user_login" sampleData none
      quotaWorld).2.1.offlineQueue = [sampleEntry] ∧
    ((Logger.new quotaWorld).logActivity "user_login" sampleData none
      quotaWorld).2.2.localStorage.mirror = some [] := by
  have hfail : (Logger.new quotaWorld).allAttemptsFail
      (Logger.entryOf "user_login" sampleData none quotaWorld) quotaWorld := fun _ _ => rfl
  obtain ⟨w3, h3, _, _, _, heq⟩ := logActivity_all_fail (Logger.new quotaWorld) "user_login"
    sampleData none quotaWorld rfl rfl hfail
  refine ⟨rfl, rfl, hfail, rfl, by rw [heq], by rw [heq]; rfl, ?_⟩
  rw [heq]
  have ht : Logger.saveToLocalStorage.tryBlock
      (Logger.entryOf "user_login" sampleData none quotaWorld) w3.localStorage =
      .error (.domException "QuotaExceededError") := by
    rw [h3]; rfl
  show (Logger.saveToLocalStorage _ w3).localStorage.mirror = some []
  rw [saveToLocalStorage_localStorage_of_error _ w3 _ ht, h3]
  rfl

/-- C1 (amended): a call made online with serialisable data whose delivery
attempts all fail (the initial one and every retry) returns without throwing
and appends its entry once at the end of the offline queue; when local storage
is working and the mirror holds a JSON array, the entry is also appended once
at the end of the mirror, of which the last 100 elements are kept. -/
theorem logActivity_undelivered_queued_and_mirrored (lg : Logger) (a : String)
    (d : JsValue) (l : Option String) (w : World)
    (hon : lg.offline = false) (hd : d.serialisable = true)
    (hfail : lg.allAttemptsFail (Logger.entryOf a d l w) w) :
    (lg.logActivity a d l w).1 = .ok () ∧
    (lg.logActivity a d l w).2.1 =
      { lg with offlineQueue := lg.offlineQueue ++ [Logger.entryOf a d l w] } ∧
    ∀ L, w.localStorage.working → w.localStorage.mirror = some L →
      (lg.logActivity a d l w).2.2.localStorage.mirror =
        some (lastEntries 100 (L ++ [(Logger.entryOf a d l w).json])) := by
  obtain ⟨w3, h3, _, _, _, heq⟩ := logActivity_all_fail lg a d l w hon hd hfail
  refine ⟨by rw [heq], by rw [heq], ?_⟩
  intro L hw hm
  have hes : (Logger.entryOf a d l w).data.serialisable = true := by
    rw [buildEntry_serialisable]; exact hd
  rw [heq]
  show (Logger.saveToLocalStorage _ w3).localStorage.mirror = _
  rw [saveToLocalStorage_mirror _ w3 L (by rw [h3]; exact hw) (by rw [h3]; exact hm) hes]
  exact mirror_of_logs_json_arr _ _ rfl

/-- C1 (witness): the amended statement at a call made online in a browser
whose sink is unreachable and whose local storage works. -/
theorem logActivity_undelivered_queued_and_mirrored_witness :
    (Logger.new unreachableSinkWorld).offline = false ∧
    sampleData.serialisable = true ∧
    (Logger.new unreachableSinkWorld).allAttemptsFail
      (Logger.entryOf "user_login" sampleData none unreachableSinkWorld)
      unreachableSinkWorld ∧
    ((Logger.new unreachableSinkWorld).logActivity "user_login" sampleData none
      unreachableSinkWorld).1 = .ok () ∧
    ((Logger.new unreachableSinkWorld).logActivity "user_login" sampleData none
      unreachableSinkWorld).2.1 =
      { Logger.new unreachableSinkWorld with
        offlineQueue := (Logger.new unreachableSinkWorld).offlineQueue ++
          [Logger.entryOf "user_login" sampleData none unreachableSinkWorld] } ∧
    ∀ L, unreachableSinkWorld.localStorage.working →
      unreachableSinkWorld.localStorage.mirror = some L →
      ((Logger.new unreachableSinkWorld).logActivity "user_login" sampleData none
        unreachableSinkWorld).2.2.localStorage.mirror =
        some (lastEntries 100
          (L ++ [(Logger.entryOf "user_login" sampleData none unreachableSinkWorld).json])) :=
  ⟨rfl, rfl, fun _ _ => rfl,
    logActivity_undelivered_queued_and_mirrored (Logger.new unreachableSinkWorld)
      "user_login" sampleData none unreachableSinkWorld rfl rfl (fun _ _ => rfl)⟩

/-- C2: calls made while offline, with working local storage and a JSON array
in the mirror, make no delivery attempt; afterwards the queue is the old queue
followed by the recorded entries in call order, and the mirror is the last 100
elements of the old mirror followed by the recorded entries in call order. -/
theorem offline_calls_queued_and_mirrored (lg : Logger) (calls : List Call) (w : World)
    (L : List Json) (hoff : lg.offline = true) (hw : w.localStorage.working)
    (hm : w.localStorage.mirror = some L) :
    (lg.logActivities calls w).2.addDocCalls = w.addDocCalls ∧
    (lg.logActivities calls w).1.offlineQueue =
      lg.offlineQueue ++ lg.recordedEntries calls w ∧
    (lg.logActivities calls w).2.localStorage.mirror =
      some (if (lg.recordedEntries calls w).isEmpty then L
        else lastEntries 100 (L ++ (lg.recordedEntries calls w).map LogEntry.json)) :=
  offline_calls_aux calls lg w L hoff hw hm

/-- C2 (witness): two calls made offline from an empty queue and an empty
mirror; both entries are recorded. -/
theorem offline_calls_queued_and_mirrored_witness :
    (Logger.onOffline (Logger.new sampleWorld)).offline = true ∧
    sampleWorld.localStorage.working ∧
    sampleWorld.localStorage.mirror = some [] ∧
    (Logger.onOffline (Logger.new sampleWorld)).recordedEntries
      [⟨"user_login", sampleData, none⟩, ⟨"post_created", .obj [("postId", .str "123")], none⟩]
      sampleWorld = [sampleEntry, otherEntry] ∧
    ((Logger.onOffline (Logger.new sampleWorld)).logActivities
      [⟨"user_login", sampleData, none⟩, ⟨"post_created", .obj [("postId", .str "123")], none⟩]
      sampleWorld).2.addDocCalls = sampleWorld.addDocCalls ∧
    ((Logger.onOffline (Logger.new sampleWorld)).logActivities
      [⟨"user_login", sampleData, none⟩, ⟨"post_created", .obj [("postId", .str "123")], none⟩]
      sampleWorld).1.offlineQueue =
      (Logger.onOffline (Logger.new sampleWorld)).offlineQueue ++
        (Logger.onOffline (Logger.new sampleWorld)).recordedEntries
          [⟨"user_login", sampleData, none⟩,
           ⟨"post_created", .obj [("postId", .str "123")], none⟩] sampleWorld ∧
    ((Logger.onOffline (Logger.new sampleWorld)).logActivities
      [⟨"user_login", sampleData, none⟩, ⟨"post_created", .obj [("postId", .str "123")], none⟩]
      sampleWorld).2.localStorage.mirror =
      some (if ((Logger.onOffline (Logger.new sampleWorld)).recordedEntries
          [⟨"user_login", sampleData, none⟩,
           ⟨"post_created", .obj [("postId", .str "123")], none⟩] sampleWorld).isEmpty then []
        else lastEntries 100 ([] ++
          ((Logger.onOffline (Logger.new sampleWorld)).recordedEntries
            [⟨"user_login", sampleData, none⟩,
             ⟨"post_created", .obj [("postId", .str "123")], none⟩] sampleWorld).map
            LogEntry.json)) :=
  ⟨rfl, ⟨rfl, fun _ => rfl⟩, rfl, rfl,
    offline_calls_queued_and_mirrored (Logger.onOffline (Logger.new sampleWorld))
      [⟨"user_login", sampleData, none⟩, ⟨"post_created", .obj [("postId", .str "123")], none⟩]
      sampleWorld [] rfl ⟨rfl, fun _ => rfl⟩ rfl⟩

/-- C3 (counterexample): with the quota of local storage exhausted and nothing
stored, `saveToLocalStorage` of a serialisable entry leaves the mirror empty,
whereas the last `min(100, 0 + 1)` elements of `[] ++ [e]` are the one entry. -/
theorem saveToLocalStorage_stores_nothing_on_quota :
    quotaWorld.localStorage.mirror = some [] ∧
    sampleEntry.data.serialisable = true ∧
    (Logger.saveToLocalStorage sampleEntry quotaWorld).localStorage.mirror = some [] ∧
    lastEntries 100 ([] ++ [sampleEntry.json]) = [sampleEntry.json] :=
  ⟨rfl, rfl, rfl, rfl⟩

/-- C3 (amended): when local storage is working, the mirror holds a JSON array
`L` and the entry `e` can be serialised, the list stored by
`saveToLocalStorage(e)` is the last `min(100, |L| + 1)` elements of `L ++ [e]`
in the same order, and a run of such calls leaves the last 100 of all the
entries mirrored; whatever the storage and the sink do, a mirror that holds at
most 100 entries holds at most 100 after any sequence of `logActivity` calls. -/
theorem saveToLocalStorage_keeps_last_100 (e : LogEntry) (w : World) (L : List Json)
    (hw : w.localStorage.working) (hm : w.localStorage.mirror = some L)
    (hs : e.data.serialisable = true) :
    (Logger.saveToLocalStorage e w).localStorage.mirror =
      some (lastEntries 100 (L ++ [e.json])) ∧
    (lastEntries 100 (L ++ [e.json])).length = min 100 (L.length + 1) ∧
    (∀ es : List LogEntry, (∀ x, x ∈ es → x.data.serialisable = true) →
      (Logger.saveAllToLocalStorage (e :: es) w).localStorage.mirror =
        some (lastEntries 100 (L ++ (e :: es).map LogEntry.json))) ∧
    (∀ (lg : Logger) (calls : List Call) (w0 : World), w0.localStorage.bounded →
      (lg.logActivities calls w0).2.localStorage.bounded) := by
  refine ⟨?_, ?_, ?_, fun lg calls w0 h => logActivities_bounded calls lg w0 h⟩
  · rw [saveToLocalStorage_mirror e w L hw hm hs]
    exact mirror_of_logs_json_arr _ _ rfl
  · rw [lastEntries_length]
    simp
  · intro es hes
    have := (saveAllToLocalStorage_mirror (e :: es) w L hw hm (by
      intro x hx
      rcases List.mem_cons.mp hx with rfl | hx
      · exact hs
      · exact hes x hx)).2
    simpa using this

/-- C3 (witness): the amended statement at the first write into an empty,
working local storage. -/
theorem saveToLocalStorage_keeps_last_100_witness :
    sampleWorld.localStorage.working ∧
    sampleWorld.localStorage.mirror = some [] ∧
    sampleEntry.data.serialisable = true ∧
    (Logger.saveToLocalStorage sampleEntry sampleWorld).localStorage.mirror =
      some (lastEntries 100 ([] ++ [sampleEntry.json])) ∧
    (lastEntries 100 (([] : List Json) ++ [sampleEntry.json])).length =
      min 100 (([] : List Json).length + 1) ∧
    (∀ es : List LogEntry, (∀ x, x ∈ es → x.data.serialisable = true) →
      (Logger.saveAllToLocalStorage (sampleEntry :: es) sampleWorld).localStorage.mirror =
        some (lastEntries 100 ([] ++ (sampleEntry :: es).map LogEntry.json))) ∧
    (∀ (lg : Logger) (calls : List Call) (w0 : World), w0.localStorage.bounded →
      (lg.logActivities calls w0).2.localStorage.bounded) :=
  ⟨⟨rfl, fun _ => rfl⟩, rfl, rfl,
    saveToLocalStorage_keeps_last_100 sampleEntry sampleWorld [] ⟨rfl, fun _ => rfl⟩ rfl rfl⟩

theorem flatten_map_replicate_one {α β : Type} (f : α → β) (xs : List α) :
    (xs.map (fun e => List.replicate 1 (f e))).flatten = xs.map f := by
  induction xs with
  | nil => rfl
  | cons x xs ih =>
    simp only [List.map_cons, List.flatten_cons, ih]
    rfl

theorem flatten_map_nil {α β : Type} (xs : List α) :
    (xs.map (fun _ => ([] : List β))).flatten = [] := by
  induction xs with
  | nil => rfl
  | cons x xs ih => simp [ih]

/-- C4: against a sink that always succeeds, a flush hands every queued entry
to the sink once, in queue order, every one is accepted, no delay is awaited,
and the queue is empty afterwards. -/
theorem flush_delivers_in_order (lg : Logger) (w : World)
    (hsink : ∀ n payload, w.sinkRejects n payload = none) :
    (lg.flushOfflineQueue w).2.addDocCalls =
      w.addDocCalls ++ lg.offlineQueue.map LogEntry.addDocCall ∧
    (lg.flushOfflineQueue w).2.documents =
      w.documents ++ lg.offlineQueue.map LogEntry.doc ∧
    (lg.flushOfflineQueue w).2.delays = w.delays ∧
    (lg.flushOfflineQueue w).1.offlineQueue = [] := by
  obtain ⟨h1, h2, h3, h4, _, _⟩ := flushOfflineQueue_spec (fun _ => false) lg w
    (by intro n e; simp [hsink])
  refine ⟨?_, ?_, ?_, ?_⟩
  · rw [h2]
    simp only [Bool.false_eq_true, if_false]
    rw [flatten_map_replicate_one]
  · rw [h3]; simp
  · rw [h4]
    simp only [Bool.false_eq_true, if_false]
    rw [flatten_map_nil]; simp
  · rw [h1]; simp

/-- C4 (witness): a queue of three entries flushed into the sample sink. -/
theorem flush_delivers_in_order_witness :
    (∀ n payload, sampleWorld.sinkRejects n payload = none) ∧
    (Logger.flushOfflineQueue
      { Logger.new sampleWorld with offlineQueue := [sampleEntry, otherEntry, sampleEntry] }
      sampleWorld).2.addDocCalls =
      sampleWorld.addDocCalls ++
        [sampleEntry, otherEntry, sampleEntry].map LogEntry.addDocCall ∧
    (Logger.flushOfflineQueue
      { Logger.new sampleWorld with offlineQueue := [sampleEntry, otherEntry, sampleEntry] }
      sampleWorld).2.documents =
      sampleWorld.documents ++ [sampleEntry, otherEntry, sampleEntry].map LogEntry.doc ∧
    (Logger.flushOfflineQueue
      { Logger.new sampleWorld with offlineQueue := [sampleEntry, otherEntry, sampleEntry] }
      sampleWorld).2.delays = sampleWorld.delays ∧
    (Logger.flushOfflineQueue
      { Logger.new sampleWorld with offlineQueue := [sampleEntry, otherEntry, sampleEntry] }
      sampleWorld).1.offlineQueue = [] :=
  ⟨fun _ _ => rfl,
    flush_delivers_in_order
      { Logger.new sampleWorld with offlineQueue := [sampleEntry, otherEntry, sampleEntry] }
      sampleWorld (fun _ _ => rfl)⟩

/-- C5: when the sink rejects every attempt for the entries selected by `fails`
and accepts the others, the queue after a flush is the sub-list of the old
queue made of the failing entries, in their order, each occurrence once, and
the sink has accepted exactly the others, in order. -/
theorem flush_keeps_failed_entries (fails : LogEntry → Bool) (lg : Logger) (w : World)
    (hsink : ∀ n e, (w.sinkRejects n e.doc).isSome = fails e) :
    (lg.flushOfflineQueue w).1.offlineQueue = lg.offlineQueue.filter fails ∧
    (lg.flushOfflineQueue w).2.documents =
      w.documents ++ (lg.offlineQueue.filter (fun e => !fails e)).map LogEntry.doc := by
  obtain ⟨h1, _, h3, _, _, _⟩ := flushOfflineQueue_spec fails lg w hsink
  exact ⟨by rw [h1], h3⟩

/-- C5 (witness): the queue `[e1, e2]` with a sink that fails only for `e2`
is left as `[e2]`. -/
theorem flush_keeps_failed_entries_witness :
    (∀ (n : Nat) (e : LogEntry), (rejectsPostsWorld.sinkRejects n e.doc).isSome =
      decide (e.action = "post_created")) ∧
    [sampleEntry, otherEntry].filter (fun e => decide (e.action = "post_created")) =
      [otherEntry] ∧
    (Logger.flushOfflineQueue
      { Logger.new rejectsPostsWorld with offlineQueue := [sampleEntry, otherEntry] }
      rejectsPostsWorld).1.offlineQueue =
      [sampleEntry, otherEntry].filter (fun e => decide (e.action = "post_created")) ∧
    (Logger.flushOfflineQueue
      { Logger.new rejectsPostsWorld with offlineQueue := [sampleEntry, otherEntry] }
      rejectsPostsWorld).2.documents =
      rejectsPostsWorld.documents ++
        ([sampleEntry, otherEntry].filter
          (fun e => !decide (e.action = "post_created"))).map LogEntry.doc :=
  ⟨fun (n : Nat) (e : LogEntry) => by
      by_cases h : e.action = "post_created" <;> simp [rejectsPostsWorld, LogEntry.doc, h],
    rfl,
    flush_keeps_failed_entries (fun e => decide (e.action = "post_created"))
      { Logger.new rejectsPostsWorld with offlineQueue := [sampleEntry, otherEntry] }
      rejectsPostsWorld
      (fun (n : Nat) (e : LogEntry) => by
        by_cases h : e.action = "post_created" <;> simp [rejectsPostsWorld, LogEntry.doc, h])⟩

/-- C6: a call made online (retry limit 3, serialisable data) whose first `k`
delivery attempts are rejected, `k ≤ 3`, and whose next attempt is accepted
returns without throwing after exactly `k + 1` calls of the sink, and leaves
the logger (its offline queue in particular) and local storage as they were. -/
theorem logActivity_retry_then_success (lg : Logger) (a : String) (d : JsValue)
    (l : Option String) (w : World) (k : Nat)
    (hon : lg.offline = false) (hmax : lg.maxRetries = 3) (hk : k ≤ 3)
    (hd : d.serialisable = true)
    (hfail : ∀ i, i < k →
      (w.sinkRejects (w.addDocCalls.length + i) (Logger.entryOf a d l w).doc).isSome = true)
    (hok : w.sinkRejects (w.addDocCalls.length + k) (Logger.entryOf a d l w).doc = none) :
    (lg.logActivity a d l w).1 = .ok () ∧
    (lg.logActivity a d l w).2.1 = lg ∧
    (lg.logActivity a d l w).2.2.addDocCalls =
      w.addDocCalls ++ List.replicate (k + 1) (Logger.entryOf a d l w).addDocCall ∧
    (lg.logActivity a d l w).2.2.documents = w.documents ++ [(Logger.entryOf a d l w).doc] ∧
    (lg.logActivity a d l w).2.2.localStorage = w.localStorage := by
  obtain ⟨c, s, n, ht⟩ := tracedWorld_eq a d l w hd
  have hsave := saveToFirestore_fail_then_ok lg (Logger.entryOf a d l w) k 0
    (Logger.tracedWorld a d l w) (by omega)
    (by rw [ht]; exact hfail) (by rw [ht]; exact hok)
  rw [logActivity_delivered lg a d l w _ hon hd hsave, ht]
  exact ⟨rfl, rfl, rfl, rfl, rfl⟩

/-- C6 (witness): two failures, then success: `k = 2`. -/
theorem logActivity_retry_then_success_witness :
    (Logger.new flakySinkWorld).offline = false ∧
    (Logger.new flakySinkWorld).maxRetries = 3 ∧
    2 ≤ 3 ∧
    sampleData.serialisable = true ∧
    ((Logger.new flakySinkWorld).logActivity "user_login" sampleData none flakySinkWorld).1 =
      .ok () ∧
    ((Logger.new flakySinkWorld).logActivity "user_login" sampleData none flakySinkWorld).2.1 =
      Logger.new flakySinkWorld ∧
    ((Logger.new flakySinkWorld).logActivity "user_login" sampleData none
      flakySinkWorld).2.2.addDocCalls =
      flakySinkWorld.addDocCalls ++ List.replicate (2 + 1)
        (Logger.entryOf "user_login" sampleData none flakySinkWorld).addDocCall ∧
    ((Logger.new flakySinkWorld).logActivity "user_login" sampleData none
      flakySinkWorld).2.2.documents =
      flakySinkWorld.documents ++
        [(Logger.entryOf "user_login" sampleData none flakySinkWorld).doc] ∧
    ((Logger.new flakySinkWorld).logActivity "user_login" sampleData none
      flakySinkWorld).2.2.localStorage = flakySinkWorld.localStorage :=
  ⟨rfl, rfl, by decide, rfl,
    logActivity_retry_then_success (Logger.new flakySinkWorld) "user_login" sampleData none
      flakySinkWorld 2 rfl rfl (by decide) rfl
      (fun i hi => by
        have h : i = 0 ∨ i = 1 := by omega
        rcases h with rfl | rfl <;> rfl)
      rfl⟩

/-- C7: with the constructor's settings (`maxRetries = 3`, `retryDelay = 1000`),
`saveToFirestore(entry)` against a sink that rejects every attempt makes exactly
4 `addDoc` attempts, awaits 1000, 2000 and 3000 ms before the three retries and
rethrows the error of the last attempt; whatever the sink does, it returns after
at least 1 and at most 4 attempts. -/
theorem saveToFirestore_retry_schedule (lg : Logger) (e : LogEntry) (w : World)
    (hmax : lg.maxRetries = 3) (hdelay : lg.retryDelay = 1000) :
    (lg.allAttemptsFail e w →
      ∃ error, w.sinkRejects (w.addDocCalls.length + 3) e.doc = some error ∧
        (lg.saveToFirestore e 0 w).1 = .error error ∧
        (lg.saveToFirestore e 0 w).2.addDocCalls =
          w.addDocCalls ++ List.replicate 4 e.addDocCall ∧
        (lg.saveToFirestore e 0 w).2.delays = w.delays ++ [1000, 2000, 3000] ∧
        (lg.saveToFirestore e 0 w).2.documents = w.documents) ∧
    ∃ m, 1 ≤ m ∧ m ≤ 4 ∧
      (lg.saveToFirestore e 0 w).2.addDocCalls =
        w.addDocCalls ++ List.replicate m e.addDocCall := by
  constructor
  · intro hfail
    obtain ⟨error, hlast, heq⟩ := saveToFirestore_all_fail lg e 3 0 w (by omega)
      (fun i hi => hfail i (by omega))
    refine ⟨error, hlast, by rw [heq], by rw [heq], ?_, by rw [heq]⟩
    rw [heq]
    simp [Logger.retrySchedule, hdelay, List.range_succ]
  · obtain ⟨m, docs, ds, c, h1, h2, heq⟩ := saveToFirestore_world lg e lg.maxRetries 0 w rfl
    exact ⟨m, h1, by omega, by rw [heq]⟩

/-- C7 (witness): the constructed logger against the unreachable sink. -/
theorem saveToFirestore_retry_schedule_witness :
    (Logger.new unreachableSinkWorld).maxRetries = 3 ∧
    (Logger.new unreachableSinkWorld).retryDelay = 1000 ∧
    ((Logger.new unreachableSinkWorld).allAttemptsFail sampleEntry unreachableSinkWorld →
      ∃ error, unreachableSinkWorld.sinkRejects (unreachableSinkWorld.addDocCalls.length + 3)
          sampleEntry.doc = some error ∧
        ((Logger.new unreachableSinkWorld).saveToFirestore sampleEntry 0
          unreachableSinkWorld).1 = .error error ∧
        ((Logger.new unreachableSinkWorld).saveToFirestore sampleEntry 0
          unreachableSinkWorld).2.addDocCalls =
          unreachableSinkWorld.addDocCalls ++ List.replicate 4 sampleEntry.addDocCall ∧
        ((Logger.new unreachableSinkWorld).saveToFirestore sampleEntry 0
          unreachableSinkWorld).2.delays = unreachableSinkWorld.delays ++ [1000, 2000, 3000] ∧
        ((Logger.new unreachableSinkWorld).saveToFirestore sampleEntry 0
          unreachableSinkWorld).2.documents = unreachableSinkWorld.documents) ∧
    ∃ m, 1 ≤ m ∧ m ≤ 4 ∧
      ((Logger.new unreachableSinkWorld).saveToFirestore sampleEntry 0
        unreachableSinkWorld).2.addDocCalls =
        unreachableSinkWorld.addDocCalls ++ List.replicate m sampleEntry.addDocCall :=
  ⟨rfl, rfl,
    saveToFirestore_retry_schedule (Logger.new unreachableSinkWorld) sampleEntry
      unreachableSinkWorld rfl rfl⟩

/-- C8 (counterexample): a flush of the one-entry queue against a sink that
rejects everything makes four delivery attempts for that entry and awaits
1000, 2000 and 3000 ms between them before re-appending it: not one attempt
without retry or delay. -/
theorem flush_retries_against_unreachable_sink :
    (Logger.flushOfflineQueue
      { Logger.new unreachableSinkWorld with offlineQueue := [sampleEntry] }
      unreachableSinkWorld).2.addDocCalls = List.replicate 4 sampleEntry.addDocCall ∧
    (Logger.flushOfflineQueue
      { Logger.new unreachableSinkWorld with offlineQueue := [sampleEntry] }
      unreachableSinkWorld).2.delays = [1000, 2000, 3000] ∧
    (Logger.flushOfflineQueue
      { Logger.new unreachableSinkWorld with offlineQueue := [sampleEntry] }
      unreachableSinkWorld).1.offlineQueue = [sampleEntry] := by
  obtain ⟨h1, h2, _, h4, _, _⟩ := flushOfflineQueue_spec (fun _ => true)
    { Logger.new unreachableSinkWorld with offlineQueue := [sampleEntry] }
    unreachableSinkWorld (fun _ _ => rfl)
  refine ⟨?_, ?_, ?_⟩
  · rw [h2]; rfl
  · rw [h4]; rfl
  · rw [h1]; rfl

/-- C8 (amended): the retry loop lives in `saveToFirestore`, which the flush
calls as `logActivity` does: with the constructor's settings, during a flush an
entry whose delivery keeps failing gets 4 attempts, with delays of 1000, 2000
and 3000 ms, before it is re-appended, while an entry accepted at once gets one
attempt and no delay. -/
theorem flush_retries_failing_entries (fails : LogEntry → Bool) (lg : Logger) (w : World)
    (hmax : lg.maxRetries = 3) (hdelay : lg.retryDelay = 1000)
    (hsink : ∀ n e, (w.sinkRejects n e.doc).isSome = fails e) :
    (lg.flushOfflineQueue w).2.addDocCalls = w.addDocCalls ++
      (lg.offlineQueue.map (fun e =>
        List.replicate (if fails e then 4 else 1) e.addDocCall)).flatten ∧
    (lg.flushOfflineQueue w).2.delays = w.delays ++
      (lg.offlineQueue.map (fun e =>
        if fails e then [1000, 2000, 3000] else [])).flatten ∧
    (lg.flushOfflineQueue w).1.offlineQueue = lg.offlineQueue.filter fails := by
  obtain ⟨h1, h2, _, h4, _, _⟩ := flushOfflineQueue_spec fails lg w hsink
  have hs : lg.retrySchedule 0 lg.maxRetries = [1000, 2000, 3000] := by
    simp [Logger.retrySchedule, hmax, hdelay, List.range_succ]
  refine ⟨?_, ?_, by rw [h1]⟩
  · rw [h2, hmax]
  · rw [h4, hs]

/-- C8 (witness): the queue `[e1, e2]` flushed into a sink that fails only
for `e2`. -/
theorem flush_retries_failing_entries_witness :
    (Logger.new rejectsPostsWorld).maxRetries = 3 ∧
    (Logger.new rejectsPostsWorld).retryDelay = 1000 ∧
    (∀ (n : Nat) (e : LogEntry), (rejectsPostsWorld.sinkRejects n e.doc).isSome =
      decide (e.action = "post_created")) ∧
    (Logger.flushOfflineQueue
      { Logger.new rejectsPostsWorld with offlineQueue := [sampleEntry, otherEntry] }
      rejectsPostsWorld).2.addDocCalls = rejectsPostsWorld.addDocCalls ++
      ([sampleEntry, otherEntry].map (fun e =>
        List.replicate (if decide (e.action = "post_created") then 4 else 1)
          e.addDocCall)).flatten ∧
    (Logger.flushOfflineQueue
      { Logger.new rejectsPostsWorld with offlineQueue := [sampleEntry, otherEntry] }
      rejectsPostsWorld).2.delays = rejectsPostsWorld.delays ++
      ([sampleEntry, otherEntry].map (fun e =>
        if decide (e.action = "post_created") then [1000, 2000, 3000] else [])).flatten ∧
    (Logger.flushOfflineQueue
      { Logger.new rejectsPostsWorld with offlineQueue := [sampleEntry, otherEntry] }
      rejectsPostsWorld).1.offlineQueue =
      [sampleEntry, otherEntry].filter (fun e => decide (e.action = "post_created")) :=
  ⟨rfl, rfl,
    fun (n : Nat) (e : LogEntry) => by
      by_cases h : e.action = "post_created" <;> simp [rejectsPostsWorld, LogEntry.doc, h],
    flush_retries_failing_entries (fun e => decide (e.action = "post_created"))
      { Logger.new rejectsPostsWorld with offlineQueue := [sampleEntry, otherEntry] }
      rejectsPostsWorld rfl rfl
      (fun (n : Nat) (e : LogEntry) => by
        by_cases h : e.action = "post_created" <;> simp [rejectsPostsWorld, LogEntry.doc, h])⟩

/-- C9 (the code at the failing input class): when `JSON.stringify` throws on
the data, `logActivity` throws that error out of the console-trace step: the
logger is unchanged (nothing is queued), the sink is not called, and neither
local storage nor the console is written. -/
theorem logActivity_throws_on_unserialisable_data (lg : Logger) (a : String)
    (d : JsValue) (l : Option String) (w : World) (hd : d.serialisable = false) :
    ∃ error, JSON.stringify d = .error error ∧
      (lg.logActivity a d l w).1 = .error error ∧
      (lg.logActivity a d l w).2.1 = lg ∧
      (lg.logActivity a d l w).2.2.addDocCalls = w.addDocCalls ∧
      (lg.logActivity a d l w).2.2.localStorage = w.localStorage ∧
      (lg.logActivity a d l w).2.2.console = w.console := by
  obtain ⟨error, herr, heq⟩ := logActivity_unserialisable lg a d l w hd
  obtain ⟨s, n, hb⟩ := buildEntry_world a d l w
  have hdata : (Logger.entryOf a d l w).data = d := by
    cases d with
    | undefined => exact absurd hd (by decide)
    | _ => rfl
  rw [hdata] at herr
  rw [heq, hb]
  exact ⟨error, herr, rfl, rfl, rfl, rfl, rfl⟩

/-- C9 (witness): a circular object as data, online, in the sample browser. -/
theorem logActivity_throws_on_unserialisable_data_witness :
    JsValue.circular.serialisable = false ∧
    ∃ error, JSON.stringify JsValue.circular = .error error ∧
      ((Logger.new sampleWorld).logActivity "profile_updated" .circular none sampleWorld).1 =
        .error error ∧
      ((Logger.new sampleWorld).logActivity "profile_updated" .circular none sampleWorld).2.1 =
        Logger.new sampleWorld ∧
      ((Logger.new sampleWorld).logActivity "profile_updated" .circular none
        sampleWorld).2.2.addDocCalls = sampleWorld.addDocCalls ∧
      ((Logger.new sampleWorld).logActivity "profile_updated" .circular none
        sampleWorld).2.2.localStorage = sampleWorld.localStorage ∧
      ((Logger.new sampleWorld).logActivity "profile_updated" .circular none
        sampleWorld).2.2.console = sampleWorld.console :=
  ⟨rfl,
    logActivity_throws_on_unserialisable_data (Logger.new sampleWorld) "profile_updated"
      .circular none sampleWorld rfl⟩

theorem serializeElems_append_error : ∀ (xs ys : List JsValue) (xs' : List Json)
    (error : JsError), JsValue.serializeElems xs = .ok xs' →
    JsValue.serializeElems ys = .error error →
    JsValue.serializeElems (xs ++ ys) = .error error
  | [], ys, _, error, _, hy => by simpa using hy
  | x :: xs, ys, zs, error, hx, hy => by
    obtain ⟨y, xs', hx0, hxs, rfl⟩ := serializeElems_cons_ok hx
    have ih := serializeElems_append_error xs ys xs' error hxs hy
    have hcons : JsValue.serializeElems (x :: (xs ++ ys)) = .error error := by
      simp only [JsValue.serializeElems, hx0, ih]
    exact hcons

theorem LogEntry.serialize_entry_error (e : LogEntry) (error : JsError)
    (h : e.data.serialize = .error error) : e.toJs.serialize = .error error := by
  simp [LogEntry.toJs, JsValue.serialize, JsValue.serializeFields, h]

theorem tryBlock_stringify_throws (e : LogEntry) (ls : LocalStorage) (L : List Json)
    (hg : ls.getItemThrows = none) (hm : ls.mirror = some L)
    (hs : e.data.serialisable = false) :
    ∃ error, Logger.saveToLocalStorage.tryBlock e ls = .error error := by
  have hex : ∃ error, e.data.serialize = .error error := by
    unfold JsValue.serialisable JSON.stringify at hs
    cases h : e.data.serialize with
    | error err => exact ⟨err, rfl⟩
    | ok t => simp [h] at hs
  obtain ⟨error, herr⟩ := hex
  have hlast : JsValue.serializeElems [e.toJs] = .error error := by
    simp only [JsValue.serializeElems, LogEntry.serialize_entry_error e error herr]
  have hk : (Json.toJsList L ++ [e.toJs]).length - 100 ≤ (Json.toJsList L).length := by
    simp only [List.length_append, List.length_singleton]
    omega
  have hdrop : JsValue.serializeElems
      (List.drop ((Json.toJsList L ++ [e.toJs]).length - 100) (Json.toJsList L ++ [e.toJs])) =
      .error error := by
    rw [List.drop_append_of_le_length hk]
    exact serializeElems_append_error _ _ _ error
      (serializeElems_drop _ _ _ (serializeElems_toJsList L)) hlast
  refine ⟨error, ?_⟩
  simp only [Logger.saveToLocalStorage.tryBlock, LocalStorage.getItem, hg,
    orEmptyArray_of_mirror hm, JSON.parse, splice_eq_drop, JSON.stringify,
    JsValue.serialize, hdrop]

/-- Each of the four steps that can throw makes the `try` block fail. -/
theorem tryBlock_error_of_stepThrows (e : LogEntry) (ls : LocalStorage)
    (h : ls.stepThrows e) :
    ∃ error, Logger.saveToLocalStorage.tryBlock e ls = .error error := by
  cases hg : ls.getItemThrows with
  | some err =>
    exact ⟨err, by simp only [Logger.saveToLocalStorage.tryBlock, LocalStorage.getItem, hg]⟩
  | none =>
    rcases h with h | h | ⟨L, hm, h | h⟩
    · simp [hg] at h
    · exact ⟨.parseError "Unexpected token", by
        simp only [Logger.saveToLocalStorage.tryBlock, LocalStorage.getItem, hg, h,
          orEmptyArray, JSON.parse]⟩
    · exact tryBlock_stringify_throws e ls L hg hm h
    · cases hs : e.data.serialisable with
      | false => exact tryBlock_stringify_throws e ls L hg hm hs
      | true =>
        obtain ⟨err, herr⟩ := Option.isSome_iff_exists.mp h
        exact ⟨err, by
          rw [tryBlock_reaches_setItem e ls L hg hm hs]
          simp only [LocalStorage.setItem, herr]⟩

/-- C10: a local-storage step that throws inside `saveToLocalStorage` (`getItem`,
`JSON.parse`, `JSON.stringify` or `setItem`) is caught: `saveToLocalStorage`
returns, having written one console error and nothing else; and a `logActivity`
call that takes the offline path or the delivery-failure path returns without
throwing with its entry appended once to the offline queue, whatever local
storage does, the stored value being unchanged when a step threw. -/
theorem localStorage_failure_absorbed (lg : Logger) (a : String) (d : JsValue)
    (l : Option String) (w : World) (hd : d.serialisable = true)
    (hpath : lg.offline = true ∨ lg.allAttemptsFail (Logger.entryOf a d l w) w) :
    (∀ (e : LogEntry) (w1 : World), w1.localStorage.stepThrows e →
      ∃ error, Logger.saveToLocalStorage e w1 =
        w1.consoleCall .error [.text "Failed to save log to localStorage:", .caught error]) ∧
    (lg.logActivity a d l w).1 = .ok () ∧
    (lg.logActivity a d l w).2.1 =
      { lg with offlineQueue := lg.offlineQueue ++ [Logger.entryOf a d l w] } ∧
    (w.localStorage.stepThrows (Logger.entryOf a d l w) →
      (lg.logActivity a d l w).2.2.localStorage = w.localStorage) := by
  have hsave : ∀ (e : LogEntry) (w1 : World), w1.localStorage.stepThrows e →
      ∃ error, Logger.saveToLocalStorage e w1 =
        w1.consoleCall .error [.text "Failed to save log to localStorage:", .caught error] := by
    intro e w1 h
    obtain ⟨err, herr⟩ := tryBlock_error_of_stepThrows e w1.localStorage h
    exact ⟨err, saveToLocalStorage_of_error e w1 err herr⟩
  refine ⟨hsave, ?_⟩
  rcases Bool.eq_false_or_eq_true lg.offline with hoff | hoff
  · obtain ⟨c, s, n, ht⟩ := tracedWorld_eq a d l w hd
    have hls : (Logger.tracedWorld a d l w).localStorage = w.localStorage := by rw [ht]
    rw [logActivity_offline lg a d l w hoff hd]
    refine ⟨rfl, rfl, ?_⟩
    intro hthrow
    obtain ⟨err, herr⟩ := hsave (Logger.entryOf a d l w) (Logger.tracedWorld a d l w)
      (by rw [hls]; exact hthrow)
    show (Logger.saveToLocalStorage _ _).localStorage = _
    rw [herr]
    exact hls
  · have hfail : lg.allAttemptsFail (Logger.entryOf a d l w) w := by
      rcases hpath with h | h
      · rw [hoff] at h; exact absurd h (by decide)
      · exact h
    obtain ⟨w3, h3, _, _, _, heq⟩ := logActivity_all_fail lg a d l w hoff hd hfail
    rw [heq]
    refine ⟨rfl, rfl, ?_⟩
    intro hthrow
    obtain ⟨err, herr⟩ := hsave (Logger.entryOf a d l w) w3 (by rw [h3]; exact hthrow)
    show (Logger.saveToLocalStorage _ _).localStorage = _
    rw [herr]
    exact h3

/-- C10 (witness): a call on the delivery-failure path in a browser whose
local-storage quota is exhausted (`setItem` throws). -/
theorem localStorage_failure_absorbed_witness :
    sampleData.serialisable = true ∧
    ((Logger.new quotaWorld).offline = true ∨
      (Logger.new quotaWorld).allAttemptsFail
        (Logger.entryOf "user_login" sampleData none quotaWorld) quotaWorld) ∧
    quotaWorld.localStorage.stepThrows
      (Logger.entryOf "user_login" sampleData none quotaWorld) ∧
    (∀ (e : LogEntry) (w1 : World), w1.localStorage.stepThrows e →
      ∃ error, Logger.saveToLocalStorage e w1 =
        w1.consoleCall .error [.text "Failed to save log to localStorage:", .caught error]) ∧
    ((Logger.new quotaWorld).logActivity "user_login" sampleData none quotaWorld).1 = .ok () ∧
    ((Logger.new quotaWorld).logActivity "user_login" sampleData none quotaWorld).2.1 =
      { Logger.new quotaWorld with
        offlineQueue := (Logger.new quotaWorld).offlineQueue ++
          [Logger.entryOf "user_login" sampleData none quotaWorld] } ∧
    (quotaWorld.localStorage.stepThrows
        (Logger.entryOf "user_login" sampleData none quotaWorld) →
      ((Logger.new quotaWorld).logActivity "user_login" sampleData none
        quotaWorld).2.2.localStorage = quotaWorld.localStorage) :=
  ⟨rfl, Or.inr (fun _ _ => rfl), Or.inr (Or.inr ⟨[], rfl, Or.inr rfl⟩),
    localStorage_failure_absorbed (Logger.new quotaWorld) "user_login" sampleData none
      quotaWorld rfl (Or.inr (fun _ _ => rfl))⟩

/-! ## Lemmas: any sink -/

/-- Whatever the sink does, `saveToFirestore` either returns after an accepted
attempt, the document being stored, or throws after rejected attempts only. -/
theorem saveToFirestore_outcome (lg : Logger) (e : LogEntry) :
    ∀ (n retries : Nat) (w : World), lg.maxRetries - retries = n →
      ∃ (m : Nat) (ds : List Nat) (c : Nat), 1 ≤ m ∧ m ≤ n + 1 ∧
        (lg.saveToFirestore e retries w =
            (.ok (), { w with
              addDocCalls := w.addDocCalls ++ List.replicate m e.addDocCall,
              documents := w.documents ++ [e.doc], delays := ds, clock := c }) ∨
          ∃ error, lg.saveToFirestore e retries w =
            (.error error, { w with
              addDocCalls := w.addDocCalls ++ List.replicate m e.addDocCall,
              delays := ds, clock := c })) := by
  intro n
  induction n with
  | zero =>
    intro retries w hn
    have hlt : ¬ retries < lg.maxRetries := by omega
    rw [saveToFirestore_unfold]
    cases h : w.sinkRejects w.addDocCalls.length e.doc with
    | none => exact ⟨1, w.delays, w.clock, le_refl 1, by omega, Or.inl rfl⟩
    | some err =>
      simp only [hlt, if_false]
      exact ⟨1, w.delays, w.clock, le_refl 1, by omega, Or.inr ⟨err, rfl⟩⟩
  | succ n ih =>
    intro retries w hn
    have hlt : retries < lg.maxRetries := by omega
    rw [saveToFirestore_unfold]
    cases h : w.sinkRejects w.addDocCalls.length e.doc with
    | none => exact ⟨1, w.delays, w.clock, le_refl 1, by omega, Or.inl rfl⟩
    | some err =>
      simp only [hlt, if_true]
      obtain ⟨m, ds, c, h1, h2, hcase⟩ := ih (retries + 1)
        (Logger.delay (lg.retryDelay * (retries + 1))
          { w with addDocCalls := w.addDocCalls ++ [e.addDocCall] }) (by omega)
      refine ⟨m + 1, ds, c, by omega, by omega, ?_⟩
      rcases hcase with hok | ⟨error, herr⟩
      · left
        rw [hok]
        simp [Logger.delay, List.replicate_succ]
      · right
        refine ⟨error, ?_⟩
        rw [herr]
        simp [Logger.delay, List.replicate_succ]

/-- The loop of a flush against any sink: the entries of the snapshot are
handed to the sink in order, each at least once; those whose delivery was
confirmed are stored, the others are appended to the queue; nothing else than
the sink, the queue, the clock and the console changes. -/
theorem flushLoop_general : ∀ (snapshot : List LogEntry) (lg : Logger) (w : World),
    ∃ (failed delivered : List LogEntry) (cs : List (String × ActivityLogDoc))
      (ds : List Nat) (c : Nat) (cons : List ConsoleCall),
      failed.Sublist snapshot ∧ delivered.Sublist snapshot ∧
      (∀ e, e ∈ snapshot → e ∈ failed ∨ e ∈ delivered) ∧
      (∀ x, x ∈ cs → x ∈ snapshot.map LogEntry.addDocCall) ∧
      (∀ e, e ∈ snapshot → e.addDocCall ∈ cs) ∧
      (lg.flushLoop snapshot w).1 = { lg with offlineQueue := lg.offlineQueue ++ failed } ∧
      (lg.flushLoop snapshot w).2 =
        { w with addDocCalls := w.addDocCalls ++ cs,
                 documents := w.documents ++ delivered.map LogEntry.doc,
                 delays := ds, clock := c, console := cons } := by
  intro snapshot
  induction snapshot with
  | nil =>
    intro lg w
    exact ⟨[], [], [], w.delays, w.clock, w.console, List.Sublist.refl _, List.Sublist.refl _,
      by simp, by simp, by simp, by simp [Logger.flushLoop], by simp [Logger.flushLoop]⟩
  | cons e rest ih =>
    intro lg w
    obtain ⟨m, ds, c, hm1, _, hcase⟩ := saveToFirestore_outcome lg e lg.maxRetries 0 w rfl
    have hmem : e.addDocCall ∈ List.replicate m e.addDocCall :=
      List.mem_replicate.mpr ⟨by omega, rfl⟩
    rcases hcase with hok | ⟨error, herr⟩
    · rw [flushLoop_cons_ok lg e rest w _ hok]
      obtain ⟨failed, delivered, cs, ds2, c2, cons, hf, hdl, hall, hcs, hsent, h1, h2⟩ :=
        ih lg { w with
          addDocCalls := w.addDocCalls ++ List.replicate m e.addDocCall,
          documents := w.documents ++ [e.doc], delays := ds, clock := c }
      refine ⟨failed, e :: delivered, List.replicate m e.addDocCall ++ cs, ds2, c2, cons,
        hf.cons e, hdl.cons₂ e, ?_, ?_, ?_, h1, ?_⟩
      · intro x hx
        rcases List.mem_cons.mp hx with rfl | hx
        · exact Or.inr (List.mem_cons_self _ _)
        · rcases hall x hx with h | h
          · exact Or.inl h
          · exact Or.inr (List.mem_cons_of_mem _ h)
      · intro x hx
        rcases List.mem_append.mp hx with hx | hx
        · rw [(List.mem_replicate.mp hx).2]
          simp
        · exact List.mem_cons_of_mem _ (hcs x hx)
      · intro x hx
        rcases List.mem_cons.mp hx with rfl | hx
        · exact List.mem_append_left _ hmem
        · exact List.mem_append_right _ (hsent x hx)
      · rw [h2]; simp
    · rw [flushLoop_cons_error lg e rest w _ error herr]
      obtain ⟨failed, delivered, cs, ds2, c2, cons, hf, hdl, hall, hcs, hsent, h1, h2⟩ :=
        ih { lg with offlineQueue := lg.offlineQueue ++ [e] }
          (World.consoleCall { w with
            addDocCalls := w.addDocCalls ++ List.replicate m e.addDocCall,
            delays := ds, clock := c } .error
            [.text "Failed to flush log entry:", .caught error])
      refine ⟨e :: failed, delivered, List.replicate m e.addDocCall ++ cs, ds2, c2, cons,
        hf.cons₂ e, hdl.cons e, ?_, ?_, ?_, ?_, ?_⟩
      · intro x hx
        rcases List.mem_cons.mp hx with rfl | hx
        · exact Or.inl (List.mem_cons_self _ _)
        · rcases hall x hx with h | h
          · exact Or.inl (List.mem_cons_of_mem _ h)
          · exact Or.inr h
      · intro x hx
        rcases List.mem_append.mp hx with hx | hx
        · rw [(List.mem_replicate.mp hx).2]
          simp
        · exact List.mem_cons_of_mem _ (hcs x hx)
      · intro x hx
        rcases List.mem_cons.mp hx with rfl | hx
        · exact List.mem_append_left _ hmem
        · exact List.mem_append_right _ (hsent x hx)
      · rw [h1]; simp
      · rw [h2]; simp [World.consoleCall]

theorem flushOfflineQueue_eq_flushSnapshot (lg : Logger) (w : World) :
    lg.flushOfflineQueue w =
      match lg.flushSnapshot w with
      | none => (lg, w)
      | some (lg1, queueCopy, w1) => lg1.flushLoop queueCopy w1 := by
  unfold Logger.flushOfflineQueue Logger.flushSnapshot
  split <;> rfl

/-- A whole flush pass against any sink. -/
theorem flushOfflineQueue_general (lg : Logger) (w : World) :
    ∃ (failed delivered : List LogEntry) (cs : List (String × ActivityLogDoc))
      (ds : List Nat) (c : Nat) (cons : List ConsoleCall),
      failed.Sublist lg.offlineQueue ∧ delivered.Sublist lg.offlineQueue ∧
      (∀ e, e ∈ lg.offlineQueue → e ∈ failed ∨ e ∈ delivered) ∧
      (∀ x, x ∈ cs → x ∈ lg.offlineQueue.map LogEntry.addDocCall) ∧
      (∀ e, e ∈ lg.offlineQueue → e.addDocCall ∈ cs) ∧
      (lg.flushOfflineQueue w).1 = { lg with offlineQueue := failed } ∧
      (lg.flushOfflineQueue w).2 =
        { w with addDocCalls := w.addDocCalls ++ cs,
                 documents := w.documents ++ delivered.map LogEntry.doc,
                 delays := ds, clock := c, console := cons } := by
  unfold Logger.flushOfflineQueue
  split
  · rename_i h
    have hq : lg.offlineQueue = [] := List.length_eq_zero.mp h
    refine ⟨[], [], [], w.delays, w.clock, w.console, by simp, by simp, by simp [hq],
      by simp, by simp [hq], ?_, by simp⟩
    cases lg
    simp_all
  · obtain ⟨failed, delivered, cs, ds, c, cons, hf, hdl, hall, hcs, hsent, h1, h2⟩ :=
      flushLoop_general lg.offlineQueue { lg with offlineQueue := [] }
        (w.consoleCall .info [.text ("Flushing " ++ toString lg.offlineQueue.length ++
          " offline log entries")])
    refine ⟨failed, delivered, cs, ds, c, cons, hf, hdl, hall, hcs, hsent, ?_, ?_⟩
    · rw [h1]; simp
    · rw [h2]; simp [World.consoleCall]

/-- One call against any sink: either the logger and local storage are left
alone, or the call returns with its entry appended to the queue and handed to
`saveToLocalStorage` in a world holding the initial local storage. -/
theorem logActivity_cases (lg : Logger) (a : String) (d : JsValue) (l : Option String)
    (w : World) :
    ((lg.logActivity a d l w).2.1 = lg ∧
        (lg.logActivity a d l w).2.2.localStorage = w.localStorage) ∨
      (d.serialisable = true ∧ (lg.logActivity a d l w).1 = .ok () ∧
        (lg.logActivity a d l w).2.1 =
          { lg with offlineQueue := lg.offlineQueue ++ [Logger.entryOf a d l w] } ∧
        ∃ w3 : World, w3.localStorage = w.localStorage ∧
          (lg.logActivity a d l w).2.2 =
            Logger.saveToLocalStorage (Logger.entryOf a d l w) w3) := by
  cases hd : d.serialisable with
  | false =>
    obtain ⟨err, _, heq⟩ := logActivity_unserialisable lg a d l w hd
    obtain ⟨s, n, hb⟩ := buildEntry_world a d l w
    left
    rw [heq, hb]
    exact ⟨rfl, rfl⟩
  | true =>
    obtain ⟨c, s, n, hw⟩ := tracedWorld_eq a d l w hd
    rcases Bool.eq_false_or_eq_true lg.offline with hoff | hoff
    · right
      rw [logActivity_offline lg a d l w hoff hd]
      exact ⟨rfl, rfl, rfl, Logger.tracedWorld a d l w, by rw [hw], rfl⟩
    · obtain ⟨m, ds, c', _, _, hcase⟩ := saveToFirestore_outcome lg (Logger.entryOf a d l w)
        lg.maxRetries 0 (Logger.tracedWorld a d l w) rfl
      rcases hcase with hok | ⟨error, herr⟩
      · left
        rw [logActivity_delivered lg a d l w _ hoff hd hok, hw]
        exact ⟨rfl, rfl⟩
      · right
        rw [logActivity_undelivered lg a d l w _ error hoff hd herr]
        refine ⟨rfl, rfl, rfl, _, ?_, rfl⟩
        simp [World.consoleCall, hw]

theorem saveToLocalStorage_world (e : LogEntry) (w : World) :
    ∃ ls cons, Logger.saveToLocalStorage e w =
      { w with localStorage := ls, console := cons } := by
  unfold Logger.saveToLocalStorage
  split
  · exact ⟨_, w.console, rfl⟩
  · exact ⟨w.localStorage, _, rfl⟩

/-- One call made while offline, whatever local storage does. -/
theorem logActivity_offline_world (lg : Logger) (a : String) (d : JsValue)
    (l : Option String) (w : World) (hoff : lg.offline = true) :
    (lg.logActivity a d l w).2.1 =
      { lg with offlineQueue := lg.offlineQueue ++
          (if d.serialisable then [Logger.entryOf a d l w] else []) } ∧
    ∃ ls cons s n, (lg.logActivity a d l w).2.2 =
      { w with localStorage := ls, console := cons, sessionItem := s, randomCalls := n } := by
  cases hd : d.serialisable with
  | false =>
    obtain ⟨err, _, heq⟩ := logActivity_unserialisable lg a d l w hd
    obtain ⟨s, n, hb⟩ := buildEntry_world a d l w
    rw [heq, hb]
    exact ⟨by simp, w.localStorage, w.console, s, n, rfl⟩
  | true =>
    obtain ⟨c, s, n, ht⟩ := tracedWorld_eq a d l w hd
    obtain ⟨ls, cons, hs⟩ := saveToLocalStorage_world (Logger.entryOf a d l w)
      (Logger.tracedWorld a d l w)
    rw [logActivity_offline lg a d l w hoff hd, hs, ht]
    exact ⟨by simp, ls, cons, s, n, rfl⟩

/-- A sequence of calls made while offline, whatever local storage does: the
sink is not touched and the queue grows by the recorded entries. -/
theorem offline_calls_any_storage : ∀ (calls : List Call) (lg : Logger) (w : World),
    lg.offline = true →
    (lg.logActivities calls w).1 =
      { lg with offlineQueue := lg.offlineQueue ++ lg.recordedEntries calls w } ∧
    (lg.logActivities calls w).2.addDocCalls = w.addDocCalls ∧
    (lg.logActivities calls w).2.documents = w.documents ∧
    (lg.logActivities calls w).2.sinkRejects = w.sinkRejects
  | [], lg, w, _ => by
    simp [Logger.logActivities, Logger.recordedEntries, Logger.builtEntries]
  | c :: cs, lg, w, hoff => by
    obtain ⟨h1, ls, cons, s, n, h2⟩ := logActivity_offline_world lg c.action c.data c.level w hoff
    have hoff1 : (lg.logActivity c.action c.data c.level w).2.1.offline = true := by
      rw [h1]; exact hoff
    obtain ⟨k1, k2, k3, k4⟩ := offline_calls_any_storage cs _
      (lg.logActivity c.action c.data c.level w).2.2 hoff1
    have hes : (Logger.entryOf c.action c.data c.level w).data.serialisable =
        c.data.serialisable := buildEntry_serialisable _ _ _ _
    have hrec : lg.recordedEntries (c :: cs) w =
        (if c.data.serialisable then [Logger.entryOf c.action c.data c.level w] else []) ++
          (lg.logActivity c.action c.data c.level w).2.1.recordedEntries cs
            (lg.logActivity c.action c.data c.level w).2.2 := by
      simp only [Logger.recordedEntries, Logger.builtEntries, List.filter_cons]
      change (if (Logger.entryOf c.action c.data c.level w).data.serialisable = true
        then _ else _) = _
      rw [hes]
      cases c.data.serialisable <;> simp [Logger.entryOf]
    simp only [Logger.logActivities]
    refine ⟨?_, by rw [k2, h2], by rw [k3, h2], by rw [k4, h2]⟩
    have e1 : (lg.logActivity c.action c.data c.level w).2.1.logLevel = lg.logLevel := by
      rw [h1]
    have e2 : (lg.logActivity c.action c.data c.level w).2.1.maxRetries = lg.maxRetries := by
      rw [h1]
    have e3 : (lg.logActivity c.action c.data c.level w).2.1.retryDelay = lg.retryDelay := by
      rw [h1]
    have e4 : (lg.logActivity c.action c.data c.level w).2.1.offline = lg.offline := by
      rw [h1]
    have e5 : (lg.logActivity c.action c.data c.level w).2.1.offlineQueue =
        lg.offlineQueue ++
          (if c.data.serialisable then [Logger.entryOf c.action c.data c.level w] else []) := by
      rw [h1]
    rw [k1, hrec, e1, e2, e3, e4, e5, List.append_assoc]

theorem recordedEntries_length_of_serialisable : ∀ (calls : List Call) (lg : Logger)
    (w : World), (∀ c, c ∈ calls → c.data.serialisable = true) →
    (lg.recordedEntries calls w).length = calls.length
  | [], _, _, _ => rfl
  | c :: cs, lg, w, h => by
    have hes : (Logger.entryOf c.action c.data c.level w).data.serialisable = true := by
      rw [buildEntry_serialisable]; exact h c (List.mem_cons_self _ _)
    have ih := recordedEntries_length_of_serialisable cs
      (lg.logActivity c.action c.data c.level w).2.1
      (lg.logActivity c.action c.data c.level w).2.2
      (fun x hx => h x (List.mem_cons_of_mem _ hx))
    simp only [Logger.recordedEntries] at ih ⊢
    simp only [Logger.builtEntries, List.filter_cons]
    change List.length (if (Logger.entryOf c.action c.data c.level w).data.serialisable = true
      then _ else _) = _
    rw [hes]
    simp [ih]

/-- C11: a call made online whose first delivery attempt is accepted returns
without throwing after exactly one `addDoc` call, for its entry, which the
sink stores; the logger (its offline queue in particular) is unchanged, no
delay is awaited and local storage is not written. -/
theorem logActivity_online_success (lg : Logger) (a : String) (d : JsValue)
    (l : Option String) (w : World) (hon : lg.offline = false)
    (hd : d.serialisable = true)
    (hok : w.sinkRejects w.addDocCalls.length (Logger.entryOf a d l w).doc = none) :
    (lg.logActivity a d l w).1 = .ok () ∧
    (lg.logActivity a d l w).2.2.addDocCalls =
      w.addDocCalls ++ [(Logger.entryOf a d l w).addDocCall] ∧
    (lg.logActivity a d l w).2.2.documents = w.documents ++ [(Logger.entryOf a d l w).doc] ∧
    (lg.logActivity a d l w).2.1 = lg ∧
    (lg.logActivity a d l w).2.2.delays = w.delays ∧
    (lg.logActivity a d l w).2.2.localStorage = w.localStorage := by
  obtain ⟨c, s, n, ht⟩ := tracedWorld_eq a d l w hd
  have hsave := saveToFirestore_fail_then_ok lg (Logger.entryOf a d l w) 0 0
    (Logger.tracedWorld a d l w) (Nat.zero_le _)
    (fun i hi => absurd hi (Nat.not_lt_zero i)) (by rw [ht]; exact hok)
  rw [logActivity_delivered lg a d l w _ hon hd hsave, ht]
  refine ⟨rfl, rfl, rfl, rfl, ?_, rfl⟩
  simp [Logger.retrySchedule]

/-- C11 (witness): `logActivity('user_login', {email: 'a@b.com'})` made online
with a sink that accepts the document. -/
theorem logActivity_online_success_witness :
    (Logger.new sampleWorld).offline = false ∧
    sampleData.serialisable = true ∧
    sampleWorld.sinkRejects sampleWorld.addDocCalls.length
      (Logger.entryOf "user_login" sampleData none sampleWorld).doc = none ∧
    ((Logger.new sampleWorld).logActivity "user_login" sampleData none sampleWorld).1 =
      .ok () ∧
    ((Logger.new sampleWorld).logActivity "user_login" sampleData none
      sampleWorld).2.2.addDocCalls =
      sampleWorld.addDocCalls ++
        [(Logger.entryOf "user_login" sampleData none sampleWorld).addDocCall] ∧
    ((Logger.new sampleWorld).logActivity "user_login" sampleData none
      sampleWorld).2.2.documents =
      sampleWorld.documents ++ [(Logger.entryOf "user_login" sampleData none sampleWorld).doc] ∧
    ((Logger.new sampleWorld).logActivity "user_login" sampleData none sampleWorld).2.1 =
      Logger.new sampleWorld ∧
    ((Logger.new sampleWorld).logActivity "user_login" sampleData none
      sampleWorld).2.2.delays = sampleWorld.delays ∧
    ((Logger.new sampleWorld).logActivity "user_login" sampleData none
      sampleWorld).2.2.localStorage = sampleWorld.localStorage :=
  ⟨rfl, rfl, rfl,
    logActivity_online_success (Logger.new sampleWorld) "user_login" sampleData none
      sampleWorld rfl rfl rfl⟩

theorem flushOfflineQueue_of_empty (lg : Logger) (w : World) (h : lg.offlineQueue = []) :
    lg.flushOfflineQueue w = (lg, w) := by
  simp [Logger.flushOfflineQueue, h]

/-- C12: calls made while offline from an empty queue, then an `online` event
with a sink that always succeeds: the sink receives exactly one `addDoc` call
per recorded entry, in call order, and stores each; the queue is then empty and
a further `online` event makes no `addDoc` call.  The calls are as many as the
`logActivity` calls when the data of every call can be serialised (a call whose
data cannot be serialised throws and records no entry). -/
theorem offline_period_then_online (lg : Logger) (calls : List Call) (w : World)
    (hoff : lg.offline = true) (hq : lg.offlineQueue = [])
    (hsink : ∀ n payload, w.sinkRejects n payload = none) :
    (Logger.onOnline (lg.logActivities calls w).1 (lg.logActivities calls w).2).2.addDocCalls =
      w.addDocCalls ++ (lg.recordedEntries calls w).map LogEntry.addDocCall ∧
    (Logger.onOnline (lg.logActivities calls w).1 (lg.logActivities calls w).2).2.documents =
      w.documents ++ (lg.recordedEntries calls w).map LogEntry.doc ∧
    (Logger.onOnline (lg.logActivities calls w).1
      (lg.logActivities calls w).2).1.offlineQueue = [] ∧
    (Logger.onOnline
      (Logger.onOnline (lg.logActivities calls w).1 (lg.logActivities calls w).2).1
      (Logger.onOnline (lg.logActivities calls w).1
        (lg.logActivities calls w).2).2).2.addDocCalls =
      (Logger.onOnline (lg.logActivities calls w).1
        (lg.logActivities calls w).2).2.addDocCalls ∧
    ((∀ c, c ∈ calls → c.data.serialisable = true) →
      (lg.recordedEntries calls w).length = calls.length) := by
  obtain ⟨k1, k2, k3, k4⟩ := offline_calls_any_storage calls lg w hoff
  have hqueue : (lg.logActivities calls w).1.offlineQueue = lg.recordedEntries calls w := by
    rw [k1]; simp [hq]
  obtain ⟨h1, h2, h3, _, _, _⟩ := flushOfflineQueue_spec (fun _ => false)
    { (lg.logActivities calls w).1 with offline := false } (lg.logActivities calls w).2
    (by intro n e; rw [k4]; simp [hsink])
  have hempty : (Logger.onOnline (lg.logActivities calls w).1
      (lg.logActivities calls w).2).1.offlineQueue = [] := by
    unfold Logger.onOnline
    rw [h1]; simp
  refine ⟨?_, ?_, hempty, ?_, recordedEntries_length_of_serialisable calls lg w⟩
  · unfold Logger.onOnline
    rw [h2, k2]
    simp only [Bool.false_eq_true, if_false]
    rw [flatten_map_replicate_one, hqueue]
  · unfold Logger.onOnline
    rw [h3, k3]
    simp [hqueue]
  · have : Logger.onOnline
        (Logger.onOnline (lg.logActivities calls w).1 (lg.logActivities calls w).2).1
        (Logger.onOnline (lg.logActivities calls w).1 (lg.logActivities calls w).2).2 =
        ({ (Logger.onOnline (lg.logActivities calls w).1 (lg.logActivities calls w).2).1 with
            offline := false },
          (Logger.onOnline (lg.logActivities calls w).1 (lg.logActivities calls w).2).2) := by
      conv_lhs => unfold Logger.onOnline
      exact flushOfflineQueue_of_empty _ _ hempty
    rw [this]

/-- C12 (witness, at the failing input): two calls made offline, the first with
a circular object as data; one entry is recorded and, after the `online`
event, the sink has received one `addDoc` call for two `logActivity` calls. -/
theorem offline_period_then_online_witness :
    (Logger.onOffline (Logger.new sampleWorld)).offline = true ∧
    (Logger.onOffline (Logger.new sampleWorld)).offlineQueue = [] ∧
    (∀ n payload, sampleWorld.sinkRejects n payload = none) ∧
    callsWithCircularData.length = 2 ∧
    (Logger.onOffline (Logger.new sampleWorld)).recordedEntries callsWithCircularData
      sampleWorld = [otherEntry] ∧
    (Logger.onOnline
      ((Logger.onOffline (Logger.new sampleWorld)).logActivities callsWithCircularData
        sampleWorld).1
      ((Logger.onOffline (Logger.new sampleWorld)).logActivities callsWithCircularData
        sampleWorld).2).2.addDocCalls =
      sampleWorld.addDocCalls ++
        ((Logger.onOffline (Logger.new sampleWorld)).recordedEntries callsWithCircularData
          sampleWorld).map LogEntry.addDocCall :=
  ⟨rfl, rfl, fun _ _ => rfl, rfl, rfl,
    (offline_period_then_online (Logger.onOffline (Logger.new sampleWorld))
      callsWithCircularData sampleWorld rfl rfl (fun _ _ => rfl)).1⟩

/-! ## Lemmas: reachable states -/

theorem buildEntry_world_of_session (a : String) (d : JsValue) (l : Option String)
    (w : World) (h : falsy w.sessionItem = false) : (Logger.buildEntry a d l w).2 = w := by
  show (Logger.getSessionId w).2 = w
  simp [Logger.getSessionId, h]

/-- One call made while offline in a session whose identifier is stored:
only local storage and the console change. -/
theorem logActivity_offline_session (lg : Logger) (a : String) (d : JsValue)
    (l : Option String) (w : World) (hoff : lg.offline = true)
    (hsess : falsy w.sessionItem = false) :
    ∃ ls cons, (lg.logActivity a d l w).2.2 =
      { w with localStorage := ls, console := cons } := by
  have hb := buildEntry_world_of_session a d l w hsess
  cases hd : d.serialisable with
  | false =>
    obtain ⟨err, _, heq⟩ := logActivity_unserialisable lg a d l w hd
    rw [heq, hb]
    exact ⟨w.localStorage, w.console, rfl⟩
  | true =>
    have hs : (Logger.buildEntry a d l w).1.data.serialisable = true := by
      rw [← hd]; exact buildEntry_serialisable a d l w
    obtain ⟨c, hc⟩ := logToConsole_ok (Logger.buildEntry a d l w).1
      (Logger.buildEntry a d l w).2 hs
    have ht : Logger.tracedWorld a d l w = { w with console := w.console ++ [c] } := by
      unfold Logger.tracedWorld
      rw [hc, hb]
    obtain ⟨ls, cons, hsave⟩ := saveToLocalStorage_world (Logger.entryOf a d l w)
      (Logger.tracedWorld a d l w)
    rw [logActivity_offline lg a d l w hoff hd, hsave, ht]
    exact ⟨ls, cons, rfl⟩

theorem entryOf_frame (a : String) (d : JsValue) (l : Option String) (w : World)
    (ls : LocalStorage) (cons : List ConsoleCall) :
    Logger.entryOf a d l { w with localStorage := ls, console := cons } =
      Logger.entryOf a d l w := by
  unfold Logger.entryOf Logger.buildEntry Logger.getSessionId Logger.getCurrentUserId
  by_cases h : falsy w.sessionItem = true <;> simp [h]

/-- The entries of calls made while offline in a session whose identifier is
stored all capture the same context. -/
theorem builtEntries_offline_session : ∀ (calls : List Call) (lg : Logger) (w : World),
    lg.offline = true → falsy w.sessionItem = false →
    lg.builtEntries calls w = calls.map (fun c => Logger.entryOf c.action c.data c.level w)
  | [], _, _, _, _ => rfl
  | c :: cs, lg, w, hoff, hsess => by
    obtain ⟨h1, _⟩ := logActivity_offline_world lg c.action c.data c.level w hoff
    obtain ⟨ls, cons, h2⟩ := logActivity_offline_session lg c.action c.data c.level w hoff hsess
    have hoff1 : (lg.logActivity c.action c.data c.level w).2.1.offline = true := by
      rw [h1]; exact hoff
    have ih := builtEntries_offline_session cs (lg.logActivity c.action c.data c.level w).2.1
      (lg.logActivity c.action c.data c.level w).2.2 hoff1 (by rw [h2]; exact hsess)
    simp only [Logger.builtEntries, List.map_cons, ih]
    rw [h2]
    simp only [entryOf_frame]
    rfl

theorem run_logs : ∀ (calls : List Call) (lg : Logger) (w : World),
    lg.run w (calls.map Event.log) = lg.logActivities calls w
  | [], _, _ => rfl
  | c :: cs, lg, w => by
    simp only [List.map_cons, Logger.run, Logger.step, Logger.logActivities]
    exact run_logs cs _ _

theorem run_append : ∀ (evs evs' : List Event) (lg : Logger) (w : World),
    lg.run w (evs ++ evs') = Logger.run (lg.run w evs).1 (lg.run w evs).2 evs'
  | [], _, _, _ => rfl
  | ev :: evs, evs', lg, w => by
    simp only [List.cons_append, Logger.run]
    exact run_append evs evs' _ _

/-- The invariant of the reachable states: local storage works, the mirror is
the last 100 of the entries `H` mirrored so far, and every queued entry is one
of them. -/
theorem step_durable (lg : Logger) (w : World) (H : List LogEntry) (ev : Event)
    (hw : w.localStorage.working)
    (hm : w.localStorage.mirror = some (lastEntries 100 (H.map LogEntry.json)))
    (hq : ∀ e, e ∈ lg.offlineQueue → e ∈ H) :
    ∃ H' : List LogEntry, (lg.step w ev).2.localStorage.working ∧
      (lg.step w ev).2.localStorage.mirror = some (lastEntries 100 (H'.map LogEntry.json)) ∧
      (∀ e, e ∈ (lg.step w ev).1.offlineQueue → e ∈ H') ∧
      H'.length ≤ H.length + countLogs [ev] := by
  have hflush : ∀ lg0 : Logger, lg0.offlineQueue = lg.offlineQueue →
      ∃ H' : List LogEntry, (lg0.flushOfflineQueue w).2.localStorage.working ∧
        (lg0.flushOfflineQueue w).2.localStorage.mirror =
          some (lastEntries 100 (H'.map LogEntry.json)) ∧
        (∀ e, e ∈ (lg0.flushOfflineQueue w).1.offlineQueue → e ∈ H') ∧
        H'.length ≤ H.length := by
    intro lg0 h0
    obtain ⟨failed, delivered, cs, ds, c, cons, hf, _, _, _, _, h1, h2⟩ :=
      flushOfflineQueue_general lg0 w
    refine ⟨H, by rw [h2]; exact hw, by rw [h2]; exact hm, ?_, le_refl _⟩
    intro e he
    rw [h1] at he
    exact hq e (by rw [← h0]; exact hf.subset he)
  cases ev with
  | online =>
    obtain ⟨H', a1, a2, a3, a4⟩ := hflush { lg with offline := false } rfl
    exact ⟨H', a1, a2, a3, by simp [countLogs]; exact a4⟩
  | offline => exact ⟨H, hw, hm, hq, by simp [countLogs]⟩
  | flush =>
    obtain ⟨H', a1, a2, a3, a4⟩ := hflush lg rfl
    exact ⟨H', a1, a2, a3, by simp [countLogs]; exact a4⟩
  | log c =>
    simp only [Logger.step, countLogs]
    rcases logActivity_cases lg c.action c.data c.level w with ⟨h1, h2⟩ | ⟨hd, _, h1, w3, h3, h4⟩
    · refine ⟨H, by rw [h2]; exact hw, by rw [h2]; exact hm, ?_, by omega⟩
      rw [h1]; exact hq
    · have hes : (Logger.entryOf c.action c.data c.level w).data.serialisable = true := by
        rw [buildEntry_serialisable]; exact hd
      have hls := saveToLocalStorage_mirror (Logger.entryOf c.action c.data c.level w) w3 _
        (by rw [h3]; exact hw) (by rw [h3]; exact hm) hes
      refine ⟨H ++ [Logger.entryOf c.action c.data c.level w], ?_, ?_, ?_, by simp⟩
      · rw [h4, hls]
        rw [h3]; exact hw
      · rw [h4, hls]
        rw [mirror_of_logs_json_arr _ _ rfl, lastEntries_append_lastEntries]
        simp
      · rw [h1]
        intro e he
        rcases List.mem_append.mp he with he | he
        · exact List.mem_append_left _ (hq e he)
        · exact List.mem_append_right _ he

theorem countLogs_cons (ev : Event) (evs : List Event) :
    countLogs (ev :: evs) = countLogs [ev] + countLogs evs := by
  cases ev <;> simp [countLogs]
  omega

theorem run_durable : ∀ (evs : List Event) (lg : Logger) (w : World) (H : List LogEntry),
    w.localStorage.working →
    w.localStorage.mirror = some (lastEntries 100 (H.map LogEntry.json)) →
    (∀ e, e ∈ lg.offlineQueue → e ∈ H) →
    ∃ H' : List LogEntry, (lg.run w evs).2.localStorage.working ∧
      (lg.run w evs).2.localStorage.mirror = some (lastEntries 100 (H'.map LogEntry.json)) ∧
      (∀ e, e ∈ (lg.run w evs).1.offlineQueue → e ∈ H') ∧
      H'.length ≤ H.length + countLogs evs
  | [], lg, w, H, hw, hm, hq => ⟨H, hw, hm, hq, by simp [countLogs]⟩
  | ev :: evs, lg, w, H, hw, hm, hq => by
    obtain ⟨H1, a1, a2, a3, a4⟩ := step_durable lg w H ev hw hm hq
    obtain ⟨H2, b1, b2, b3, b4⟩ := run_durable evs _ _ H1 a1 a2 a3
    refine ⟨H2, b1, b2, b3, ?_⟩
    rw [countLogs_cons]
    omega

theorem run_offline_logs (lg : Logger) (w : World) (calls : List Call) :
    lg.run w (Event.offline :: calls.map Event.log) = lg.onOffline.logActivities calls w :=
  run_logs calls lg.onOffline w

/-- C13 (counterexample): a fresh logger, an `offline` signal and 101 calls:
the first entry is still in the offline queue, undelivered, but the mirror,
which keeps the last 100 entries, no longer holds it. -/
theorem queue_outgrows_mirror :
    (Logger.new sampleWorld).offlineQueue = [] ∧
    sampleWorld.localStorage.working ∧
    sampleWorld.localStorage.mirror = some [] ∧
    firstEntry ∈ ((Logger.new sampleWorld).run sampleWorld
      (Event.offline :: overflowCalls.map Event.log)).1.offlineQueue ∧
    ∃ M, ((Logger.new sampleWorld).run sampleWorld
      (Event.offline :: overflowCalls.map Event.log)).2.localStorage.mirror = some M ∧
      firstEntry.json ∉ M := by
  have hrun : (Logger.new sampleWorld).run sampleWorld
      (Event.offline :: overflowCalls.map Event.log) =
      (Logger.onOffline (Logger.new sampleWorld)).logActivities overflowCalls sampleWorld :=
    run_offline_logs (Logger.new sampleWorld) sampleWorld overflowCalls
  have hrec : (Logger.onOffline (Logger.new sampleWorld)).recordedEntries overflowCalls
      sampleWorld = firstEntry :: List.replicate 100 laterEntry := by
    unfold Logger.recordedEntries
    rw [builtEntries_offline_session overflowCalls (Logger.onOffline (Logger.new sampleWorld))
      sampleWorld rfl rfl]
    rfl
  obtain ⟨_, h2, h3⟩ := offline_calls_aux overflowCalls
    (Logger.onOffline (Logger.new sampleWorld)) sampleWorld [] rfl ⟨rfl, fun _ => rfl⟩ rfl
  rw [hrec] at h2 h3
  refine ⟨rfl, ⟨rfl, fun _ => rfl⟩, rfl, ?_, List.replicate 100 laterEntry.json, ?_, ?_⟩
  · rw [hrun, h2]
    simp
  · rw [hrun, h3]
    simp only [List.isEmpty_cons, Bool.false_eq_true, if_false, List.nil_append, List.map_cons,
      List.map_replicate, lastEntries, List.length_cons, List.length_replicate]
    rfl
  · intro hmem
    have heq := (List.mem_replicate.mp hmem).2
    simp [LogEntry.json, JSON.stringify, LogEntry.toJs, JsValue.serialize,
      JsValue.serializeFields, firstEntry, laterEntry, sampleEntry, sampleData] at heq

/-- C13 (amended): in every state reachable from a fresh logger (empty queue,
empty mirror, working local storage) by `logActivity` calls, connectivity
signals and flushes, every entry in the offline queue was written to the mirror
when it was queued, and the mirror holds the last 100 of the entries so written
(their number is at most the number of calls): every queued entry is present in
the mirror while at most 100 calls have been made. -/
theorem queued_entries_were_mirrored (lg : Logger) (w : World) (evs : List Event)
    (hq : lg.offlineQueue = []) (hw : w.localStorage.working)
    (hm : w.localStorage.mirror = some []) :
    ∃ (H : List LogEntry) (M : List Json),
      (lg.run w evs).2.localStorage.mirror = some M ∧
      M = lastEntries 100 (H.map LogEntry.json) ∧
      (∀ e, e ∈ (lg.run w evs).1.offlineQueue → e ∈ H) ∧
      H.length ≤ countLogs evs ∧
      (countLogs evs ≤ 100 → ∀ e, e ∈ (lg.run w evs).1.offlineQueue → e.json ∈ M) := by
  obtain ⟨H, _, h2, h3, h4⟩ := run_durable evs lg w [] hw (by simpa [lastEntries] using hm)
    (by rw [hq]; simp)
  simp only [List.length_nil, Nat.zero_add] at h4
  refine ⟨H, _, h2, rfl, h3, h4, ?_⟩
  intro hle e he
  rw [lastEntries_of_length_le 100 _ (by rw [List.length_map]; omega)]
  exact List.mem_map_of_mem _ (h3 e he)

/-- C13 (witness): a fresh logger in a browser whose sink rejects every
document: one call, whose delivery fails after its retries, and an `offline`
signal.  The entry of the call is in the queue and in the mirror. -/
theorem queued_entries_were_mirrored_witness :
    (Logger.new unreachableSinkWorld).offlineQueue = [] ∧
    unreachableSinkWorld.localStorage.working ∧
    unreachableSinkWorld.localStorage.mirror = some [] ∧
    (∃ (H : List LogEntry) (M : List Json),
      ((Logger.new unreachableSinkWorld).run unreachableSinkWorld
        [.log ⟨"post_created", postData, none⟩, .offline]).2.localStorage.mirror = some M ∧
      M = lastEntries 100 (H.map LogEntry.json) ∧
      (∀ e, e ∈ ((Logger.new unreachableSinkWorld).run unreachableSinkWorld
        [.log ⟨"post_created", postData, none⟩, .offline]).1.offlineQueue → e ∈ H) ∧
      H.length ≤ countLogs [.log ⟨"post_created", postData, none⟩, .offline] ∧
      (countLogs [.log ⟨"post_created", postData, none⟩, .offline] ≤ 100 →
        ∀ e, e ∈ ((Logger.new unreachableSinkWorld).run unreachableSinkWorld
          [.log ⟨"post_created", postData, none⟩, .offline]).1.offlineQueue → e.json ∈ M)) ∧
    ((Logger.new unreachableSinkWorld).run unreachableSinkWorld
      [.log ⟨"post_created", postData, none⟩, .offline]).1.offlineQueue = [otherEntry] ∧
    ((Logger.new unreachableSinkWorld).run unreachableSinkWorld
      [.log ⟨"post_created", postData, none⟩, .offline]).2.localStorage.mirror =
      some [otherEntry.json] ∧
    ((Logger.new unreachableSinkWorld).run unreachableSinkWorld
      [.log ⟨"post_created", postData, none⟩, .offline]).2.documents = [] := by
  obtain ⟨w3, h1, _, _, h4, h5⟩ := logActivity_all_fail (Logger.new unreachableSinkWorld)
    "post_created" postData none unreachableSinkWorld rfl rfl (fun _ _ => rfl)
  have hrun : (Logger.new unreachableSinkWorld).run unreachableSinkWorld
      [.log ⟨"post_created", postData, none⟩, .offline] =
      (((Logger.new unreachableSinkWorld).logActivity "post_created" postData none
          unreachableSinkWorld).2.1.onOffline,
        ((Logger.new unreachableSinkWorld).logActivity "post_created" postData none
          unreachableSinkWorld).2.2) := rfl
  have hw3 : w3.localStorage.working := by
    rw [h1]; exact ⟨rfl, fun _ => rfl⟩
  have hm3 : w3.localStorage.mirror = some [] := by
    rw [h1]; rfl
  have hmirror := saveToLocalStorage_mirror otherEntry w3 [] hw3 hm3 rfl
  have hdocs : (Logger.saveToLocalStorage otherEntry w3).documents = [] := by
    obtain ⟨ls, cons, hs⟩ := saveToLocalStorage_world otherEntry w3
    rw [hs]
    exact h4
  have he : Logger.entryOf "post_created" postData none unreachableSinkWorld = otherEntry :=
    rfl
  rw [he] at h5
  refine ⟨rfl, ⟨rfl, fun _ => rfl⟩, rfl,
    queued_entries_were_mirrored (Logger.new unreachableSinkWorld) unreachableSinkWorld
      [.log ⟨"post_created", postData, none⟩, .offline] rfl ⟨rfl, fun _ => rfl⟩ rfl,
    ?_, ?_, ?_⟩
  · rw [hrun, h5]
    rfl
  · rw [hrun, h5]
    show (Logger.saveToLocalStorage otherEntry w3).localStorage.mirror = _
    rw [hmirror]
    rfl
  · rw [hrun, h5]
    exact hdocs

theorem flushLoop_append : ∀ (pre post : List LogEntry) (lg : Logger) (w : World),
    lg.flushLoop (pre ++ post) w =
      Logger.flushLoop (lg.flushLoop pre w).1 post (lg.flushLoop pre w).2
  | [], _, _, _ => rfl
  | e :: pre, post, lg, w => by
    obtain ⟨m, ds, c, _, _, hcase⟩ := saveToFirestore_outcome lg e lg.maxRetries 0 w rfl
    rcases hcase with hok | ⟨error, herr⟩
    · rw [List.cons_append, flushLoop_cons_ok lg e _ w _ hok, flushLoop_cons_ok lg e _ w _ hok]
      exact flushLoop_append pre post lg _
    · rw [List.cons_append, flushLoop_cons_error lg e _ w _ error herr,
        flushLoop_cons_error lg e _ w _ error herr]
      exact flushLoop_append pre post _ _

theorem addDocCall_injective (e e' : LogEntry) (h : e.addDocCall = e'.addDocCall) : e = e' := by
  have h2 : e.doc = e'.doc := congrArg Prod.snd h
  exact congrArg ActivityLogDoc.toLogEntry h2

/-- C14: a flush pass has delivered the entries `pre` of its snapshot and is
suspended; a `logActivity` call queues its entry; the pass then delivers the
rest `post` of the snapshot.  Every sink call of the pass is for an entry of the
snapshot (so none is for the late entry, unless an equal entry was
snapshotted), the late entry is in `offlineQueue` when the pass ends, and the
next flush pass hands it to the sink. -/
theorem flush_snapshot_isolation (lg : Logger) (pre post : List LogEntry) (w : World)
    (a : String) (d : JsValue) (l : Option String)
    (hqueued : ((lg.flushLoop pre w).1.logActivity a d l (lg.flushLoop pre w).2).2.1.offlineQueue =
      (lg.flushLoop pre w).1.offlineQueue ++ [Logger.entryOf a d l (lg.flushLoop pre w).2]) :
    (∃ cs, (lg.flushLoop pre w).2.addDocCalls = w.addDocCalls ++ cs ∧
      ∀ x, x ∈ cs → x ∈ pre.map LogEntry.addDocCall) ∧
    (∃ cs,
      (Logger.flushLoop ((lg.flushLoop pre w).1.logActivity a d l (lg.flushLoop pre w).2).2.1
          post
          ((lg.flushLoop pre w).1.logActivity a d l (lg.flushLoop pre w).2).2.2).2.addDocCalls =
        ((lg.flushLoop pre w).1.logActivity a d l (lg.flushLoop pre w).2).2.2.addDocCalls ++ cs ∧
      (∀ x, x ∈ cs → x ∈ post.map LogEntry.addDocCall) ∧
      (Logger.entryOf a d l (lg.flushLoop pre w).2 ∉ post →
        (Logger.entryOf a d l (lg.flushLoop pre w).2).addDocCall ∉ cs)) ∧
    Logger.entryOf a d l (lg.flushLoop pre w).2 ∈
      (Logger.flushLoop ((lg.flushLoop pre w).1.logActivity a d l (lg.flushLoop pre w).2).2.1
        post
        ((lg.flushLoop pre w).1.logActivity a d l (lg.flushLoop pre w).2).2.2).1.offlineQueue ∧
    ∀ w' : World, ∃ cs,
      (Logger.flushOfflineQueue
        (Logger.flushLoop ((lg.flushLoop pre w).1.logActivity a d l (lg.flushLoop pre w).2).2.1
          post
          ((lg.flushLoop pre w).1.logActivity a d l (lg.flushLoop pre w).2).2.2).1
        w').2.addDocCalls = w'.addDocCalls ++ cs ∧
      (Logger.entryOf a d l (lg.flushLoop pre w).2).addDocCall ∈ cs := by
  obtain ⟨_, _, cs1, _, _, _, _, _, _, hcs1, _, _, hw1⟩ := flushLoop_general pre lg w
  obtain ⟨failed, _, cs2, _, _, _, _, _, _, hcs2, _, hl2, hw2⟩ := flushLoop_general post
    ((lg.flushLoop pre w).1.logActivity a d l (lg.flushLoop pre w).2).2.1
    ((lg.flushLoop pre w).1.logActivity a d l (lg.flushLoop pre w).2).2.2
  have hin : Logger.entryOf a d l (lg.flushLoop pre w).2 ∈
      (Logger.flushLoop ((lg.flushLoop pre w).1.logActivity a d l (lg.flushLoop pre w).2).2.1
        post
        ((lg.flushLoop pre w).1.logActivity a d l
          (lg.flushLoop pre w).2).2.2).1.offlineQueue := by
    rw [hl2]
    show _ ∈ _ ++ failed
    rw [hqueued]
    simp
  refine ⟨⟨cs1, by rw [hw1], hcs1⟩, ⟨cs2, by rw [hw2], hcs2, ?_⟩, hin, ?_⟩
  · intro hnot hmem
    obtain ⟨q, hq, heq⟩ := List.mem_map.mp (hcs2 _ hmem)
    exact hnot (by rw [← addDocCall_injective _ _ heq]; exact hq)
  · intro w'
    obtain ⟨_, _, cs3, _, _, _, _, _, _, _, hsent, _, hw3⟩ := flushOfflineQueue_general
      (Logger.flushLoop ((lg.flushLoop pre w).1.logActivity a d l (lg.flushLoop pre w).2).2.1
        post
        ((lg.flushLoop pre w).1.logActivity a d l (lg.flushLoop pre w).2).2.2).1 w'
    exact ⟨cs3, by rw [hw3], hsent _ hin⟩

/-- C14 (witness): the logger has gone offline again while the pass is
suspended before its only delivery; `logActivity('post_created', ...)` queues
its entry, which is still queued when the pass ends. -/
theorem flush_snapshot_isolation_witness :
    (((Logger.onOffline (Logger.new sampleWorld)).flushLoop [] sampleWorld).1.logActivity
        "post_created" postData none
        ((Logger.onOffline (Logger.new sampleWorld)).flushLoop [] sampleWorld).2).2.1.offlineQueue =
      ((Logger.onOffline (Logger.new sampleWorld)).flushLoop [] sampleWorld).1.offlineQueue ++
        [Logger.entryOf "post_created" postData none
          ((Logger.onOffline (Logger.new sampleWorld)).flushLoop [] sampleWorld).2] ∧
    Logger.entryOf "post_created" postData none
        ((Logger.onOffline (Logger.new sampleWorld)).flushLoop [] sampleWorld).2 ∈
      (Logger.flushLoop
        (((Logger.onOffline (Logger.new sampleWorld)).flushLoop [] sampleWorld).1.logActivity
          "post_created" postData none
          ((Logger.onOffline (Logger.new sampleWorld)).flushLoop [] sampleWorld).2).2.1
        [sampleEntry]
        (((Logger.onOffline (Logger.new sampleWorld)).flushLoop [] sampleWorld).1.logActivity
          "post_created" postData none
          ((Logger.onOffline (Logger.new sampleWorld)).flushLoop [] sampleWorld).2).2.2).1.offlineQueue :=
  ⟨rfl,
    (flush_snapshot_isolation (Logger.onOffline (Logger.new sampleWorld)) [] [sampleEntry]
      sampleWorld "post_created" postData none rfl).2.2.1⟩

/-- C15 (counterexample): at the first suspension of a flush pass over the
queue `[e]` the queue has been cleared: `e`, which was placed in the queue and
has no confirmed delivery (the sink holds no document), is not an element of
`offlineQueue`; it is held in the snapshot of the pass only. -/
theorem flush_clears_queue_before_delivery :
    (Logger.flushSnapshot { Logger.new unreachableSinkWorld with offlineQueue := [sampleEntry] }
      unreachableSinkWorld).map (fun s => s.1.offlineQueue) = some [] ∧
    (Logger.flushSnapshot { Logger.new unreachableSinkWorld with offlineQueue := [sampleEntry] }
      unreachableSinkWorld).map (fun s => s.2.1) = some [sampleEntry] ∧
    (Logger.flushSnapshot { Logger.new unreachableSinkWorld with offlineQueue := [sampleEntry] }
      unreachableSinkWorld).map (fun s => s.2.2.documents) = some [] :=
  ⟨rfl, rfl, rfl⟩

/-- C15 (amended): an entry leaves `offlineQueue` only when a flush pass takes
it into its snapshot; when the pass ends, every entry of the former queue is
either back in the queue or was confirmed by the sink during the pass (its
document was stored), and the queue holds nothing else.  `logActivity` and the
`offline` signal never remove an entry. -/
theorem undelivered_entries_requeued (lg : Logger) (w : World) :
    (∃ delivered : List LogEntry,
      (lg.flushOfflineQueue w).2.documents = w.documents ++ delivered.map LogEntry.doc ∧
      (∀ e, e ∈ lg.offlineQueue →
        e ∈ (lg.flushOfflineQueue w).1.offlineQueue ∨ e ∈ delivered) ∧
      (lg.flushOfflineQueue w).1.offlineQueue.Sublist lg.offlineQueue) ∧
    (∀ (a : String) (d : JsValue) (l : Option String) (e : LogEntry), e ∈ lg.offlineQueue →
      e ∈ (lg.logActivity a d l w).2.1.offlineQueue) ∧
    lg.onOffline.offlineQueue = lg.offlineQueue := by
  refine ⟨?_, ?_, rfl⟩
  · obtain ⟨failed, delivered, cs, ds, c, cons, hf, _, hall, _, _, h1, h2⟩ :=
      flushOfflineQueue_general lg w
    refine ⟨delivered, by rw [h2], ?_, by rw [h1]; exact hf⟩
    intro e he
    rw [h1]
    exact hall e he
  · intro a d l e he
    rcases logActivity_cases lg a d l w with ⟨h1, _⟩ | ⟨_, _, h1, _⟩
    · rw [h1]; exact he
    · rw [h1]; exact List.mem_append_left _ he

theorem getCurrentUserId_getSessionId (w : World) :
    Logger.getCurrentUserId (Logger.getSessionId w).2 = Logger.getCurrentUserId w := by
  obtain ⟨s, n, h⟩ := getSessionId_world w
  rw [h]
  rfl

/-- Whatever the sink does, every `addDoc` call a `logActivity` call makes
carries the entry it built. -/
theorem logActivity_addDocCalls (lg : Logger) (a : String) (d : JsValue)
    (l : Option String) (w : World) :
    ∃ m, (lg.logActivity a d l w).2.2.addDocCalls =
      w.addDocCalls ++ List.replicate m (Logger.entryOf a d l w).addDocCall := by
  cases hd : d.serialisable with
  | false =>
    obtain ⟨err, _, heq⟩ := logActivity_unserialisable lg a d l w hd
    obtain ⟨s, n, hb⟩ := buildEntry_world a d l w
    exact ⟨0, by rw [heq, hb]; simp⟩
  | true =>
    obtain ⟨c, s, n, hw⟩ := tracedWorld_eq a d l w hd
    rcases Bool.eq_false_or_eq_true lg.offline with hoff | hoff
    · obtain ⟨_, ls, cons, s', n', h2⟩ := logActivity_offline_world lg a d l w hoff
      exact ⟨0, by rw [h2]; simp⟩
    · obtain ⟨m, ds, c', _, _, hcase⟩ := saveToFirestore_outcome lg (Logger.entryOf a d l w)
        lg.maxRetries 0 (Logger.tracedWorld a d l w) rfl
      refine ⟨m, ?_⟩
      rcases hcase with hok | ⟨error, herr⟩
      · rw [logActivity_delivered lg a d l w _ hoff hd hok, hw]
      · rw [logActivity_undelivered lg a d l w _ error hoff hd herr]
        obtain ⟨ls, cons, hs⟩ := saveToLocalStorage_world (Logger.entryOf a d l w)
          (World.consoleCall { Logger.tracedWorld a d l w with
            addDocCalls := (Logger.tracedWorld a d l w).addDocCalls ++
              List.replicate m (Logger.entryOf a d l w).addDocCall,
            delays := ds, clock := c' } .error
            [.text "Failed to log to Firestore:", .caught error])
        rw [hs, hw]
        rfl

/-- C16: the fields of the entry are the values captured when `logActivity` was
called (the timestamp is the instant of the call); every payload the call hands
to the sink, whatever the number of retries, is that entry plus `createdAt`;
the queued entry is that entry; the mirrored entry is the JSON object of its
fields; and a later flush pass, in any later state, hands to the sink the
queued entries plus `createdAt` and re-queues them as they are. -/
theorem entry_fields_are_captured (lg : Logger) (a : String) (d : JsValue)
    (l : Option String) (w : World) :
    ((Logger.entryOf a d l w).action = a ∧
      (Logger.entryOf a d l w).level = l.getD "INFO" ∧
      (Logger.entryOf a d l w).timestamp = w.toISOString w.clock ∧
      (Logger.entryOf a d l w).userAgent = w.userAgent ∧
      (Logger.entryOf a d l w).url = w.href ∧
      (Logger.entryOf a d l w).sessionId = (Logger.getSessionId w).1 ∧
      (Logger.entryOf a d l w).userId = Logger.getCurrentUserId w ∧
      (d = .undefined → (Logger.entryOf a d l w).data = .obj []) ∧
      (d ≠ .undefined → (Logger.entryOf a d l w).data = d)) ∧
    (∃ m, (lg.logActivity a d l w).2.2.addDocCalls = w.addDocCalls ++
      List.replicate m
        ("activity_logs", { Logger.entryOf a d l w with createdAt := .serverTimestamp })) ∧
    ((lg.logActivity a d l w).2.1.offlineQueue = lg.offlineQueue ∨
      (lg.logActivity a d l w).2.1.offlineQueue =
        lg.offlineQueue ++ [Logger.entryOf a d l w]) ∧
    ((lg.logActivity a d l w).2.2.localStorage = w.localStorage ∨
      ∃ w3 : World, w3.localStorage = w.localStorage ∧
        (lg.logActivity a d l w).2.2.localStorage =
          (Logger.saveToLocalStorage (Logger.entryOf a d l w) w3).localStorage) ∧
    (∀ dj, (Logger.entryOf a d l w).data.serialize = .ok dj →
      (Logger.entryOf a d l w).json =
        .obj (("action", .str (Logger.entryOf a d l w).action) ::
          ((match dj with
            | some j => [("data", j)]
            | none => []) ++
          [("level", .str (Logger.entryOf a d l w).level),
           ("timestamp", .str (Logger.entryOf a d l w).timestamp),
           ("userAgent", .str (Logger.entryOf a d l w).userAgent),
           ("url", .str (Logger.entryOf a d l w).url),
           ("sessionId", .str (Logger.entryOf a d l w).sessionId),
           ("userId", .str (Logger.entryOf a d l w).userId)]))) ∧
    ∀ (lg' : Logger) (w' : World), ∃ cs,
      (lg'.flushOfflineQueue w').2.addDocCalls = w'.addDocCalls ++ cs ∧
      (∀ x, x ∈ cs → ∃ q, q ∈ lg'.offlineQueue ∧
        x = ("activity_logs", { q with createdAt := .serverTimestamp })) ∧
      (lg'.flushOfflineQueue w').1.offlineQueue.Sublist lg'.offlineQueue := by
  refine ⟨⟨rfl, rfl, rfl, rfl, rfl, rfl, getCurrentUserId_getSessionId w, ?_, ?_⟩,
    logActivity_addDocCalls lg a d l w, ?_, ?_, ?_, ?_⟩
  · intro h; rw [h]; rfl
  · intro h
    cases d with
    | undefined => exact absurd rfl h
    | _ => rfl
  · rcases logActivity_cases lg a d l w with ⟨h1, _⟩ | ⟨_, _, h1, _⟩
    · left; rw [h1]
    · right; rw [h1]
  · rcases logActivity_cases lg a d l w with ⟨_, h2⟩ | ⟨_, _, _, w3, h3, h4⟩
    · left; exact h2
    · right; exact ⟨w3, h3, by rw [h4]⟩
  · intro dj hdj
    have := LogEntry.serialize_entry (Logger.entryOf a d l w) dj hdj
    simp only [LogEntry.json, JSON.stringify, this]
  · intro lg' w'
    obtain ⟨failed, _, cs, _, _, _, hf, _, _, hcs, _, h1, h2⟩ := flushOfflineQueue_general lg' w'
    refine ⟨cs, by rw [h2], ?_, by rw [h1]; exact hf⟩
    intro x hx
    obtain ⟨q, hq, heq⟩ := List.mem_map.mp (hcs x hx)
    exact ⟨q, hq, heq.symm⟩

theorem step_offline (lg : Logger) (w : World) (ev : Event) :
    (lg.step w ev).1.offline =
      match ev with
      | .online => false
      | .offline => true
      | _ => lg.offline := by
  cases ev with
  | online =>
    obtain ⟨_, _, _, _, _, _, _, _, _, _, _, h1, _⟩ :=
      flushOfflineQueue_general { lg with offline := false } w
    show (Logger.flushOfflineQueue { lg with offline := false } w).1.offline = false
    rw [h1]
  | offline => rfl
  | flush =>
    obtain ⟨_, _, _, _, _, _, _, _, _, _, _, h1, _⟩ := flushOfflineQueue_general lg w
    show (lg.flushOfflineQueue w).1.offline = lg.offline
    rw [h1]
  | log c =>
    show (lg.logActivity c.action c.data c.level w).2.1.offline = lg.offline
    rcases logActivity_cases lg c.action c.data c.level w with ⟨h1, _⟩ | ⟨_, _, h1, _⟩
    · rw [h1]
    · rw [h1]

theorem run_offline : ∀ (evs : List Event) (lg : Logger) (w : World),
    (lg.run w evs).1.offline = (lastSignal evs).getD lg.offline
  | [], _, _ => rfl
  | ev :: evs, lg, w => by
    have ih := run_offline evs (lg.step w ev).1 (lg.step w ev).2
    have hs := step_offline lg w ev
    simp only [Logger.run, lastSignal]
    rw [ih, hs]
    cases lastSignal evs with
    | some b => rfl
    | none => cases ev <;> rfl

/-- C17: the constructor sets `offline` to the negation of `navigator.onLine`;
the `offline` listener sets it to true; the `online` listener sets it to false
and runs `flushOfflineQueue` once; `logActivity`, `flushOfflineQueue` and its
loop leave it as it is (`saveToFirestore` and `saveToLocalStorage` do not touch
the logger's fields); so after any sequence of signals, calls and flushes the
flag is the one asked for by the most recent signal, or the initial one when
there was none. -/
theorem offline_flag_follows_signals (lg : Logger) (w : World) :
    (Logger.new w).offline = !w.onLine ∧
    lg.onOffline.offline = true ∧
    (lg.onOnline w).1.offline = false ∧
    lg.onOnline w = Logger.flushOfflineQueue { lg with offline := false } w ∧
    (∀ (a : String) (d : JsValue) (l : Option String),
      (lg.logActivity a d l w).2.1.offline = lg.offline) ∧
    (lg.flushOfflineQueue w).1.offline = lg.offline ∧
    (∀ snapshot, (lg.flushLoop snapshot w).1.offline = lg.offline) ∧
    ∀ evs, (lg.run w evs).1.offline = (lastSignal evs).getD lg.offline := by
  refine ⟨rfl, rfl, step_offline lg w .online, rfl, ?_, step_offline lg w .flush, ?_,
    fun evs => run_offline evs lg w⟩
  · intro a d l
    exact step_offline lg w (.log ⟨a, d, l⟩)
  · intro snapshot
    obtain ⟨_, _, _, _, _, _, _, _, _, _, _, h1, _⟩ := flushLoop_general snapshot lg w
    rw [h1]

/-- C18: a flush pass neither reads nor writes local storage: for every queue
and every sink the stored value, hence the mirror with the entries the pass
delivered, is the same after the pass (and after the `online` listener) as
before. -/
theorem flush_leaves_localStorage (lg : Logger) (w : World) :
    (lg.flushOfflineQueue w).2.localStorage = w.localStorage ∧
    (lg.onOnline w).2.localStorage = w.localStorage ∧
    (∀ snapshot, (lg.flushLoop snapshot w).2.localStorage = w.localStorage) ∧
    (lg.flushOfflineQueue w).2.localStorage.mirror = w.localStorage.mirror := by
  have h : ∀ lg0 : Logger, (lg0.flushOfflineQueue w).2.localStorage = w.localStorage := by
    intro lg0
    obtain ⟨_, _, _, _, _, _, _, _, _, _, _, _, h2⟩ := flushOfflineQueue_general lg0 w
    rw [h2]
  refine ⟨h lg, h _, ?_, by rw [h lg]⟩
  intro snapshot
  obtain ⟨_, _, _, _, _, _, _, _, _, _, _, _, h2⟩ := flushLoop_general snapshot lg w
  rw [h2]

/-! ## Lemmas: posts -/

theorem getPosts_ok_mem (fs : Firestore) (filters : PostFilters) (w w1 : World)
    (posts : List Post) (h : getPosts fs filters w = (.ok posts, w1)) :
    ∀ p, p ∈ posts → p ∈ fs.posts ∧ filters.admits p = true := by
  have hsorted : ∀ p, p ∈ (fs.posts.filter filters.admits).insertionSort
      (fun a b => a.createdAt ≥ b.createdAt) → p ∈ fs.posts ∧ filters.admits p = true := by
    intro p hp
    have := (List.mem_insertionSort _).mp hp
    exact List.mem_filter.mp this
  unfold getPosts at h
  cases hg : fs.getDocsThrows with
  | some err => simp [hg] at h
  | none =>
    simp only [hg] at h
    cases hl : filters.limit with
    | none =>
      simp only [hl, Prod.mk.injEq, Except.ok.injEq] at h
      intro p hp
      exact hsorted p (by rw [h.1]; exact hp)
    | some n =>
      simp only [hl] at h
      split at h
      · simp only [Prod.mk.injEq, Except.ok.injEq] at h
        intro p hp
        exact hsorted p (by rw [h.1]; exact hp)
      · simp only [Prod.mk.injEq, Except.ok.injEq] at h
        intro p hp
        rw [← h.1] at hp
        exact hsorted p (List.mem_of_mem_take hp)

theorem admits_status (filters : PostFilters) (p : Post) (h : filters.admits p = true) :
    p.status = "active" := by
  simp only [PostFilters.admits, Bool.and_eq_true, decide_eq_true_eq] at h
  exact h.1.1.1

theorem admits_type (filters : PostFilters) (p : Post) (t : String) (ht : t ≠ "")
    (hf : filters.type = some t) (h : filters.admits p = true) : p.type = t := by
  simp only [PostFilters.admits, Bool.and_eq_true, Bool.or_eq_true, decide_eq_true_eq, hf,
    falsy, Option.getD_some] at h
  rcases h.1.1.2 with h1 | h1
  · exact absurd h1 ht
  · exact h1

theorem admits_category (filters : PostFilters) (p : Post) (c : String) (hc : c ≠ "")
    (hf : filters.category = some c) (h : filters.admits p = true) : p.category = some c := by
  simp only [PostFilters.admits, Bool.and_eq_true, Bool.or_eq_true, decide_eq_true_eq, hf,
    falsy] at h
  rcases h.1.2 with h1 | h1
  · exact absurd h1 hc
  · exact h1

theorem loadPostsOfTypes_mem (fs : Firestore) : ∀ (types : List String) (acc : List Post)
    (w w1 : World) (all : List Post), (∀ t, t ∈ types → t ≠ "") →
    loadPostsOfTypes fs types acc w = (.ok all, w1) →
    ∀ p, p ∈ all → p ∈ acc ∨ (p ∈ fs.posts ∧ p.type ∈ types ∧ p.status = "active")
  | [], acc, w, w1, all, _, h => by
    simp only [loadPostsOfTypes, Prod.mk.injEq, Except.ok.injEq] at h
    intro p hp
    exact Or.inl (by rw [h.1]; exact hp)
  | t :: rest, acc, w, w1, all, hne, h => by
    simp only [loadPostsOfTypes] at h
    cases hg : getPosts fs { PostFilters.empty with type := some t, limit := some 20 } w with
    | mk outcome w2 =>
      cases outcome with
      | error err => simp [hg] at h
      | ok posts =>
        simp only [hg] at h
        intro p hp
        rcases loadPostsOfTypes_mem fs rest (acc ++ posts) w2 w1 all
          (fun x hx => hne x (List.mem_cons_of_mem _ hx)) h p hp with h1 | ⟨h1, h2, h3⟩
        · rcases List.mem_append.mp h1 with h1 | h1
          · exact Or.inl h1
          · obtain ⟨hin, hadm⟩ := getPosts_ok_mem fs _ w w2 posts hg p h1
            refine Or.inr ⟨hin, ?_, admits_status _ p hadm⟩
            rw [admits_type _ p t (hne t (List.mem_cons_self _ _)) rfl hadm]
            exact List.mem_cons_self _ _
        · exact Or.inr ⟨h1, List.mem_cons_of_mem _ h2, h3⟩

theorem postTypesFor_ne_empty (userRole : Option String) :
    ∀ t, t ∈ postTypesFor userRole → t ≠ "" := by
  intro t ht
  unfold postTypesFor at ht
  split at ht
  · simp at ht; rw [ht]; decide
  · split at ht
    · simp at ht; rcases ht with rfl | rfl | rfl <;> decide
    · split at ht
      · simp at ht; rw [ht]; decide
      · split at ht
        · simp at ht; rw [ht]; decide
        · simp at ht; rcases ht with rfl | rfl | rfl | rfl <;> decide

theorem filterPosts_mem (term : String) : ∀ (posts kept : List Post),
    filterPosts term posts = .ok kept → ∀ p, p ∈ kept → p ∈ posts
  | [], kept, h => by
    simp only [filterPosts, Except.ok.injEq] at h
    intro p hp
    rw [← h] at hp
    exact hp
  | post :: rest, kept, h => by
    simp only [filterPosts] at h
    cases hm : searchMatch term post with
    | error err => simp [hm] at h
    | ok keep =>
      cases hr : filterPosts term rest with
      | error err => simp [hm, hr] at h
      | ok kept' =>
        simp only [hm, hr, Except.ok.injEq] at h
        intro p hp
        rw [← h] at hp
        cases keep with
        | true =>
          rcases List.mem_cons.mp hp with rfl | hp
          · exact List.mem_cons_self _ _
          · exact List.mem_cons_of_mem _ (filterPosts_mem term rest kept' hr p hp)
        | false =>
          exact List.mem_cons_of_mem _ (filterPosts_mem term rest kept' hr p hp)

theorem searchPosts_ok_mem (fs : Firestore) (lg : Logger) (term : String)
    (filters : PostFilters) (w : World) (results : List Post)
    (h : (searchPosts fs lg term filters w).1 = .ok results) :
    ∀ p, p ∈ results → p ∈ fs.posts ∧ filters.admits p = true := by
  unfold searchPosts at h
  cases hg : getPosts fs filters w with
  | mk outcome w1 =>
    cases outcome with
    | error err => simp [hg] at h
    | ok posts =>
      simp only [hg] at h
      have hposts := getPosts_ok_mem fs filters w w1 posts hg
      split at h
      · simp only [Except.ok.injEq] at h
        intro p hp
        exact hposts p (by rw [h]; exact hp)
      · cases hf : filterPosts term posts with
        | error err => simp [hf] at h
        | ok kept =>
          simp only [hf] at h
          have hkept := filterPosts_mem term posts kept hf
          split at h
          · simp at h
          · simp only [Except.ok.injEq] at h
            intro p hp
            exact hposts p (hkept p (by rw [h]; exact hp))

/-- The posts of the two paths that feed `displayBrowseResults`:
`loadBrowseSection` hands over active posts of the types of the user's role;
`handleSearch` hands over active posts of the collection, in the selected
category when one is selected. -/
theorem browse_and_search_results (am : AuthManager) (fs : Firestore) (lg : Logger)
    (w : World) :
    (postTypesFor (some "investor") = ["business-idea"] ∧
      postTypesFor (some "banker") = ["business-idea"] ∧
      postTypesFor (some "advisor") = ["business-idea"] ∧
      postTypesFor (some "entrepreneur") =
        ["investment-proposal", "loan-offer", "advisory-service"]) ∧
    (∀ posts, (loadBrowseSection am fs w).1 = some posts →
      ∀ p, p ∈ posts →
        p ∈ fs.posts ∧ p.status = "active" ∧
        p.type ∈ postTypesFor (am.userProfile.bind (fun userProfile => userProfile.role))) ∧
    (∀ (searchTerm categoryFilter : String) (posts : List Post),
      (handleSearch fs lg searchTerm categoryFilter w).1 = some posts →
      ∀ p, p ∈ posts →
        p ∈ fs.posts ∧ p.status = "active" ∧
        (categoryFilter ≠ "" → p.category = some categoryFilter)) := by
  refine ⟨⟨rfl, rfl, rfl, rfl⟩, ?_, ?_⟩
  · intro posts h p hp
    unfold loadBrowseSection at h
    cases hl : loadPostsOfTypes fs
        (postTypesFor (am.userProfile.bind (fun userProfile => userProfile.role))) [] w with
    | mk outcome w1 =>
      cases outcome with
      | error err => simp [hl] at h
      | ok all =>
        simp only [hl, Option.some.injEq] at h
        rw [← h] at hp
        have hp' := (List.mem_insertionSort _).mp hp
        rcases loadPostsOfTypes_mem fs _ [] w w1 all (postTypesFor_ne_empty _) hl p hp' with
          h1 | ⟨h1, h2, h3⟩
        · simp at h1
        · exact ⟨h1, h3, h2⟩
  · intro searchTerm categoryFilter posts h p hp
    unfold handleSearch at h
    by_cases hc : categoryFilter = ""
    · simp only [hc, if_true] at h
      cases hs : searchPosts fs lg searchTerm PostFilters.empty w with
      | mk outcome rest =>
        cases outcome with
        | error err => simp [hs] at h
        | ok results =>
          simp only [hs, Option.some.injEq] at h
          obtain ⟨h1, h2⟩ := searchPosts_ok_mem fs lg searchTerm _ w results
            (by rw [hs]) p (by rw [h]; exact hp)
          exact ⟨h1, admits_status _ p h2, fun hne => absurd hc hne⟩
    · simp only [hc, if_false] at h
      cases hs : searchPosts fs lg searchTerm
          { PostFilters.empty with category := some categoryFilter } w with
      | mk outcome rest =>
        cases outcome with
        | error err => simp [hs] at h
        | ok results =>
          simp only [hs, Option.some.injEq] at h
          obtain ⟨h1, h2⟩ := searchPosts_ok_mem fs lg searchTerm _ w results
            (by rw [hs]) p (by rw [h]; exact hp)
          exact ⟨h1, admits_status _ p h2,
            fun _ => admits_category _ p categoryFilter hc rfl h2⟩

/-- Whatever the sink and local storage do, a `logActivity` call changes the
world in the session identifier, the console, local storage, the sink, the
delays and the clock only, and every `addDoc` call it makes carries its entry. -/
theorem logActivity_world (lg : Logger) (a : String) (d : JsValue) (l : Option String)
    (w : World) :
    ∃ (s : Option String) (n : Nat) (cons : List ConsoleCall) (ls : LocalStorage) (m : Nat)
      (docs : List ActivityLogDoc) (ds : List Nat) (c : Nat),
      (lg.logActivity a d l w).2.2 =
        { w with sessionItem := s, randomCalls := n, console := cons, localStorage := ls,
                 addDocCalls := w.addDocCalls ++
                   List.replicate m (Logger.entryOf a d l w).addDocCall,
                 documents := docs, delays := ds, clock := c } := by
  cases hd : d.serialisable with
  | false =>
    obtain ⟨err, _, heq⟩ := logActivity_unserialisable lg a d l w hd
    obtain ⟨s, n, hb⟩ := buildEntry_world a d l w
    exact ⟨s, n, w.console, w.localStorage, 0, w.documents, w.delays, w.clock, by
      rw [heq, hb]; simp⟩
  | true =>
    obtain ⟨c, s, n, hw⟩ := tracedWorld_eq a d l w hd
    rcases Bool.eq_false_or_eq_true lg.offline with hoff | hoff
    · obtain ⟨_, ls, cons, s', n', h2⟩ := logActivity_offline_world lg a d l w hoff
      exact ⟨s', n', cons, ls, 0, w.documents, w.delays, w.clock, by rw [h2]; simp⟩
    · obtain ⟨m, ds, c', _, _, hcase⟩ := saveToFirestore_outcome lg (Logger.entryOf a d l w)
        lg.maxRetries 0 (Logger.tracedWorld a d l w) rfl
      rcases hcase with hok | ⟨error, herr⟩
      · exact ⟨s, n, w.console ++ [c], w.localStorage, m, _, ds, c', by
          rw [logActivity_delivered lg a d l w _ hoff hd hok, hw]⟩
      · obtain ⟨ls, cons, hs⟩ := saveToLocalStorage_world (Logger.entryOf a d l w)
          (World.consoleCall { Logger.tracedWorld a d l w with
            addDocCalls := (Logger.tracedWorld a d l w).addDocCalls ++
              List.replicate m (Logger.entryOf a d l w).addDocCall,
            delays := ds, clock := c' } .error
            [.text "Failed to log to Firestore:", .caught error])
        exact ⟨s, n, cons, ls, m, w.documents, ds, c', by
          rw [logActivity_undelivered lg a d l w _ error hoff hd herr, hs, hw]
          rfl⟩

theorem getUserProfile_world (fs : Firestore) (uid : String) (w : World) :
    ∃ cons, (getUserProfile fs uid w).2 = { w with console := cons } := by
  unfold getUserProfile
  split
  · exact ⟨_, rfl⟩
  · exact ⟨w.console, rfl⟩
  · exact ⟨_, rfl⟩

theorem entryOf_userId_anonymous (a : String) (d : JsValue) (l : Option String) (w : World)
    (h : w.currentUserId = none) : (Logger.entryOf a d l w).userId = "anonymous" := by
  show Logger.getCurrentUserId (Logger.getSessionId w).2 = "anonymous"
  rw [getCurrentUserId_getSessionId]
  simp [Logger.getCurrentUserId, h, falsy]

/-- C20 (the code at the failing input class): the auth state listener stores
the signed-in user in `AuthManager.currentUser` but does not set
`window.currentUserId`, which `getCurrentUserId` reads: when it is unset, it is
still unset after the listener ran, the `user_login` entry the listener sends
carries the user id `anonymous`, and so does the entry of every later call. -/
theorem userId_ignores_authenticated_user (am : AuthManager) (user : AuthUser)
    (fs : Firestore) (lg : Logger) (w : World) (hwin : w.currentUserId = none) :
    (am.onAuthStateChanged (some user) fs lg w).1.currentUser = some user ∧
    (am.onAuthStateChanged (some user) fs lg w).2.2.currentUserId = none ∧
    (∃ cs, (am.onAuthStateChanged (some user) fs lg w).2.2.addDocCalls = w.addDocCalls ++ cs ∧
      ∀ x, x ∈ cs → x.2.userId = "anonymous") ∧
    ∀ (a : String) (d : JsValue) (l : Option String),
      (Logger.entryOf a d l (am.onAuthStateChanged (some user) fs lg w).2.2).userId =
        "anonymous" := by
  obtain ⟨cons, hg⟩ := getUserProfile_world fs user.uid
    (w.consoleCall .log [.text "User signed in:", .text user.email])
  have hw2 : ∃ cons2, (match (getUserProfile fs user.uid
        (w.consoleCall .log [.text "User signed in:", .text user.email])).1 with
      | .ok _ => (getUserProfile fs user.uid
          (w.consoleCall .log [.text "User signed in:", .text user.email])).2
      | .error error => (getUserProfile fs user.uid
          (w.consoleCall .log [.text "User signed in:", .text user.email])).2.consoleCall .error
            [.text "Error fetching user profile:", .caught error]) =
      { w with console := cons2 } := by
    split
    · exact ⟨cons, by rw [hg]; rfl⟩
    · exact ⟨_, by rw [hg]; rfl⟩
  obtain ⟨cons2, hw2⟩ := hw2
  obtain ⟨s, n, cons3, ls, m, docs, ds, c, hl⟩ := logActivity_world lg "user_login"
    (.obj [("email", .str user.email)]) none { w with console := cons2 }
  have hafter : (am.onAuthStateChanged (some user) fs lg w).2.2 =
      (lg.logActivity "user_login" (.obj [("email", .str user.email)]) none
        { w with console := cons2 }).2.2 := by
    show (lg.logActivity "user_login" (.obj [("email", .str user.email)]) none _).2.2 = _
    rw [hw2]
  have hcur : (am.onAuthStateChanged (some user) fs lg w).2.2.currentUserId = none := by
    rw [hafter, hl]
    exact hwin
  refine ⟨rfl, hcur, ⟨_, by rw [hafter, hl], ?_⟩, fun a d l => entryOf_userId_anonymous a d l _ hcur⟩
  intro x hx
  rw [(List.mem_replicate.mp hx).2]
  exact entryOf_userId_anonymous _ _ _ _ hwin

/-- C20 (witness): the user `uid-42` signs in, in the sample browser, where
`window.currentUserId` is not set. -/
theorem userId_ignores_authenticated_user_witness :
    sampleWorld.currentUserId = none ∧
    sampleUser.uid = "uid-42" ∧
    (AuthManager.onAuthStateChanged ⟨none, none⟩ (some sampleUser) sampleFirestore
      (Logger.new sampleWorld) sampleWorld).1.currentUser = some sampleUser ∧
    (AuthManager.onAuthStateChanged ⟨none, none⟩ (some sampleUser) sampleFirestore
      (Logger.new sampleWorld) sampleWorld).2.2.currentUserId = none ∧
    (∃ cs, (AuthManager.onAuthStateChanged ⟨none, none⟩ (some sampleUser) sampleFirestore
        (Logger.new sampleWorld) sampleWorld).2.2.addDocCalls = sampleWorld.addDocCalls ++ cs ∧
      ∀ x, x ∈ cs → x.2.userId = "anonymous") ∧
    ∀ (a : String) (d : JsValue) (l : Option String),
      (Logger.entryOf a d l (AuthManager.onAuthStateChanged ⟨none, none⟩ (some sampleUser)
        sampleFirestore (Logger.new sampleWorld) sampleWorld).2.2).userId = "anonymous" :=
  ⟨rfl, rfl,
    userId_ignores_authenticated_user ⟨none, none⟩ sampleUser sampleFirestore
      (Logger.new sampleWorld) sampleWorld rfl⟩

/-! ## Lemmas: the session identifier -/

theorem getSessionId_ne_empty (w : World) : (Logger.getSessionId w).1 ≠ "" := by
  unfold Logger.getSessionId
  split
  · intro h
    have hlen := congrArg String.length h
    simp only [String.length_append] at hlen
    have h8 : "session_".length = 8 := rfl
    have h0 : "".length = 0 := rfl
    omega
  · rename_i hf
    cases hs : w.sessionItem with
    | none => simp [falsy, hs] at hf
    | some s =>
      simp only [falsy, hs, decide_eq_true_eq] at hf
      exact hf

theorem getSessionId_sessionItem (w : World) :
    (Logger.getSessionId w).2.sessionItem = some (Logger.getSessionId w).1 := by
  unfold Logger.getSessionId
  split
  · rfl
  · rename_i hf
    cases hs : w.sessionItem with
    | none => simp [falsy, hs] at hf
    | some s => rfl

theorem falsy_getSessionId (w : World) :
    falsy (Logger.getSessionId w).2.sessionItem = false := by
  rw [getSessionId_sessionItem]
  simp [falsy, getSessionId_ne_empty]

theorem getSessionId_of_stored (w : World) (h : falsy w.sessionItem = false) :
    Logger.getSessionId w = (w.sessionItem.getD "", w) := by
  simp [Logger.getSessionId, h]

theorem logToConsole_sessionItem (e : LogEntry) (w : World) :
    (Logger.logToConsole e w).2.sessionItem = w.sessionItem := by
  unfold Logger.logToConsole
  split <;> rfl

theorem saveToFirestore_sessionItem (lg : Logger) (e : LogEntry) (w : World) :
    (lg.saveToFirestore e 0 w).2.sessionItem = w.sessionItem := by
  obtain ⟨m, docs, ds, c, _, _, h⟩ := saveToFirestore_world lg e lg.maxRetries 0 w rfl
  rw [h]

theorem saveToLocalStorage_sessionItem (e : LogEntry) (w : World) :
    (Logger.saveToLocalStorage e w).sessionItem = w.sessionItem := by
  obtain ⟨ls, cons, h⟩ := saveToLocalStorage_world e w
  rw [h]

/-- A call changes the stored session identifier only by creating it. -/
theorem logActivity_sessionItem (lg : Logger) (a : String) (d : JsValue)
    (l : Option String) (w : World) :
    (lg.logActivity a d l w).2.2.sessionItem = (Logger.getSessionId w).2.sessionItem := by
  have hb : (Logger.buildEntry a d l w).2 = (Logger.getSessionId w).2 := rfl
  have hc := logToConsole_sessionItem (Logger.buildEntry a d l w).1
    (Logger.buildEntry a d l w).2
  rw [logActivity_eq]
  cases hlog : Logger.logToConsole (Logger.buildEntry a d l w).1
      (Logger.buildEntry a d l w).2 with
  | mk outcome w2 =>
    rw [hlog] at hc
    have hw2 : w2.sessionItem = (Logger.getSessionId w).2.sessionItem := by
      rw [← hb]; exact hc
    cases outcome with
    | error err => exact hw2
    | ok u =>
      rcases Bool.eq_false_or_eq_true lg.offline with hoff | hoff
      · simp only [hoff, if_true]
        rw [saveToLocalStorage_sessionItem]
        exact hw2
      · simp only [hoff, Bool.false_eq_true, if_false]
        have hs := saveToFirestore_sessionItem lg (Logger.entryOf a d l w) w2
        cases hsave : lg.saveToFirestore (Logger.entryOf a d l w) 0 w2 with
        | mk out w3 =>
          rw [hsave] at hs
          cases out with
          | ok u => exact hs.trans hw2
          | error err =>
            simp only []
            rw [saveToLocalStorage_sessionItem]
            exact hs.trans hw2

theorem flushOfflineQueue_sessionItem (lg : Logger) (w : World) :
    (lg.flushOfflineQueue w).2.sessionItem = w.sessionItem := by
  obtain ⟨failed, delivered, cs, ds, c, cons, _, _, _, _, _, _, h⟩ :=
    flushOfflineQueue_general lg w
  rw [h]

/-- Once a session identifier is stored, no event replaces it. -/
theorem step_sessionItem (lg : Logger) (w : World) (ev : Event)
    (h : falsy w.sessionItem = false) : (lg.step w ev).2.sessionItem = w.sessionItem := by
  cases ev with
  | online => exact flushOfflineQueue_sessionItem _ w
  | offline => rfl
  | log c =>
    show (lg.logActivity c.action c.data c.level w).2.2.sessionItem = w.sessionItem
    rw [logActivity_sessionItem, getSessionId_of_stored w h]
  | flush => exact flushOfflineQueue_sessionItem _ w

theorem run_sessionItem : ∀ (evs : List Event) (lg : Logger) (w : World),
    falsy w.sessionItem = false → (lg.run w evs).2.sessionItem = w.sessionItem
  | [], _, _, _ => rfl
  | ev :: evs, lg, w, h => by
    have h1 := step_sessionItem lg w ev h
    show (Logger.run (lg.step w ev).1 (lg.step w ev).2 evs).2.sessionItem = w.sessionItem
    rw [run_sessionItem evs _ _ (by rw [h1]; exact h), h1]

/-- C21: `getSessionId` leaves the world alone when an identifier is stored (a
non-empty item), and otherwise generates one, from the clock and a random
draw, and stores it; the identifier `s` it returns is then the stored one, and
after any sequence of connectivity signals, `logActivity` calls and flush
passes, `getSessionId` still returns `s` and changes nothing, and the entry any
`logActivity` call builds carries `sessionId = s`. -/
theorem session_id_is_stable (w : World) (lg : Logger) (evs : List Event) (a : String)
    (d : JsValue) (l : Option String) :
    (falsy w.sessionItem = false →
      Logger.getSessionId w = (w.sessionItem.getD "", w)) ∧
    (falsy w.sessionItem = true →
      Logger.getSessionId w =
        ("session_" ++ toString w.clock ++ "_" ++ w.random w.randomCalls,
          { w with
            sessionItem := some ("session_" ++ toString w.clock ++ "_" ++
              w.random w.randomCalls),
            randomCalls := w.randomCalls + 1 })) ∧
    (Logger.getSessionId w).2.sessionItem = some (Logger.getSessionId w).1 ∧
    Logger.getSessionId (lg.run (Logger.getSessionId w).2 evs).2 =
      ((Logger.getSessionId w).1, (lg.run (Logger.getSessionId w).2 evs).2) ∧
    (Logger.entryOf a d l (lg.run (Logger.getSessionId w).2 evs).2).sessionId =
      (Logger.getSessionId w).1 := by
  have hrun := run_sessionItem evs lg (Logger.getSessionId w).2 (falsy_getSessionId w)
  have hf : falsy (lg.run (Logger.getSessionId w).2 evs).2.sessionItem = false := by
    rw [hrun]; exact falsy_getSessionId w
  have hget := getSessionId_of_stored _ hf
  rw [hrun, getSessionId_sessionItem, Option.getD_some] at hget
  refine ⟨getSessionId_of_stored w, ?_, getSessionId_sessionItem w, hget, ?_⟩
  · intro h
    simp [Logger.getSessionId, h]
  · show (Logger.getSessionId (lg.run (Logger.getSessionId w).2 evs).2).1 = _
    rw [hget]

/-! ## Lemmas: the wrappers -/

theorem logActivity_level_default (lg : Logger) (a : String) (d : JsValue) (w : World) :
    lg.logActivity a d none w = lg.logActivity a d (some "INFO") w := rfl

theorem logActivity_data_default (lg : Logger) (a : String) (l : Option String) (w : World) :
    lg.logActivity a .undefined l w = lg.logActivity a (.obj []) l w := rfl

theorem orEmptyObject_of_ne (c : JsValue) (h : c ≠ .undefined) : orEmptyObject c = c := by
  cases c <;> first | rfl | exact absurd rfl h

/-- The queue of a logger that is offline after one call with serialisable
data. -/
theorem logActivity_offline_queue (lg : Logger) (a : String) (d : JsValue)
    (l : Option String) (w : World) (hoff : lg.offline = true) (h : d.serialisable = true) :
    (lg.logActivity a d l w).2.1.offlineQueue =
      lg.offlineQueue ++ [Logger.entryOf a d l w] := by
  rw [logActivity_offline lg a d l w hoff h]

/-- C22, as the code has it: `logError(e)` with the context left out records
`context: {}`, whereas the call `logActivity('error', {message: e.message, stack:
e.stack, context: undefined}, 'ERROR')` records no context. -/
theorem logError_defaults_context :
    (offlineLogger.logError sampleError .undefined sampleWorld).2.1.offlineQueue.map
        (fun e => e.data) =
      [.obj [("message", .str "boom"), ("stack", .str "Error: boom at app.js:1:1"),
        ("context", .obj [])]] ∧
    (offlineLogger.logErrorAsStated sampleError .undefined sampleWorld).2.1.offlineQueue.map
        (fun e => e.data) =
      [.obj [("message", .str "boom"), ("stack", .str "Error: boom at app.js:1:1"),
        ("context", .undefined)]] ∧
    offlineLogger.logError sampleError .undefined sampleWorld ≠
      offlineLogger.logErrorAsStated sampleError .undefined sampleWorld := by
  have h1 : offlineLogger.logError sampleError .undefined sampleWorld =
      offlineLogger.logActivity "error"
        (.obj [("message", .str "boom"), ("stack", .str "Error: boom at app.js:1:1"),
          ("context", .obj [])]) (some "ERROR") sampleWorld := by
    simp [Logger.logError, JsValue.getProperty, sampleError, JsValue.ownProperties, getField,
      orEmptyObject]
  have h2 : offlineLogger.logErrorAsStated sampleError .undefined sampleWorld =
      offlineLogger.logActivity "error"
        (.obj [("message", .str "boom"), ("stack", .str "Error: boom at app.js:1:1"),
          ("context", .undefined)]) (some "ERROR") sampleWorld := by
    simp [Logger.logErrorAsStated, JsValue.getProperty, sampleError, JsValue.ownProperties,
      getField]
  have q1 := logActivity_offline_queue offlineLogger "error"
    (.obj [("message", .str "boom"), ("stack", .str "Error: boom at app.js:1:1"),
      ("context", .obj [])]) (some "ERROR") sampleWorld rfl rfl
  have q2 := logActivity_offline_queue offlineLogger "error"
    (.obj [("message", .str "boom"), ("stack", .str "Error: boom at app.js:1:1"),
      ("context", .undefined)]) (some "ERROR") sampleWorld rfl rfl
  have e1 : (offlineLogger.logError sampleError .undefined sampleWorld).2.1.offlineQueue.map
        (fun e => e.data) =
      [.obj [("message", .str "boom"), ("stack", .str "Error: boom at app.js:1:1"),
        ("context", .obj [])]] := by
    rw [h1, q1]; rfl
  have e2 : (offlineLogger.logErrorAsStated sampleError .undefined
        sampleWorld).2.1.offlineQueue.map (fun e => e.data) =
      [.obj [("message", .str "boom"), ("stack", .str "Error: boom at app.js:1:1"),
        ("context", .undefined)]] := by
    rw [h2, q2]; rfl
  refine ⟨e1, e2, ?_⟩
  intro h
  rw [h, e2] at e1
  simp at e1

/-- C22, amended: each wrapper is the `logActivity` call of the statement, where
the `context` of `logError` and of `logPerformance` is the argument, or `{}`
when the argument is `undefined` (left out); a `logActivity` call without
level uses `'INFO'` and one without data uses `{}`, through the method and
through the exported function alike. -/
theorem wrappers_are_logActivity_calls (lg : Logger) (w : World)
    (p e c m v action details event data d : JsValue) (a : String) (l : Option String) :
    lg.logPageView p w = lg.logActivity "page_view" (.obj [("page", p)]) (some "INFO") w ∧
    lg.logError e c w = lg.logErrorAsStated e (orEmptyObject c) w ∧
    (c ≠ .undefined → lg.logError e c w = lg.logErrorAsStated e c w) ∧
    lg.logPerformance m v c w = lg.logPerformanceAsStated m v (orEmptyObject c) w ∧
    (c ≠ .undefined → lg.logPerformance m v c w = lg.logPerformanceAsStated m v c w) ∧
    lg.logUserAction action details w =
      lg.logActivity "user_action" (.obj (spreadInto [("action", action)] details))
        (some "INFO") w ∧
    lg.logBusinessEvent event data w =
      lg.logActivity "business_event" (.obj (spreadInto [("event", event)] data))
        (some "INFO") w ∧
    lg.logActivity a d none w = lg.logActivity a d (some "INFO") w ∧
    lg.logActivity a .undefined l w = lg.logActivity a (.obj []) l w ∧
    logActivity lg a d l w = lg.logActivity a d l w ∧
    logPageView lg p w = lg.logPageView p w ∧
    logUserAction lg action details w = lg.logUserAction action details w ∧
    logError lg e c w = lg.logError e c w ∧
    logPerformance lg m v c w = lg.logPerformance m v c w ∧
    logBusinessEvent lg event data w = lg.logBusinessEvent event data w := by
  refine ⟨rfl, rfl, ?_, rfl, ?_, rfl, rfl, rfl, rfl, ?_, rfl, rfl, rfl, rfl, rfl⟩
  · intro hc
    have h : lg.logError e c w = lg.logErrorAsStated e (orEmptyObject c) w := rfl
    rw [h, orEmptyObject_of_ne c hc]
  · intro hc
    have h : lg.logPerformance m v c w = lg.logPerformanceAsStated m v (orEmptyObject c) w :=
      rfl
    rw [h, orEmptyObject_of_ne c hc]
  · cases d <;> cases l <;> rfl

/-! ## Lemmas: the debug accessors -/

/-- A stored text that is not an array (and not empty) makes the `try` block
of `saveToLocalStorage` throw. -/
theorem tryBlock_error_of_no_mirror (e : LogEntry) (ls : LocalStorage)
    (hm : ls.mirror = none) : ∃ error, Logger.saveToLocalStorage.tryBlock e ls = .error error := by
  unfold LocalStorage.mirror at hm
  unfold Logger.saveToLocalStorage.tryBlock LocalStorage.getItem
  cases hg : ls.getItemThrows with
  | some err => exact ⟨err, rfl⟩
  | none =>
    cases hl : ls.logs with
    | none => simp [hl, orEmptyArray] at hm
    | some t =>
      cases t with
      | empty => simp [hl, orEmptyArray] at hm
      | malformed => exact ⟨_, rfl⟩
      | json v =>
        cases v with
        | arr xs => simp [hl, orEmptyArray] at hm
        | null => exact ⟨_, rfl⟩
        | bool b => exact ⟨_, rfl⟩
        | num n => exact ⟨_, rfl⟩
        | str s => exact ⟨_, rfl⟩
        | obj fields => exact ⟨_, rfl⟩

/-- A successful `try` block: `getItem` returned an array, the entry could be
serialised, and the last 100 elements of the extended array are stored. -/
theorem tryBlock_ok_inv (e : LogEntry) (ls ls' : LocalStorage)
    (h : Logger.saveToLocalStorage.tryBlock e ls = .ok ls') :
    ls.getItemThrows = none ∧ e.data.serialisable = true ∧
      ∃ L, ls.mirror = some L ∧
        ls' = { ls with logs := some (.json (.arr (lastEntries 100 (L ++ [e.json])))) } := by
  have hg : ls.getItemThrows = none := by
    cases hg : ls.getItemThrows with
    | none => rfl
    | some err =>
      simp [Logger.saveToLocalStorage.tryBlock, LocalStorage.getItem, hg] at h
  cases hm : ls.mirror with
  | none =>
    obtain ⟨err, herr⟩ := tryBlock_error_of_no_mirror e ls hm
    rw [herr] at h
    cases h
  | some L =>
    cases hs : e.data.serialisable with
    | false =>
      obtain ⟨err, herr⟩ := tryBlock_stringify_throws e ls L hg hm hs
      rw [herr] at h
      cases h
    | true =>
      refine ⟨hg, rfl, L, rfl, ?_⟩
      rw [tryBlock_reaches_setItem e ls L hg hm hs] at h
      unfold LocalStorage.setItem at h
      split at h
      · cases h
      · simp only [Except.ok.injEq] at h
        exact h.symm

theorem getLocalLogs_of_mirror (w : World) (L : List Json)
    (hg : w.localStorage.getItemThrows = none) (hm : w.localStorage.mirror = some L) :
    Logger.getLocalLogs w = (.arr L, w) := by
  simp only [Logger.getLocalLogs, LocalStorage.getItem, hg, orEmptyArray_of_mirror hm,
    JSON.parse]

/-- After a sequence of successful `saveToLocalStorage` calls the mirror holds
the last 100 of the elements it held followed by the entries of the calls. -/
theorem savesSucceed_mirror : ∀ (es : List LogEntry) (w : World) (L : List Json),
    Logger.savesSucceed es w = true → w.localStorage.mirror = some L →
    (Logger.saveAllToLocalStorage es w).localStorage.getItemThrows =
      w.localStorage.getItemThrows ∧
    (Logger.saveAllToLocalStorage es w).localStorage.mirror =
      some (if es.isEmpty then L else lastEntries 100 (L ++ es.map LogEntry.json))
  | [], w, L, _, hm => ⟨rfl, by simpa [Logger.saveAllToLocalStorage] using hm⟩
  | e :: es, w, L, hs, hm => by
    simp only [Logger.savesSucceed, Bool.and_eq_true] at hs
    obtain ⟨hfirst, hrest⟩ := hs
    cases ht : Logger.saveToLocalStorage.tryBlock e w.localStorage with
    | error err => simp [ht] at hfirst
    | ok ls =>
      obtain ⟨hg, _, L', hL', hls⟩ := tryBlock_ok_inv e w.localStorage ls ht
      have hLL : L' = L := by
        rw [hm] at hL'
        exact (Option.some.inj hL').symm
      subst hLL
      have he := saveToLocalStorage_of_ok e w ls ht
      have hm1 : (Logger.saveToLocalStorage e w).localStorage.mirror =
          some (lastEntries 100 (L' ++ [e.json])) := by
        rw [he, hls]; exact mirror_of_logs_json_arr _ _ rfl
      have hg1 : (Logger.saveToLocalStorage e w).localStorage.getItemThrows =
          w.localStorage.getItemThrows := by
        rw [he, hls]
      obtain ⟨h1, h2⟩ := savesSucceed_mirror es (Logger.saveToLocalStorage e w) _ hrest hm1
      refine ⟨by simp only [Logger.saveAllToLocalStorage]; rw [h1, hg1], ?_⟩
      simp only [Logger.saveAllToLocalStorage, h2]
      cases es with
      | nil => simp
      | cons x xs =>
        simp only [List.isEmpty_cons, Bool.false_eq_true, if_false]
        rw [lastEntries_append_lastEntries]
        simp

theorem savesSucceed_cons_inv (e : LogEntry) (es : List LogEntry) (w : World)
    (h : Logger.savesSucceed (e :: es) w = true) :
    w.localStorage.getItemThrows = none ∧ ∃ L, w.localStorage.mirror = some L := by
  simp only [Logger.savesSucceed, Bool.and_eq_true] at h
  cases ht : Logger.saveToLocalStorage.tryBlock e w.localStorage with
  | error err => simp [ht] at h
  | ok ls =>
    obtain ⟨hg, _, L, hL, _⟩ := tryBlock_ok_inv e w.localStorage ls ht
    exact ⟨hg, L, hL⟩

theorem getLocalLogs_clearLocalLogs (w : World) :
    (Logger.getLocalLogs (Logger.clearLocalLogs w)).1 = .arr [] := by
  unfold Logger.clearLocalLogs LocalStorage.removeItem
  cases hg : w.localStorage.getItemThrows with
  | some err =>
    simp only [Logger.getLocalLogs, LocalStorage.getItem, World.consoleCall, hg]
  | none =>
    simp only [Logger.getLocalLogs, LocalStorage.getItem, World.consoleCall, hg, orEmptyArray,
      JSON.parse]

/-- C23: `getLocalLogs` returns the array the mirror holds; after a sequence of
successful `saveToLocalStorage` calls this is the last 100 of the elements held
before followed by the entries of the calls, each as the JSON object of its
fields, in call order (all of them when the mirror was empty and at most 100
calls were made).  It returns `[]`, without throwing, when nothing is stored,
when the stored text is empty or is not valid JSON, and when `getItem` throws;
and it returns `[]` after `clearLocalLogs`. -/
theorem getLocalLogs_round_trip (e : LogEntry) (es : List LogEntry) (w : World) :
    (∀ L, w.localStorage.getItemThrows = none → w.localStorage.mirror = some L →
      Logger.getLocalLogs w = (.arr L, w)) ∧
    (Logger.savesSucceed (e :: es) w = true →
      ∃ L, w.localStorage.mirror = some L ∧
        Logger.getLocalLogs (Logger.saveAllToLocalStorage (e :: es) w) =
          (.arr (lastEntries 100 (L ++ (e :: es).map LogEntry.json)),
            Logger.saveAllToLocalStorage (e :: es) w)) ∧
    (Logger.savesSucceed (e :: es) w = true → w.localStorage.mirror = some [] →
      (e :: es).length ≤ 100 →
      (Logger.getLocalLogs (Logger.saveAllToLocalStorage (e :: es) w)).1 =
        .arr ((e :: es).map LogEntry.json)) ∧
    (w.localStorage.logs = none → (Logger.getLocalLogs w).1 = .arr []) ∧
    (w.localStorage.logs = some .empty → (Logger.getLocalLogs w).1 = .arr []) ∧
    (w.localStorage.logs = some .malformed → (Logger.getLocalLogs w).1 = .arr []) ∧
    (w.localStorage.getItemThrows ≠ none → (Logger.getLocalLogs w).1 = .arr []) ∧
    (Logger.getLocalLogs (Logger.clearLocalLogs w)).1 = .arr [] := by
  have hsaved : Logger.savesSucceed (e :: es) w = true →
      ∃ L, w.localStorage.mirror = some L ∧
        Logger.getLocalLogs (Logger.saveAllToLocalStorage (e :: es) w) =
          (.arr (lastEntries 100 (L ++ (e :: es).map LogEntry.json)),
            Logger.saveAllToLocalStorage (e :: es) w) := by
    intro hs
    obtain ⟨hg, L, hL⟩ := savesSucceed_cons_inv e es w hs
    obtain ⟨h1, h2⟩ := savesSucceed_mirror (e :: es) w L hs hL
    refine ⟨L, hL, ?_⟩
    apply getLocalLogs_of_mirror _ _ (by rw [h1, hg])
    rw [h2]
    rfl
  refine ⟨fun L hg hm => getLocalLogs_of_mirror w L hg hm, hsaved, ?_, ?_, ?_, ?_, ?_,
    getLocalLogs_clearLocalLogs w⟩
  · intro hs hm hlen
    obtain ⟨L, hL, heq⟩ := hsaved hs
    rw [hm, Option.some.injEq] at hL
    subst hL
    rw [heq]
    show Json.arr (lastEntries 100 ([] ++ (e :: es).map LogEntry.json)) = _
    rw [List.nil_append, lastEntries_of_length_le]
    simpa using hlen
  · intro h
    cases hg : w.localStorage.getItemThrows with
    | some err => simp only [Logger.getLocalLogs, LocalStorage.getItem, hg]
    | none => simp only [Logger.getLocalLogs, LocalStorage.getItem, hg, h, orEmptyArray, JSON.parse]
  · intro h
    cases hg : w.localStorage.getItemThrows with
    | some err => simp only [Logger.getLocalLogs, LocalStorage.getItem, hg]
    | none => simp only [Logger.getLocalLogs, LocalStorage.getItem, hg, h, orEmptyArray, JSON.parse]
  · intro h
    cases hg : w.localStorage.getItemThrows with
    | some err => simp only [Logger.getLocalLogs, LocalStorage.getItem, hg]
    | none => simp only [Logger.getLocalLogs, LocalStorage.getItem, hg, h, orEmptyArray, JSON.parse]
  · intro h
    cases hg : w.localStorage.getItemThrows with
    | some err => simp only [Logger.getLocalLogs, LocalStorage.getItem, hg]
    | none => exact absurd hg h

/-! ## Lemmas: `logError` without an error object -/

theorem getProperty_nullish (error : JsValue) (key : String)
    (h : error = .null ∨ error = .undefined) :
    ∃ message, error.getProperty key = .error (.typeError message) := by
  rcases h with h | h <;> subst h <;> exact ⟨_, rfl⟩

/-- C24: `logError` called with `null` or `undefined` as the error throws a
`TypeError` at the read of `error.message`, before `logActivity` is entered: the
logger (its queue included) and the world (console, sink, local storage,
session storage) are as they were.  The listener of the window's `error` event
does so when `event.error` is `null` or `undefined`. -/
theorem logError_throws_without_error_object (lg : Logger) (error context : JsValue)
    (event : ErrorEvent) (w : World) (h : error = .null ∨ error = .undefined)
    (hev : event.error = error) :
    (∃ message, lg.logError error context w = (.error (.typeError message), lg, w)) ∧
    (lg.logError error context w).2.1.offlineQueue = lg.offlineQueue ∧
    (lg.logError error context w).2.2.console = w.console ∧
    (lg.logError error context w).2.2.addDocCalls = w.addDocCalls ∧
    (lg.logError error context w).2.2.documents = w.documents ∧
    (lg.logError error context w).2.2.localStorage.logs = w.localStorage.logs ∧
    (lg.logError error context w).2.2.sessionItem = w.sessionItem ∧
    (∃ message, lg.onWindowError event w = (.error (.typeError message), lg, w)) := by
  obtain ⟨message, hm⟩ := getProperty_nullish error "message" h
  have hcall : lg.logError error context w = (.error (.typeError message), lg, w) := by
    simp only [Logger.logError, hm]
  have hwin : lg.onWindowError event w = (.error (.typeError message), lg, w) := by
    simp only [Logger.onWindowError, Logger.logError, hev, hm]
  rw [hcall]
  exact ⟨⟨message, rfl⟩, rfl, rfl, rfl, rfl, rfl, rfl, ⟨message, hwin⟩⟩

/-- The event of an error raised by a script of another origin: no error object. -/
theorem logError_throws_without_error_object_witness :
    (JsValue.null = .null ∨ JsValue.null = .undefined) ∧
    (ErrorEvent.mk .null "app.js" 1 1).error = .null ∧
    (∃ message, offlineLogger.logError .null (.obj []) sampleWorld =
      (.error (.typeError message), offlineLogger, sampleWorld)) ∧
    (offlineLogger.logError .null (.obj []) sampleWorld).2.1.offlineQueue =
      offlineLogger.offlineQueue ∧
    (offlineLogger.logError .null (.obj []) sampleWorld).2.2.console = sampleWorld.console ∧
    (offlineLogger.logError .null (.obj []) sampleWorld).2.2.addDocCalls =
      sampleWorld.addDocCalls ∧
    (offlineLogger.logError .null (.obj []) sampleWorld).2.2.documents =
      sampleWorld.documents ∧
    (offlineLogger.logError .null (.obj []) sampleWorld).2.2.localStorage.logs =
      sampleWorld.localStorage.logs ∧
    (offlineLogger.logError .null (.obj []) sampleWorld).2.2.sessionItem =
      sampleWorld.sessionItem ∧
    (∃ message, offlineLogger.onWindowError (ErrorEvent.mk .null "app.js" 1 1) sampleWorld =
      (.error (.typeError message), offlineLogger, sampleWorld)) :=
  ⟨Or.inl rfl, rfl,
    logError_throws_without_error_object offlineLogger .null (.obj [])
      (ErrorEvent.mk .null "app.js" 1 1) sampleWorld (Or.inl rfl) rfl⟩

/-! ## Lemmas: the queue between two flush passes -/

/-- One call against any sink: the queue is kept and grows by the entry of the
call or not at all, and every sink call made carries that entry. -/
theorem logActivity_queue_and_sink (lg : Logger) (a : String) (d : JsValue)
    (l : Option String) (w : World) :
    (∃ added, (lg.logActivity a d l w).2.1 =
        { lg with offlineQueue := lg.offlineQueue ++ added } ∧
      (added = [] ∨ added = [Logger.entryOf a d l w])) ∧
    ∃ m, (lg.logActivity a d l w).2.2.addDocCalls =
      w.addDocCalls ++ List.replicate m (Logger.entryOf a d l w).addDocCall := by
  refine ⟨?_, logActivity_addDocCalls lg a d l w⟩
  rcases logActivity_cases lg a d l w with ⟨h1, _⟩ | ⟨_, _, h1, _⟩
  · exact ⟨[], by rw [h1]; simp, Or.inl rfl⟩
  · exact ⟨[Logger.entryOf a d l w], h1, Or.inr rfl⟩

/-- A sequence of events none of which runs a flush pass: the queue is kept
and grows by at most one entry per call, and every sink call made carries the
entry of one of the calls of the sequence. -/
theorem run_without_flush : ∀ (evs : List Event) (lg : Logger) (w : World),
    (∀ ev, ev ∈ evs → ev.flushes = false) →
    ∃ (added : List LogEntry) (cs : List (String × ActivityLogDoc)),
      (lg.run w evs).1.offlineQueue = lg.offlineQueue ++ added ∧
      added.length ≤ countLogs evs ∧
      (lg.run w evs).2.addDocCalls = w.addDocCalls ++ cs ∧
      ∀ x, x ∈ cs → ∃ (c : Call) (w1 : World), c ∈ loggedCalls evs ∧
        x = (Logger.entryOf c.action c.data c.level w1).addDocCall
  | [], lg, w, _ => ⟨[], [], by simp [Logger.run], by simp [countLogs], by simp [Logger.run],
      by simp⟩
  | ev :: evs, lg, w, h => by
    have hev : ev.flushes = false := h ev (List.mem_cons_self ev evs)
    have hrest : ∀ ev1, ev1 ∈ evs → ev1.flushes = false :=
      fun ev1 h1 => h ev1 (List.mem_cons_of_mem ev h1)
    obtain ⟨added, cs, h1, h2, h3, h4⟩ :=
      run_without_flush evs (lg.step w ev).1 (lg.step w ev).2 hrest
    cases ev with
    | online => simp [Event.flushes] at hev
    | flush => simp [Event.flushes] at hev
    | offline =>
      refine ⟨added, cs, ?_, ?_, ?_, ?_⟩
      · show (Logger.run (lg.step w .offline).1 (lg.step w .offline).2 evs).1.offlineQueue = _
        rw [h1]; rfl
      · simpa [countLogs] using h2
      · show (Logger.run (lg.step w .offline).1 (lg.step w .offline).2 evs).2.addDocCalls = _
        rw [h3]; rfl
      · intro x hx
        obtain ⟨c, w1, hc, hxc⟩ := h4 x hx
        exact ⟨c, w1, by simpa [loggedCalls] using hc, hxc⟩
    | log c =>
      obtain ⟨⟨first, hq, hfirst⟩, m, hm⟩ :=
        logActivity_queue_and_sink lg c.action c.data c.level w
      have hq1 : (lg.step w (.log c)).1.offlineQueue = lg.offlineQueue ++ first := by
        show (lg.logActivity c.action c.data c.level w).2.1.offlineQueue = _
        rw [hq]
      have hm1 : (lg.step w (.log c)).2.addDocCalls = w.addDocCalls ++
          List.replicate m (Logger.entryOf c.action c.data c.level w).addDocCall := hm
      refine ⟨first ++ added,
        List.replicate m (Logger.entryOf c.action c.data c.level w).addDocCall ++ cs,
        ?_, ?_, ?_, ?_⟩
      · show (Logger.run (lg.step w (.log c)).1 (lg.step w (.log c)).2 evs).1.offlineQueue = _
        rw [h1, hq1, List.append_assoc]
      · have hlen : first.length ≤ 1 := by
          rcases hfirst with hf | hf <;> simp [hf]
        simp only [List.length_append, countLogs]
        omega
      · show (Logger.run (lg.step w (.log c)).1 (lg.step w (.log c)).2 evs).2.addDocCalls = _
        rw [h3, hm1, List.append_assoc]
      · intro x hx
        rcases List.mem_append.mp hx with hx | hx
        · exact ⟨c, w, by simp [loggedCalls], (List.eq_of_mem_replicate hx)⟩
        · obtain ⟨c1, w1, hc, hxc⟩ := h4 x hx
          exact ⟨c1, w1, by simp [loggedCalls, hc], hxc⟩

/-- C25: a `logActivity` call keeps the queue as the beginning of the resulting
queue, which has at most one entry more (the entry of the call), and every
sink call it makes carries its own entry: it delivers no queued entry.  The
`online` event is what runs `flushOfflineQueue`.  Through any sequence of
`logActivity` calls and `offline` events (no flush pass), the queue only grows,
by at most one entry per call, and every sink call carries the entry of one of
these calls: an entry queued before is still queued and has not been retried. -/
theorem queue_shrinks_only_in_flush (lg : Logger) (w : World) (a : String) (d : JsValue)
    (l : Option String) (evs : List Event) (h : ∀ ev, ev ∈ evs → ev.flushes = false) :
    (∃ added, (lg.logActivity a d l w).2.1 =
        { lg with offlineQueue := lg.offlineQueue ++ added } ∧
      (added = [] ∨ added = [Logger.entryOf a d l w])) ∧
    (∃ m, (lg.logActivity a d l w).2.2.addDocCalls =
      w.addDocCalls ++ List.replicate m (Logger.entryOf a d l w).addDocCall) ∧
    lg.step w .online = Logger.flushOfflineQueue { lg with offline := false } w ∧
    ∃ (added : List LogEntry) (cs : List (String × ActivityLogDoc)),
      (lg.run w evs).1.offlineQueue = lg.offlineQueue ++ added ∧
      added.length ≤ countLogs evs ∧
      (lg.run w evs).2.addDocCalls = w.addDocCalls ++ cs ∧
      ∀ x, x ∈ cs → ∃ (c : Call) (w1 : World), c ∈ loggedCalls evs ∧
        x = (Logger.entryOf c.action c.data c.level w1).addDocCall :=
  ⟨(logActivity_queue_and_sink lg a d l w).1, (logActivity_queue_and_sink lg a d l w).2, rfl,
    run_without_flush evs lg w h⟩

/-- A delivery failure while online, followed by an `offline` event and another
call. -/
theorem queue_shrinks_only_in_flush_witness :
    (∀ ev, ev ∈ [Event.log ⟨"post_created", postData, none⟩, Event.offline,
        Event.log ⟨"user_login", sampleData, none⟩] → ev.flushes = false) ∧
    (∃ added, ((Logger.new unreachableSinkWorld).logActivity "post_created" postData none
          unreachableSinkWorld).2.1 =
        { Logger.new unreachableSinkWorld with
          offlineQueue := (Logger.new unreachableSinkWorld).offlineQueue ++ added } ∧
      (added = [] ∨
        added = [Logger.entryOf "post_created" postData none unreachableSinkWorld])) ∧
    (∃ m, ((Logger.new unreachableSinkWorld).logActivity "post_created" postData none
          unreachableSinkWorld).2.2.addDocCalls =
      unreachableSinkWorld.addDocCalls ++ List.replicate m
        (Logger.entryOf "post_created" postData none unreachableSinkWorld).addDocCall) ∧
    (Logger.new unreachableSinkWorld).step unreachableSinkWorld .online =
      Logger.flushOfflineQueue { Logger.new unreachableSinkWorld with offline := false }
        unreachableSinkWorld ∧
    ∃ (added : List LogEntry) (cs : List (String × ActivityLogDoc)),
      ((Logger.new unreachableSinkWorld).run unreachableSinkWorld
        [Event.log ⟨"post_created", postData, none⟩, Event.offline,
          Event.log ⟨"user_login", sampleData, none⟩]).1.offlineQueue =
        (Logger.new unreachableSinkWorld).offlineQueue ++ added ∧
      added.length ≤ countLogs [Event.log ⟨"post_created", postData, none⟩, Event.offline,
        Event.log ⟨"user_login", sampleData, none⟩] ∧
      ((Logger.new unreachableSinkWorld).run unreachableSinkWorld
        [Event.log ⟨"post_created", postData, none⟩, Event.offline,
          Event.log ⟨"user_login", sampleData, none⟩]).2.addDocCalls =
        unreachableSinkWorld.addDocCalls ++ cs ∧
      ∀ x, x ∈ cs → ∃ (c : Call) (w1 : World),
        c ∈ loggedCalls [Event.log ⟨"post_created", postData, none⟩, Event.offline,
          Event.log ⟨"user_login", sampleData, none⟩] ∧
        x = (Logger.entryOf c.action c.data c.level w1).addDocCall :=
  ⟨by
      intro ev hev
      simp only [List.mem_cons, List.mem_singleton, List.not_mem_nil, or_false] at hev
      rcases hev with rfl | rfl | rfl <;> rfl,
    queue_shrinks_only_in_flush (Logger.new unreachableSinkWorld) unreachableSinkWorld
      "post_created" postData none
      [Event.log ⟨"post_created", postData, none⟩, Event.offline,
        Event.log ⟨"user_login", sampleData, none⟩]
      (by
        intro ev hev
        simp only [List.mem_cons, List.mem_singleton, List.not_mem_nil, or_false] at hev
        rcases hev with rfl | rfl | rfl <;> rfl)⟩

/-! ## Lemmas: the log level -/

/-- Delivery reads `maxRetries` and `retryDelay` only. -/
theorem saveToFirestore_congr (lg lg1 : Logger) (e : LogEntry)
    (hm : lg1.maxRetries = lg.maxRetries) (hr : lg1.retryDelay = lg.retryDelay) :
    ∀ (n retries : Nat) (w : World), lg.maxRetries - retries = n →
      lg1.saveToFirestore e retries w = lg.saveToFirestore e retries w := by
  intro n
  induction n with
  | zero =>
    intro retries w hn
    have hlt : ¬ retries < lg.maxRetries := by omega
    rw [saveToFirestore_unfold, saveToFirestore_unfold lg, hm]
    simp only [hlt, if_false]
  | succ n ih =>
    intro retries w hn
    rw [saveToFirestore_unfold, saveToFirestore_unfold lg, hm, hr]
    cases h : w.sinkRejects w.addDocCalls.length e.doc with
    | none => rfl
    | some err =>
      by_cases hlt : retries < lg.maxRetries
      · simp only [hlt, if_true]
        exact ih (retries + 1) _ (by omega)
      · simp only [hlt, if_false]

/-- A call made by a logger whose `logLevel` was replaced does what the call of
the logger itself does. -/
theorem logActivity_logLevel (lg : Logger) (x a : String) (d : JsValue) (l : Option String)
    (w : World) :
    Logger.logActivity { lg with logLevel := x } a d l w =
      ((lg.logActivity a d l w).1, { (lg.logActivity a d l w).2.1 with logLevel := x },
        (lg.logActivity a d l w).2.2) := by
  obtain ⟨ll, mr, rd, off, q⟩ := lg
  have hsf : ∀ w2 : World,
      Logger.saveToFirestore ⟨x, mr, rd, off, q⟩ (Logger.entryOf a d l w) 0 w2 =
        Logger.saveToFirestore ⟨ll, mr, rd, off, q⟩ (Logger.entryOf a d l w) 0 w2 :=
    fun w2 => saveToFirestore_congr ⟨ll, mr, rd, off, q⟩ ⟨x, mr, rd, off, q⟩
      (Logger.entryOf a d l w) rfl rfl mr 0 w2 rfl
  rw [logActivity_eq, logActivity_eq ⟨ll, mr, rd, off, q⟩]
  cases hlog : Logger.logToConsole (Logger.buildEntry a d l w).1
      (Logger.buildEntry a d l w).2 with
  | mk outcome w2 =>
    cases outcome with
    | error err => rfl
    | ok u =>
      cases off with
      | true => rfl
      | false =>
        simp only [Bool.false_eq_true, if_false]
        rw [hsf w2]
        cases hsave : Logger.saveToFirestore ⟨ll, mr, rd, false, q⟩
            (Logger.entryOf a d l w) 0 w2 with
        | mk out w3 =>
          cases out with
          | ok u => rfl
          | error err => rfl

/-- A call whose data can be serialised returns. -/
theorem logActivity_ok_of_serialisable (lg : Logger) (a : String) (d : JsValue)
    (l : Option String) (w : World) (hd : d.serialisable = true) :
    (lg.logActivity a d l w).1 = .ok () := by
  rcases Bool.eq_false_or_eq_true lg.offline with hoff | hoff
  · rw [logActivity_offline lg a d l w hoff hd]
  · obtain ⟨m, ds, c, _, _, hcase⟩ := saveToFirestore_outcome lg (Logger.entryOf a d l w)
      lg.maxRetries 0 (Logger.tracedWorld a d l w) rfl
    rcases hcase with hok | ⟨error, herr⟩
    · rw [logActivity_delivered lg a d l w _ hoff hd hok]
    · rw [logActivity_undelivered lg a d l w _ error hoff hd herr]

/-- C26: `setLogLevel` replaces the field `logLevel` and leaves the other fields
of the logger alone (it writes one line to the console).  A `logActivity` call
of a logger whose `logLevel` is replaced by any value has the outcome of the
call of the logger itself, leaves the same world (console trace, sink calls,
documents, local storage) and the same logger but for `logLevel`.  The level
of a call is copied to the entry whatever string it is, and the call returns
whenever its data can be serialised. -/
theorem logLevel_has_no_effect (lg : Logger) (level x a : String) (d : JsValue)
    (l : Option String) (w : World) :
    lg.setLogLevel level w =
      ({ lg with logLevel := level },
        w.consoleCall .info [.text ("Log level set to: " ++ level)]) ∧
    (Logger.logActivity { lg with logLevel := x } a d l w).1 = (lg.logActivity a d l w).1 ∧
    (Logger.logActivity { lg with logLevel := x } a d l w).2.2 =
      (lg.logActivity a d l w).2.2 ∧
    (Logger.logActivity { lg with logLevel := x } a d l w).2.1 =
      { (lg.logActivity a d l w).2.1 with logLevel := x } ∧
    Logger.logActivity (lg.setLogLevel "ERROR" w).1 a d (some "DEBUG")
        (lg.setLogLevel "ERROR" w).2 =
      ((lg.logActivity a d (some "DEBUG") (lg.setLogLevel "ERROR" w).2).1,
        { (lg.logActivity a d (some "DEBUG") (lg.setLogLevel "ERROR" w).2).2.1 with
          logLevel := "ERROR" },
        (lg.logActivity a d (some "DEBUG") (lg.setLogLevel "ERROR" w).2).2.2) ∧
    (Logger.entryOf a d (some level) w).level = level ∧
    (d.serialisable = true → (lg.logActivity a d (some level) w).1 = .ok ()) := by
  refine ⟨rfl, ?_, ?_, ?_, logActivity_logLevel lg "ERROR" a d (some "DEBUG") _, rfl,
    logActivity_ok_of_serialisable lg a d (some level) w⟩
  · rw [logActivity_logLevel]
  · rw [logActivity_logLevel]
  · rw [logActivity_logLevel]

/-! ## Lemmas: a stored text that is not an array -/

theorem mirror_eq_none_of_not_array (ls : LocalStorage)
    (h : ls.logs = some .malformed ∨
      ∃ v, ls.logs = some (.json v) ∧ ∀ xs, v ≠ .arr xs) : ls.mirror = none := by
  unfold LocalStorage.mirror
  rcases h with h | ⟨v, h, hv⟩
  · rw [h]; rfl
  · rw [h]
    cases v with
    | arr xs => exact absurd rfl (hv xs)
    | null => rfl
    | bool b => rfl
    | num n => rfl
    | str s => rfl
    | obj fields => rfl

theorem saveToLocalStorage_of_no_mirror (e : LogEntry) (w : World)
    (hm : w.localStorage.mirror = none) :
    ∃ error, Logger.saveToLocalStorage e w =
      w.consoleCall .error [.text "Failed to save log to localStorage:", .caught error] := by
  obtain ⟨error, herr⟩ := tryBlock_error_of_no_mirror e w.localStorage hm
  exact ⟨error, saveToLocalStorage_of_error e w error herr⟩

theorem saveToLocalStorage_localStorage_of_no_mirror (e : LogEntry) (w : World)
    (hm : w.localStorage.mirror = none) :
    (Logger.saveToLocalStorage e w).localStorage = w.localStorage := by
  obtain ⟨error, herr⟩ := saveToLocalStorage_of_no_mirror e w hm
  rw [herr]
  rfl

theorem saveAllToLocalStorage_of_no_mirror : ∀ (es : List LogEntry) (w : World),
    w.localStorage.mirror = none →
    (Logger.saveAllToLocalStorage es w).localStorage = w.localStorage
  | [], _, _ => rfl
  | e :: es, w, hm => by
    have h1 := saveToLocalStorage_localStorage_of_no_mirror e w hm
    show (Logger.saveAllToLocalStorage es (Logger.saveToLocalStorage e w)).localStorage = _
    rw [saveAllToLocalStorage_of_no_mirror es _ (by rw [h1]; exact hm), h1]

theorem flushOfflineQueue_localStorage (lg : Logger) (w : World) :
    (lg.flushOfflineQueue w).2.localStorage = w.localStorage := by
  obtain ⟨failed, delivered, cs, ds, c, cons, _, _, _, _, _, _, h⟩ :=
    flushOfflineQueue_general lg w
  rw [h]

theorem step_localStorage_of_no_mirror (lg : Logger) (w : World) (ev : Event)
    (hm : w.localStorage.mirror = none) : (lg.step w ev).2.localStorage = w.localStorage := by
  cases ev with
  | online => exact flushOfflineQueue_localStorage _ w
  | flush => exact flushOfflineQueue_localStorage _ w
  | offline => rfl
  | log c =>
    show (lg.logActivity c.action c.data c.level w).2.2.localStorage = w.localStorage
    rcases logActivity_localStorage lg c.action c.data c.level w with h | ⟨w3, h3, h⟩
    · exact h
    · rw [h, saveToLocalStorage_localStorage_of_no_mirror _ w3 (by rw [h3]; exact hm), h3]

theorem run_localStorage_of_no_mirror : ∀ (evs : List Event) (lg : Logger) (w : World),
    w.localStorage.mirror = none → (lg.run w evs).2.localStorage = w.localStorage
  | [], _, _, _ => rfl
  | ev :: evs, lg, w, hm => by
    have h1 := step_localStorage_of_no_mirror lg w ev hm
    show (Logger.run (lg.step w ev).1 (lg.step w ev).2 evs).2.localStorage = w.localStorage
    rw [run_localStorage_of_no_mirror evs _ _ (by rw [h1]; exact hm), h1]

theorem clearLocalLogs_localStorage (w : World) (hg : w.localStorage.getItemThrows = none) :
    (Logger.clearLocalLogs w).localStorage = { w.localStorage with logs := none } := by
  simp only [Logger.clearLocalLogs, LocalStorage.removeItem, hg, World.consoleCall]

/-- C27: when the text stored under `'startupbridge_logs'` is not valid JSON, or
is JSON that is not an array, `saveToLocalStorage` throws inside its `try` block
and only writes the error to the console: local storage is as it was, the entry
is not mirrored.  This stays so through every later `saveToLocalStorage` call
and through every sequence of connectivity signals, `logActivity` calls and
flush passes.  After `clearLocalLogs`, with a storage that works, the next
serialisable entry is mirrored. -/
theorem non_array_mirror_is_never_reset (e : LogEntry) (es : List LogEntry) (lg : Logger)
    (evs : List Event) (w : World)
    (h : w.localStorage.logs = some .malformed ∨
      ∃ v, w.localStorage.logs = some (.json v) ∧ ∀ xs, v ≠ .arr xs) :
    (∃ error, Logger.saveToLocalStorage e w =
      w.consoleCall .error [.text "Failed to save log to localStorage:", .caught error]) ∧
    (Logger.saveToLocalStorage e w).localStorage = w.localStorage ∧
    (Logger.saveAllToLocalStorage es w).localStorage = w.localStorage ∧
    (lg.run w evs).2.localStorage = w.localStorage ∧
    (w.localStorage.working → e.data.serialisable = true →
      (Logger.saveToLocalStorage e (Logger.clearLocalLogs w)).localStorage.logs =
        some (.json (.arr [e.json]))) := by
  have hm := mirror_eq_none_of_not_array w.localStorage h
  refine ⟨saveToLocalStorage_of_no_mirror e w hm,
    saveToLocalStorage_localStorage_of_no_mirror e w hm,
    saveAllToLocalStorage_of_no_mirror es w hm, run_localStorage_of_no_mirror evs lg w hm, ?_⟩
  intro hw hs
  have hc := clearLocalLogs_localStorage w hw.1
  have hw1 : (Logger.clearLocalLogs w).localStorage.working := by
    rw [hc]; exact hw
  have hm1 : (Logger.clearLocalLogs w).localStorage.mirror = some [] := by
    rw [hc]; rfl
  rw [saveToLocalStorage_mirror e (Logger.clearLocalLogs w) [] hw1 hm1 hs]
  rfl

/-- The text `{}` is stored: an object, not an array. -/
theorem non_array_mirror_is_never_reset_witness :
    (objectStoredWorld.localStorage.logs = some .malformed ∨
      ∃ v, objectStoredWorld.localStorage.logs = some (.json v) ∧ ∀ xs, v ≠ .arr xs) ∧
    (∃ error, Logger.saveToLocalStorage sampleEntry objectStoredWorld =
      objectStoredWorld.consoleCall .error
        [.text "Failed to save log to localStorage:", .caught error]) ∧
    (Logger.saveToLocalStorage sampleEntry objectStoredWorld).localStorage =
      objectStoredWorld.localStorage ∧
    (Logger.saveAllToLocalStorage [otherEntry, sampleEntry] objectStoredWorld).localStorage =
      objectStoredWorld.localStorage ∧
    (offlineLogger.run objectStoredWorld
      [.log ⟨"post_created", postData, none⟩, .online]).2.localStorage =
      objectStoredWorld.localStorage ∧
    (objectStoredWorld.localStorage.working → sampleEntry.data.serialisable = true →
      (Logger.saveToLocalStorage sampleEntry
        (Logger.clearLocalLogs objectStoredWorld)).localStorage.logs =
        some (.json (.arr [sampleEntry.json]))) :=
  ⟨Or.inr ⟨.obj [], rfl, fun xs hxs => by cases hxs⟩,
    non_array_mirror_is_never_reset sampleEntry [otherEntry, sampleEntry] offlineLogger
      [.log ⟨"post_created", postData, none⟩, .online] objectStoredWorld
      (Or.inr ⟨.obj [], rfl, fun xs hxs => by cases hxs⟩)⟩

/-! ## Lemmas: object spread -/

theorem getField_setField (key k : String) (v : JsValue) :
    ∀ fields : List (String × JsValue),
      getField (setField fields k v) key = if k = key then some v else getField fields key
  | [] => by simp [setField, getField]
  | (k1, v1) :: rest => by
    have ih := getField_setField key k v rest
    by_cases h1 : k1 = k
    · subst h1
      by_cases h2 : k1 = key <;> simp [setField, getField, h2]
    · by_cases h2 : k1 = key
      · subst h2
        have h3 : ¬ k = k1 := fun h => h1 h.symm
        simp [setField, getField, h1, h3]
      · simp [setField, getField, h1, h2, ih]

theorem getField_eq_none (key : String) :
    ∀ fields : List (String × JsValue), key ∉ fields.map Prod.fst → getField fields key = none
  | [], _ => rfl
  | (k1, v1) :: rest, h => by
    simp only [List.map_cons, List.mem_cons, not_or] at h
    have h1 : ¬ k1 = key := fun hk => h.1 hk.symm
    simp [getField, h1, getField_eq_none key rest h.2]

/-- A spread of properties with distinct keys: a key of the source takes the
value of the source, any other key keeps the value written before. -/
theorem getField_foldl_setField (key : String) :
    ∀ (props base : List (String × JsValue)), (props.map Prod.fst).Nodup →
      getField (props.foldl (fun acc kv => setField acc kv.1 kv.2) base) key =
        match getField props key with
        | some v => some v
        | none => getField base key
  | [], base, _ => rfl
  | (k, v) :: rest, base, h => by
    simp only [List.map_cons, List.nodup_cons] at h
    rw [List.foldl_cons, getField_foldl_setField key rest _ h.2, getField_setField]
    by_cases hk : k = key
    · subst hk
      simp [getField, getField_eq_none k rest h.1]
    · simp [getField, hk]

theorem getField_spreadInto (key : String) (base : List (String × JsValue)) (source : JsValue)
    (h : (source.ownProperties.map Prod.fst).Nodup) :
    getField (spreadInto base source) key =
      match getField source.ownProperties key with
      | some v => some v
      | none => getField base key :=
  getField_foldl_setField key source.ownProperties base h

/-- C28: `logUserAction(action, details)` is the call `logActivity('user_action',
{action, ...details})`, and `logBusinessEvent(event, data)` the call
`logActivity('business_event', {event, ...data})`, for a payload whose keys are
distinct, as those of an object are.  The entry's `action` is the fixed label;
its `data.action` is `details.action` when `details` has the key `action`, and
the argument `action` otherwise, and every other key of `details` is recorded
with its value; likewise for `data.event`. -/
theorem spread_overrides_named_argument (lg : Logger) (action details event data : JsValue)
    (w : World) (key : String)
    (hdetails : (details.ownProperties.map Prod.fst).Nodup)
    (hdata : (data.ownProperties.map Prod.fst).Nodup) :
    lg.logUserAction action details w =
      lg.logActivity "user_action" (.obj (spreadInto [("action", action)] details)) none w ∧
    (Logger.entryOf "user_action" (.obj (spreadInto [("action", action)] details)) none
      w).action = "user_action" ∧
    (Logger.entryOf "user_action" (.obj (spreadInto [("action", action)] details)) none
      w).data = .obj (spreadInto [("action", action)] details) ∧
    getField (spreadInto [("action", action)] details) "action" =
      some ((getField details.ownProperties "action").getD action) ∧
    (key ≠ "action" → getField (spreadInto [("action", action)] details) key =
      getField details.ownProperties key) ∧
    lg.logBusinessEvent event data w =
      lg.logActivity "business_event" (.obj (spreadInto [("event", event)] data)) none w ∧
    (Logger.entryOf "business_event" (.obj (spreadInto [("event", event)] data)) none
      w).action = "business_event" ∧
    (Logger.entryOf "business_event" (.obj (spreadInto [("event", event)] data)) none
      w).data = .obj (spreadInto [("event", event)] data) ∧
    getField (spreadInto [("event", event)] data) "event" =
      some ((getField data.ownProperties "event").getD event) ∧
    (key ≠ "event" → getField (spreadInto [("event", event)] data) key =
      getField data.ownProperties key) := by
  refine ⟨rfl, rfl, rfl, ?_, ?_, rfl, rfl, rfl, ?_, ?_⟩
  · rw [getField_spreadInto _ _ _ hdetails]
    cases getField details.ownProperties "action" <;> simp [getField]
  · intro hk
    have hk1 : ¬ "action" = key := fun h => hk h.symm
    rw [getField_spreadInto _ _ _ hdetails]
    cases getField details.ownProperties key <;> simp [getField, hk1]
  · rw [getField_spreadInto _ _ _ hdata]
    cases getField data.ownProperties "event" <;> simp [getField]
  · intro hk
    have hk1 : ¬ "event" = key := fun h => hk h.symm
    rw [getField_spreadInto _ _ _ hdata]
    cases getField data.ownProperties key <;> simp [getField, hk1]

/-- The call `logUserAction('section_view', {action: 'override', section:
'browse'})`, and `logBusinessEvent('signup', {plan: 'free'})`. -/
theorem spread_overrides_named_argument_witness :
    ((JsValue.obj [("action", .str "override"),
      ("section", .str "browse")]).ownProperties.map Prod.fst).Nodup ∧
    ((JsValue.obj [("plan", .str "free")]).ownProperties.map Prod.fst).Nodup ∧
    getField (spreadInto [("action", .str "section_view")]
        (.obj [("action", .str "override"), ("section", .str "browse")])) "action" =
      some (.str "override") ∧
    getField (spreadInto [("event", .str "signup")] (.obj [("plan", .str "free")])) "event" =
      some (.str "signup") :=
  ⟨by simp [JsValue.ownProperties], by simp [JsValue.ownProperties],
    (spread_overrides_named_argument offlineLogger (.str "section_view")
      (.obj [("action", .str "override"), ("section", .str "browse")]) (.str "signup")
      (.obj [("plan", .str "free")]) sampleWorld "section"
      (by simp [JsValue.ownProperties]) (by simp [JsValue.ownProperties])).2.2.2.1,
    (spread_overrides_named_argument offlineLogger (.str "section_view")
      (.obj [("action", .str "override"), ("section", .str "browse")]) (.str "signup")
      (.obj [("plan", .str "free")]) sampleWorld "section"
      (by simp [JsValue.ownProperties]) (by simp [JsValue.ownProperties])).2.2.2.2.2.2.2.2.1⟩

/-! ## Lemmas: the search of `database.js` -/

theorem searchMatch_of_hasTextFields (term : String) (p : Post)
    (h : p.hasTextFields = true) : searchMatch term p = .ok (p.containsTerm term) := by
  obtain ⟨id, type, status, userId, category, title, description, createdAt⟩ := p
  cases title with
  | none => simp [Post.hasTextFields] at h
  | some t =>
    cases description with
    | none => simp [Post.hasTextFields] at h
    | some ds =>
      cases category with
      | none => simp [Post.hasTextFields] at h
      | some c => rfl

theorem filterPosts_of_hasTextFields (term : String) :
    ∀ posts : List Post, (∀ p, p ∈ posts → p.hasTextFields = true) →
      filterPosts term posts = .ok (posts.filter (Post.containsTerm term))
  | [], _ => rfl
  | p :: rest, h => by
    have hp := searchMatch_of_hasTextFields term p (h p (List.mem_cons_self p rest))
    have ih := filterPosts_of_hasTextFields term rest
      (fun q hq => h q (List.mem_cons_of_mem p hq))
    simp only [filterPosts, hp, ih, List.filter_cons]

theorem getPosts_ok_world (fs : Firestore) (filters : PostFilters) (w w1 : World)
    (posts : List Post) (h : getPosts fs filters w = (.ok posts, w1)) : w1 = w := by
  unfold getPosts at h
  split at h
  · simp at h
  · split at h
    · simp only [Prod.mk.injEq] at h
      exact h.2.symm
    · split at h <;>
      · simp only [Prod.mk.injEq] at h
        exact h.2.symm

theorem searchData_serialisable (term : String) (n : Int) :
    (JsValue.obj [("searchTerm", .str term), ("resultsCount", .num n)]).serialisable = true :=
  rfl

/-! ## Lemmas: the query of the REST layer -/

theorem getField_of_mem : ∀ (fields : List (String × JsValue)) (k : String) (v : JsValue),
    (fields.map Prod.fst).Nodup → (k, v) ∈ fields → getField fields k = some v
  | [], _, _, _, h => by simp at h
  | (k1, v1) :: rest, k, v, hn, h => by
    simp only [List.map_cons, List.nodup_cons] at hn
    rcases List.mem_cons.mp h with heq | hmem
    · simp only [Prod.mk.injEq] at heq
      simp [getField, heq.1, heq.2]
    · have hne : ¬ k1 = k := by
        intro hk
        subst hk
        exact hn.1 (List.mem_map.mpr ⟨(k1, v), hmem, rfl⟩)
      simp [getField, hne, getField_of_mem rest k v hn.2 hmem]

theorem queryAsStated_append (xs ys : List (String × JsValue)) :
    DatabaseIntegration.queryAsStated (xs ++ ys) =
      DatabaseIntegration.queryAsStated xs ++ DatabaseIntegration.queryAsStated ys := by
  simp [DatabaseIntegration.queryAsStated]

/-- The loop over the keys appends, for each key whose value is set, the key
and the text of the value. -/
theorem foldl_appendFilter (filters : List (String × JsValue)) :
    ∀ (rest : List (String × JsValue)) (acc : URLSearchParams),
      (∀ kv, kv ∈ rest → getField filters kv.1 = some kv.2) →
      (rest.map Prod.fst).foldl (DatabaseIntegration.appendFilter filters) acc =
        acc ++ DatabaseIntegration.queryAsStated rest
  | [], acc, _ => by simp [DatabaseIntegration.queryAsStated]
  | (k, v) :: rest, acc, h => by
    have hk : getField filters k = some v := h (k, v) (List.mem_cons_self _ _)
    have ih := foldl_appendFilter filters rest
      (DatabaseIntegration.appendFilter filters acc k)
      (fun kv hkv => h kv (List.mem_cons_of_mem _ hkv))
    rw [List.map_cons, List.foldl_cons, ih]
    cases hs : isSet v with
    | true =>
      simp [DatabaseIntegration.appendFilter, DatabaseIntegration.queryAsStated, hk, hs,
        URLSearchParams.append]
    | false =>
      simp [DatabaseIntegration.appendFilter, DatabaseIntegration.queryAsStated, hk, hs]

theorem getPosts_eq_queryAsStated (filters : List (String × JsValue))
    (h : (filters.map Prod.fst).Nodup) :
    DatabaseIntegration.getPosts filters =
      if (DatabaseIntegration.queryAsStated filters).isEmpty then .path "/posts"
      else .pathQuery "/posts" (DatabaseIntegration.queryAsStated filters) := by
  unfold DatabaseIntegration.getPosts
  rw [foldl_appendFilter filters filters []
    (fun kv hkv => getField_of_mem filters kv.1 kv.2 h hkv)]
  simp

theorem setField_of_not_mem (k : String) (v : JsValue) :
    ∀ fields : List (String × JsValue), k ∉ fields.map Prod.fst →
      setField fields k v = fields ++ [(k, v)]
  | [], _ => rfl
  | (k1, v1) :: rest, h => by
    simp only [List.map_cons, List.mem_cons, not_or] at h
    have hne : ¬ k1 = k := fun hk => h.1 hk.symm
    simp [setField, hne, setField_of_not_mem k v rest h.2]

theorem setField_keys (k : String) (v : JsValue) :
    ∀ fields : List (String × JsValue),
      (setField fields k v).map Prod.fst =
        if k ∈ fields.map Prod.fst then fields.map Prod.fst else fields.map Prod.fst ++ [k]
  | [] => by simp [setField]
  | (k1, v1) :: rest => by
    by_cases hk : k1 = k
    · subst hk
      simp [setField]
    · have hk1 : ¬ k = k1 := fun h => hk h.symm
      have ih := setField_keys k v rest
      by_cases hm : k ∈ rest.map Prod.fst
      · simp only [hm, if_true] at ih
        simp [setField, hk, hk1, ih, hm]
      · simp only [hm, if_false] at ih
        simp only [setField, hk, if_false, List.map_cons, ih, List.mem_cons, hk1, hm, or_self,
          List.cons_append]

theorem setField_nodup (k : String) (v : JsValue) (fields : List (String × JsValue))
    (h : (fields.map Prod.fst).Nodup) : ((setField fields k v).map Prod.fst).Nodup := by
  rw [setField_keys]
  by_cases hm : k ∈ fields.map Prod.fst
  · simp only [hm, if_true]
    exact h
  · simp only [hm, if_false]
    exact List.Nodup.append h (List.nodup_singleton k)
      (by
        intro x hx hx1
        rw [List.mem_singleton] at hx1
        subst hx1
        exact hm hx)

/-- The copy `{...filters}` of an object is the object. -/
theorem foldl_setField_of_nodup : ∀ (props base : List (String × JsValue)),
    ((base ++ props).map Prod.fst).Nodup →
    props.foldl (fun acc kv => setField acc kv.1 kv.2) base = base ++ props
  | [], base, _ => by simp
  | (k, v) :: rest, base, h => by
    have hk : k ∉ base.map Prod.fst := by
      intro hmem
      rw [List.map_append, List.nodup_append] at h
      exact h.2.2 hmem (by simp)
    rw [List.foldl_cons, setField_of_not_mem k v base hk,
      foldl_setField_of_nodup rest (base ++ [(k, v)]) (by simpa using h)]
    simp

theorem spreadInto_nil_obj (filters : List (String × JsValue))
    (h : (filters.map Prod.fst).Nodup) : spreadInto [] (.obj filters) = filters := by
  show List.foldl _ [] filters = filters
  rw [foldl_setField_of_nodup filters [] (by simpa using h)]
  rfl

theorem mem_queryAsStated (fields : List (String × JsValue)) (k t : String) :
    (k, t) ∈ DatabaseIntegration.queryAsStated fields ↔
      ∃ v, (k, v) ∈ fields ∧ isSet v = true ∧ t = v.toText := by
  unfold DatabaseIntegration.queryAsStated
  simp only [List.mem_map, List.mem_filter, Prod.mk.injEq]
  constructor
  · rintro ⟨⟨k1, v1⟩, ⟨hmem, hs⟩, hk, ht⟩
    simp only at hk ht
    subst hk
    exact ⟨v1, hmem, hs, ht.symm⟩
  · rintro ⟨v, hmem, hs, ht⟩
    exact ⟨(k, v), ⟨hmem, hs⟩, rfl, ht.symm⟩

theorem mem_setField_self (k : String) (v : JsValue) :
    ∀ fields : List (String × JsValue), (k, v) ∈ setField fields k v
  | [] => by simp [setField]
  | (k1, v1) :: rest => by
    by_cases hk : k1 = k
    · subst hk
      simp [setField]
    · simp [setField, hk, mem_setField_self k v rest]

/-- C30: for an object of filters (its keys are distinct), the REST
`getPosts(filters)` requests `/posts` followed by the query made of the filters
whose value is not `null`, `undefined` or `''`, in key order, each value as
text (`0` and `false` are kept), and the bare path `/posts` when no such filter
remains.  `searchPosts(term, filters)` is `getPosts` on the filters with `search`
set to the term: with the empty term and no key `search` in the filters it
makes the request of `getPosts(filters)`, and with a non-empty term the query
holds `search` with the term and with no other value. -/
theorem rest_query_is_built_from_set_filters (filters : List (String × JsValue))
    (term : String) (h : (filters.map Prod.fst).Nodup) :
    DatabaseIntegration.getPosts filters =
      (if (DatabaseIntegration.queryAsStated filters).isEmpty then .path "/posts"
        else .pathQuery "/posts" (DatabaseIntegration.queryAsStated filters)) ∧
    (isSet (.num 0) = true ∧ isSet (.bool false) = true ∧ isSet .null = false ∧
      isSet .undefined = false ∧ isSet (.str "") = false) ∧
    ((∀ kv, kv ∈ filters → isSet kv.2 = false) →
      DatabaseIntegration.getPosts filters = .path "/posts") ∧
    ("search" ∉ filters.map Prod.fst →
      DatabaseIntegration.searchPosts "" filters = DatabaseIntegration.getPosts filters) ∧
    DatabaseIntegration.searchPosts term filters =
      DatabaseIntegration.getPosts (setField filters "search" (.str term)) ∧
    (term ≠ "" →
      ∃ query, DatabaseIntegration.searchPosts term filters = .pathQuery "/posts" query ∧
        ("search", term) ∈ query ∧ ∀ t, ("search", t) ∈ query → t = term) := by
  have hsearch : DatabaseIntegration.searchPosts term filters =
      DatabaseIntegration.getPosts (setField filters "search" (.str term)) := by
    unfold DatabaseIntegration.searchPosts
    rw [spreadInto_nil_obj filters h]
  have hnodup := setField_nodup "search" (.str term) filters h
  refine ⟨getPosts_eq_queryAsStated filters h, ⟨rfl, rfl, rfl, rfl, by simp [isSet]⟩, ?_, ?_,
    hsearch, ?_⟩
  · intro hnone
    rw [getPosts_eq_queryAsStated filters h]
    have hq : DatabaseIntegration.queryAsStated filters = [] := by
      unfold DatabaseIntegration.queryAsStated
      rw [List.filter_eq_nil_iff.mpr (fun kv hkv => by simp [hnone kv hkv])]
      rfl
    rw [hq]
    rfl
  · intro hno
    unfold DatabaseIntegration.searchPosts
    rw [spreadInto_nil_obj filters h, setField_of_not_mem "search" (.str "") filters hno,
      getPosts_eq_queryAsStated _ (by
        rw [← setField_of_not_mem "search" (.str "") filters hno]
        exact setField_nodup "search" (.str "") filters h),
      getPosts_eq_queryAsStated filters h, queryAsStated_append]
    have hq : DatabaseIntegration.queryAsStated [("search", JsValue.str "")] = [] := rfl
    rw [hq, List.append_nil]
  · intro ht
    have hmem : ("search", term) ∈
        DatabaseIntegration.queryAsStated (setField filters "search" (.str term)) :=
      (mem_queryAsStated _ _ _).mpr
        ⟨.str term, mem_setField_self "search" (.str term) filters, by simp [isSet, ht], rfl⟩
    refine ⟨DatabaseIntegration.queryAsStated (setField filters "search" (.str term)), ?_,
      hmem, ?_⟩
    · rw [hsearch, getPosts_eq_queryAsStated _ hnodup]
      have hne : (DatabaseIntegration.queryAsStated
          (setField filters "search" (.str term))).isEmpty = false := by
        cases hq : DatabaseIntegration.queryAsStated (setField filters "search" (.str term)) with
        | nil => rw [hq] at hmem; simp at hmem
        | cons x xs => rfl
      simp only [hne, Bool.false_eq_true, if_false]
    · intro t hmt
      obtain ⟨v, hv, _, htv⟩ := (mem_queryAsStated _ _ _).mp hmt
      have h1 := getField_of_mem _ "search" v hnodup hv
      have h2 := getField_of_mem _ "search" (.str term) hnodup
        (mem_setField_self "search" (.str term) filters)
      rw [h1] at h2
      simp only [Option.some.injEq] at h2
      subst h2
      exact htv

/-- The filters `{type: 'loan-offer', limit: 0, category: '', search: 'old'}` and
the term `solar`. -/
theorem rest_query_is_built_from_set_filters_witness :
    (([("type", JsValue.str "loan-offer"), ("limit", .num 0), ("category", .str ""),
      ("search", .str "old")] : List (String × JsValue)).map Prod.fst).Nodup ∧
    DatabaseIntegration.getPosts [("type", .str "loan-offer"), ("limit", .num 0),
        ("category", .str ""), ("search", .str "old")] =
      .pathQuery "/posts" [("type", "loan-offer"), ("limit", "0"), ("search", "old")] ∧
    DatabaseIntegration.searchPosts "solar" [("type", .str "loan-offer"), ("limit", .num 0),
        ("category", .str ""), ("search", .str "old")] =
      DatabaseIntegration.getPosts (setField [("type", .str "loan-offer"), ("limit", .num 0),
        ("category", .str ""), ("search", .str "old")] "search" (.str "solar")) :=
  ⟨by simp, rfl,
    (rest_query_is_built_from_set_filters [("type", .str "loan-offer"), ("limit", .num 0),
      ("category", .str ""), ("search", .str "old")] "solar" (by simp)).2.2.2.2.1⟩

/-! ## Lemmas: the search of the dashboard -/

theorem searchMatch_ok_true (term : String) (p : Post) (h : searchMatch term p = .ok true) :
    p.containsTerm term = true := by
  obtain ⟨id, type, status, userId, category, title, description, createdAt⟩ := p
  cases title with
  | none => simp [searchMatch] at h
  | some t =>
    cases description with
    | none => simp [searchMatch] at h
    | some ds =>
      cases category with
      | none => simp [searchMatch] at h
      | some c =>
        simp only [searchMatch, Except.ok.injEq] at h
        exact h

theorem filterPosts_containsTerm (term : String) : ∀ (posts kept : List Post),
    filterPosts term posts = .ok kept → ∀ p, p ∈ kept → p.containsTerm term = true
  | [], kept, h => by
    simp only [filterPosts, Except.ok.injEq] at h
    intro p hp
    rw [← h] at hp
    simp at hp
  | post :: rest, kept, h => by
    simp only [filterPosts] at h
    cases hm : searchMatch term post with
    | error err => simp [hm] at h
    | ok keep =>
      cases hr : filterPosts term rest with
      | error err => simp [hm, hr] at h
      | ok kept1 =>
        simp only [hm, hr, Except.ok.injEq] at h
        intro p hp
        rw [← h] at hp
        cases keep with
        | true =>
          rcases List.mem_cons.mp hp with rfl | hp
          · exact searchMatch_ok_true term _ hm
          · exact filterPosts_containsTerm term rest kept1 hr p hp
        | false => exact filterPosts_containsTerm term rest kept1 hr p hp

theorem searchPosts_ok_containsTerm (fs : Firestore) (lg : Logger) (term : String)
    (filters : PostFilters) (w : World) (results : List Post)
    (h : (searchPosts fs lg term filters w).1 = .ok results) (ht : term ≠ "") :
    ∀ p, p ∈ results → p.containsTerm term = true := by
  unfold searchPosts at h
  cases hg : getPosts fs filters w with
  | mk outcome w1 =>
    cases outcome with
    | error err => simp [hg] at h
    | ok posts =>
      simp only [hg, ht, if_false] at h
      cases hf : filterPosts term posts with
      | error err => simp [hf] at h
      | ok kept =>
        simp only [hf] at h
        split at h
        · simp at h
        · simp only [Except.ok.injEq] at h
          intro p hp
          exact filterPosts_containsTerm term posts kept hf p (by rw [h]; exact hp)

theorem handleSearch_containsTerm (fs : Firestore) (lg : Logger) (term category : String)
    (w : World) (posts : List Post) (h : (handleSearch fs lg term category w).1 = some posts)
    (ht : term ≠ "") : ∀ p, p ∈ posts → p.containsTerm term = true := by
  unfold handleSearch at h
  cases hs : searchPosts fs lg term
      (if category = "" then PostFilters.empty
        else { PostFilters.empty with category := some category }) w with
  | mk outcome rest =>
    cases outcome with
    | error err => simp [hs] at h
    | ok results =>
      simp only [hs, Option.some.injEq] at h
      intro p hp
      exact searchPosts_ok_containsTerm fs lg term _ w results (by rw [hs]) ht p
        (by rw [h]; exact hp)

theorem admits_empty (p : Post) (h : p.status = "active") : PostFilters.empty.admits p = true := by
  simp [PostFilters.admits, PostFilters.empty, falsy, h]

/-- A search with an empty term and no category hands over every active post
of the collection. -/
theorem handleSearch_empty (fs : Firestore) (lg : Logger) (w : World)
    (hget : fs.getDocsThrows = none) :
    handleSearch fs lg "" "" w =
      (some ((fs.posts.filter PostFilters.empty.admits).insertionSort
        (fun a b => a.createdAt ≥ b.createdAt)), lg, w) := by
  simp [handleSearch, searchPosts, getPosts, hget, PostFilters.empty]

/-- C19: `loadBrowseSection` filters the posts by the role of the user, and
`handleSearch`, which feeds the same `displayBrowseResults`, does not: it never
reads the role.  For a user of any role and an active post `p` of the collection
whose type is outside the set of the role, the browse section never shows `p`
(its posts all have a type of the role), while a search with an empty term and
no category shows `p`.  What a search does restrict: its posts are active posts
of the collection, in the selected category when one is selected, that contain
the term when one is given. -/
theorem search_ignores_role (am : AuthManager) (fs : Firestore) (lg : Logger) (w : World)
    (p : Post) (hget : fs.getDocsThrows = none) (hp : p ∈ fs.posts)
    (hactive : p.status = "active")
    (hrole : p.type ∉ postTypesFor (am.userProfile.bind (fun userProfile => userProfile.role))) :
    (postTypesFor (some "investor") = ["business-idea"] ∧
      postTypesFor (some "banker") = ["business-idea"] ∧
      postTypesFor (some "advisor") = ["business-idea"] ∧
      postTypesFor (some "entrepreneur") =
        ["investment-proposal", "loan-offer", "advisory-service"]) ∧
    (∀ posts, (loadBrowseSection am fs w).1 = some posts →
      (∀ q, q ∈ posts → q ∈ fs.posts ∧ q.status = "active" ∧
        q.type ∈ postTypesFor (am.userProfile.bind (fun userProfile => userProfile.role))) ∧
      p ∉ posts) ∧
    (∃ posts, (handleSearch fs lg "" "" w).1 = some posts ∧ p ∈ posts) ∧
    (∀ (searchTerm categoryFilter : String) (posts : List Post),
      (handleSearch fs lg searchTerm categoryFilter w).1 = some posts →
      ∀ q, q ∈ posts →
        q ∈ fs.posts ∧ q.status = "active" ∧
        (categoryFilter ≠ "" → q.category = some categoryFilter) ∧
        (searchTerm ≠ "" → q.containsTerm searchTerm = true)) := by
  obtain ⟨htable, hbrowse, hsearch⟩ := browse_and_search_results am fs lg w
  refine ⟨htable, ?_, ?_, ?_⟩
  · intro posts hposts
    refine ⟨hbrowse posts hposts, ?_⟩
    intro hmem
    exact hrole (hbrowse posts hposts p hmem).2.2
  · refine ⟨_, by rw [handleSearch_empty fs lg w hget], ?_⟩
    exact (List.mem_insertionSort _).mpr
      (List.mem_filter.mpr ⟨hp, admits_empty p hactive⟩)
  · intro searchTerm categoryFilter posts hposts q hq
    obtain ⟨h1, h2, h3⟩ := hsearch searchTerm categoryFilter posts hposts q hq
    exact ⟨h1, h2, h3, fun ht =>
      handleSearch_containsTerm fs lg searchTerm categoryFilter w posts hposts ht q hq⟩

/-- C19 (witness): an investor is signed in and the collection holds an active
loan offer: the browse section shows the business idea only, and a search with
an empty term and no category shows the loan offer. -/
theorem search_ignores_role_witness :
    sampleFirestore.getDocsThrows = none ∧
    loanPost ∈ sampleFirestore.posts ∧
    loanPost.status = "active" ∧
    loanPost.type ∉
      postTypesFor (investorAuth.userProfile.bind (fun userProfile => userProfile.role)) ∧
    (loadBrowseSection investorAuth sampleFirestore sampleWorld).1 = some [ideaPost] ∧
    (handleSearch sampleFirestore (Logger.new sampleWorld) "" "" sampleWorld).1 =
      some [loanPost, ideaPost] ∧
    (∀ posts, (loadBrowseSection investorAuth sampleFirestore sampleWorld).1 = some posts →
      (∀ q, q ∈ posts → q ∈ sampleFirestore.posts ∧ q.status = "active" ∧
        q.type ∈ postTypesFor
          (investorAuth.userProfile.bind (fun userProfile => userProfile.role))) ∧
      loanPost ∉ posts) ∧
    (∃ posts, (handleSearch sampleFirestore (Logger.new sampleWorld) "" "" sampleWorld).1 =
      some posts ∧ loanPost ∈ posts) :=
  ⟨rfl, by simp [sampleFirestore], rfl, by decide, rfl, rfl,
    (search_ignores_role investorAuth sampleFirestore (Logger.new sampleWorld) sampleWorld
      loanPost rfl (by simp [sampleFirestore]) rfl (by decide)).2.1,
    (search_ignores_role investorAuth sampleFirestore (Logger.new sampleWorld) sampleWorld
      loanPost rfl (by simp [sampleFirestore]) rfl (by decide)).2.2.1⟩

/-! ## Lemmas: a post without a text field -/

theorem searchMatch_of_missing_field (term : String) (p : Post)
    (h : p.hasTextFields = false) :
    searchMatch term p =
      .error (.typeError "Cannot read properties of undefined (reading 'toLowerCase')") := by
  obtain ⟨id, type, status, userId, category, title, description, createdAt⟩ := p
  cases title with
  | none => rfl
  | some t =>
    cases description with
    | none => rfl
    | some ds =>
      cases category with
      | none => rfl
      | some c => simp [Post.hasTextFields] at h

/-- The filter of a search throws at the first post that lacks a text field. -/
theorem filterPosts_of_missing_field (term : String) :
    ∀ posts : List Post, (∃ p, p ∈ posts ∧ p.hasTextFields = false) →
      filterPosts term posts =
        .error (.typeError "Cannot read properties of undefined (reading 'toLowerCase')")
  | [], h => by
    obtain ⟨p, hp, _⟩ := h
    simp at hp
  | q :: rest, h => by
    cases hq : q.hasTextFields with
    | false => simp only [filterPosts, searchMatch_of_missing_field term q hq]
    | true =>
      have hrest : ∃ p, p ∈ rest ∧ p.hasTextFields = false := by
        obtain ⟨p, hp, hf⟩ := h
        rcases List.mem_cons.mp hp with rfl | hp
        · rw [hq] at hf
          cases hf
        · exact ⟨p, hp, hf⟩
      simp only [filterPosts, searchMatch_of_hasTextFields term q hq,
        filterPosts_of_missing_field term rest hrest]

/-- C29 (counterexample): the collection holds one active post, titled `Solar
lamps`, whose document has no description.  Its title contains the term
`solar`, but the search throws a `TypeError` at `post.description.toLowerCase()`:
nothing is returned and no activity is recorded. -/
theorem searchPosts_throws_on_missing_field :
    getPosts incompleteFirestore PostFilters.empty sampleWorld =
      (.ok [lampPost], sampleWorld) ∧
    lampPost.title = some "Solar lamps" ∧
    lampPost.description = none ∧
    includes (toLowerCase "Solar lamps") (toLowerCase "solar") = true ∧
    searchPosts incompleteFirestore offlineLogger "solar" PostFilters.empty sampleWorld =
      (.error (.typeError "Cannot read properties of undefined (reading 'toLowerCase')"),
        offlineLogger,
        sampleWorld.consoleCall .error
          [.text "Error searching posts:",
            .caught (.typeError
              "Cannot read properties of undefined (reading 'toLowerCase')")]) :=
  ⟨rfl, rfl, rfl, rfl, rfl⟩

/-- C29 (amended): let `getPosts(filters)` return `posts`.  `searchPosts('',
filters)` returns them as they are and touches neither the logger nor the
world.  With a non-empty term, when every post has a title, a description and a
category, `searchPosts(term, filters)` returns the posts of which one of the
three, put to lower case by `toLowerCase`, contains the term put to lower case,
in the order `getPosts` gave them, and its whole effect on the logger and the
world is that of the one call `logActivity('search_performed', {searchTerm: term,
resultsCount: n})`, `n` being the length of the returned list; when a post lacks
one of the three fields it throws a `TypeError`, and only writes the error to
the console.  The result depends on the term through its lower case only, and
`toLowerCase` folds the letters of any script (`SOLAR`, `ÉCOLE`, the final
sigma of `ΟΔΟΣ`). -/
theorem searchPosts_filters_and_records (fs : Firestore) (lg : Logger) (term other : String)
    (filters : PostFilters) (w w1 : World) (posts : List Post)
    (hget : getPosts fs filters w = (.ok posts, w1)) :
    w1 = w ∧
    (term = "" → searchPosts fs lg term filters w = (.ok posts, lg, w)) ∧
    (term ≠ "" → (∀ p, p ∈ posts → p.hasTextFields = true) →
      searchPosts fs lg term filters w =
        (.ok (posts.filter (Post.containsTerm term)),
          (lg.logActivity "search_performed"
            (.obj [("searchTerm", .str term),
              ("resultsCount", .num (posts.filter (Post.containsTerm term)).length)])
            none w).2)) ∧
    (term ≠ "" → (∃ p, p ∈ posts ∧ p.hasTextFields = false) →
      searchPosts fs lg term filters w =
        (.error (.typeError "Cannot read properties of undefined (reading 'toLowerCase')"),
          lg,
          w.consoleCall .error
            [.text "Error searching posts:",
              .caught (.typeError
                "Cannot read properties of undefined (reading 'toLowerCase')")])) ∧
    (posts.filter (Post.containsTerm term)).Sublist posts ∧
    (Logger.entryOf "search_performed"
      (.obj [("searchTerm", .str term),
        ("resultsCount", .num (posts.filter (Post.containsTerm term)).length)])
      none w).action = "search_performed" ∧
    (toLowerCase term = toLowerCase other →
      posts.filter (Post.containsTerm term) = posts.filter (Post.containsTerm other)) ∧
    (∀ (p : Post) (title description category : String), p.title = some title →
      p.description = some description → p.category = some category →
      p.containsTerm term =
        (includes (toLowerCase title) (toLowerCase term) ||
          includes (toLowerCase description) (toLowerCase term) ||
          includes (toLowerCase category) (toLowerCase term))) ∧
    toLowerCase "SOLAR" = "solar" ∧
    toLowerCase "ÉCOLE" = "école" ∧
    toLowerCase "ΟΔΟΣ" = "οδος" := by
  have hw := getPosts_ok_world fs filters w w1 posts hget
  subst hw
  refine ⟨rfl, ?_, ?_, ?_, List.filter_sublist _, rfl, ?_, ?_, rfl, rfl, rfl⟩
  · intro ht
    simp only [searchPosts, hget, ht, if_true]
  · intro ht hfields
    have hok := logActivity_ok_of_serialisable lg "search_performed"
      (.obj [("searchTerm", .str term),
        ("resultsCount", .num (posts.filter (Post.containsTerm term)).length)])
      none w1 (searchData_serialisable term _)
    simp only [searchPosts, hget, ht, if_false, filterPosts_of_hasTextFields term posts hfields]
    cases hcall : lg.logActivity "search_performed"
      (.obj [("searchTerm", .str term),
        ("resultsCount", .num (posts.filter (Post.containsTerm term)).length)])
      none w1 with
    | mk out rest =>
      rw [hcall] at hok
      simp only at hok
      subst hok
      rfl
  · intro ht hmissing
    simp only [searchPosts, hget, ht, if_false,
      filterPosts_of_missing_field term posts hmissing]
  · intro hlower
    have hsame : Post.containsTerm term = Post.containsTerm other := by
      funext p
      simp only [Post.containsTerm, hlower]
    rw [hsame]
  · intro p title description category h1 h2 h3
    simp only [Post.containsTerm, h1, h2, h3, Option.map_some', Option.getD_some]

/-- C29 (witness): the searches for `ÉCOLE` and for `SOLAR` among three posts,
one titled `École numérique`, one titled `Solar kiosks`. -/
theorem searchPosts_filters_and_records_witness :
    getPosts searchFirestore PostFilters.empty sampleWorld =
      (.ok [schoolPost, loanPost, ideaPost], sampleWorld) ∧
    (∀ p, p ∈ [schoolPost, loanPost, ideaPost] → p.hasTextFields = true) ∧
    [schoolPost, loanPost, ideaPost].filter (Post.containsTerm "ÉCOLE") = [schoolPost] ∧
    [schoolPost, loanPost, ideaPost].filter (Post.containsTerm "SOLAR") = [ideaPost] ∧
    ("ÉCOLE" ≠ "" → (∀ p, p ∈ [schoolPost, loanPost, ideaPost] → p.hasTextFields = true) →
      searchPosts searchFirestore offlineLogger "ÉCOLE" PostFilters.empty sampleWorld =
        (.ok ([schoolPost, loanPost, ideaPost].filter (Post.containsTerm "ÉCOLE")),
          (offlineLogger.logActivity "search_performed"
            (.obj [("searchTerm", .str "ÉCOLE"),
              ("resultsCount",
                .num ([schoolPost, loanPost, ideaPost].filter
                  (Post.containsTerm "ÉCOLE")).length)])
            none sampleWorld).2)) :=
  ⟨rfl,
    by
      intro p hp
      simp only [List.mem_cons, List.mem_singleton, List.not_mem_nil, or_false] at hp
      rcases hp with rfl | rfl | rfl <;> rfl,
    rfl, rfl,
    (searchPosts_filters_and_records searchFirestore offlineLogger "ÉCOLE" "école"
      PostFilters.empty sampleWorld sampleWorld [schoolPost, loanPost, ideaPost] rfl).2.2.1⟩

end StartupBridge
